import Mathlib

/-!
# Gomoku LAN server: rules engine and match orchestration

A shallow embedding of `cpp-server/game_logic.h`, `cpp-server/database.h`, the
message handlers and the timeout monitor of `cpp-server/server.cpp` and the request
builder `sendChallenge` of `cpp-client/client.cpp`, followed by theorems about them.

Conventions of the embedding

* `std::map<uint32_t, T>` is a key-ordered association list (`mapFind`, `mapInsert`,
  `mapErase`, `mapModify`).
* Machine integers are `Nat`/`Int`; every store into a fixed-width field that can
  overflow carries its explicit modulus.
* The heap-allocated board `uint8_t *board` is a `List Nat`; the handlers only ever
  index it inside `boardSize * boardSize`.
* Clock readings (`steady_clock::now()`, `std::time(nullptr)`) are inputs of a handler
  call, collected in `Clock`, one field per call site.
* The double-precision expression of `updateEloRating` is written over `ℚ`: the exact
  result of every operation is rounded to the nearest `double` (`roundDouble`), and the
  library function `pow(10.0, ·)` is a parameter `pow10`.
* The call of `std::sort` in `getUserGameHistory` is a parameter `sort`, constrained in
  the theorems only by what `std::sort` guarantees.
* The loop of `timeoutChecker` returns an `Option`: `none` when the element under the
  loop iterator is erased, after which the C++ loop has no defined behaviour.
* Display names, password handling and the on-disk files are left out.
-/

namespace Gomoku

/-! ## `std::map` with `uint32_t` keys -/

/-- Lookup, `m.find(key)`: the value stored under `key`, if any. -/
def mapFind {α : Type} : List (Nat × α) → Nat → Option α
  | [], _ => none
  | (k, v) :: m, key => if k = key then some v else mapFind m key

/-- Assignment `m[key] = v`: replaces the value under `key` or adds the pair in key order. -/
def mapInsert {α : Type} : List (Nat × α) → Nat → α → List (Nat × α)
  | [], key, v => [(key, v)]
  | (k, w) :: m, key, v =>
    if key < k then (key, v) :: (k, w) :: m
    else if k = key then (k, v) :: m
    else (k, w) :: mapInsert m key v

/-- Removal `m.erase(key)`. -/
def mapErase {α : Type} (m : List (Nat × α)) (key : Nat) : List (Nat × α) :=
  m.filter (fun p => p.1 != key)

/-- In-place update through an iterator, `it->second = f(it->second)` after
`it = m.find(key)`, a no-op when the key is absent. -/
def mapModify {α : Type} : List (Nat × α) → Nat → (α → α) → List (Nat × α)
  | [], _, _ => []
  | (k, v) :: m, key, f =>
    if k = key then (k, f v) :: m else (k, v) :: mapModify m key f

/-! ## game_logic.h -/

/-- The record `GameState` of game_logic.h; `lastMoveTime` is a steady-clock reading in
nanoseconds. -/
structure GameState where
  gameId : Nat
  player1Id : Nat
  player2Id : Nat
  boardSize : Nat
  board : List Nat
  currentTurn : Nat
  moveCount : Nat
  timeLimit : Nat
  player1TimeLeft : Nat
  player2TimeLeft : Nat
  lastMoveTime : Int
  timerActive : Bool
  drawOffered : Bool
  drawOfferedBy : Nat
  lastGameWinner : Nat
deriving DecidableEq, Repr

/-- The read `game->board[i]`. -/
def GameState.cell (game : GameState) (i : Nat) : Nat :=
  game.board.getD i 0

/-- The C conversion `(int)v` of a 64-bit value. -/
def toInt32 (v : Int) : Int :=
  (v + 2147483648) % 4294967296 - 2147483648

/-- The conversion of an `int` to `uint16_t`. -/
def toUInt16 (v : Int) : Nat :=
  (v % 65536).toNat

/-- The conversion of an integer to `uint32_t`. -/
def toUInt32 (v : Int) : Nat :=
  (v % 4294967296).toNat

/-- `GameLogic::isValidMove`. -/
def isValidMove (game : GameState) (x y : Nat) : Bool :=
  if x ≥ game.boardSize ∨ y ≥ game.boardSize then false
  else if game.cell (y * game.boardSize + x) ≠ 0 then false
  else true

/-- One of the two inner loops of `GameLogic::checkWin`, `for (i = ..; i < ..; i++)`
with `steps` iterations left: walks from `(x, y)` in steps of `(sx, sy)` and adds one
to `count` for every stone of `player`, leaving the loop at the board edge or at the
first other cell. -/
def scanLine (game : GameState) (x y sx sy : Int) (player : Nat) :
    Nat → Int → Nat → Nat
  | 0, _, count => count
  | steps + 1, i, count =>
    let nx := x + sx * i
    let ny := y + sy * i
    if nx < 0 ∨ nx ≥ game.boardSize ∨ ny < 0 ∨ ny ≥ game.boardSize then count
    else if game.cell (ny * game.boardSize + nx).toNat = player then
      scanLine game x y sx sy player steps (i + 1) (count + 1)
    else count

/-- The table `directions[4][2]` of `GameLogic::checkWin`. -/
def directions : List (Int × Int) := [(1, 0), (0, 1), (1, 1), (1, -1)]

/-- The body of the direction loop of `GameLogic::checkWin` with both inner loops
running `cap` times: the final value of `count` for direction `d`. -/
def lineCountCap (cap : Nat) (game : GameState) (x y : Nat) (player : Nat)
    (d : Int × Int) : Nat :=
  let count := 1
  let count := scanLine game x y d.1 d.2 player cap 1 count
  let count := scanLine game x y (-d.1) (-d.2) player cap 1 count
  count

/-- The value of `count` after both loops `for (int i = 1; i < 5; i++)`. -/
def lineCount (game : GameState) (x y : Nat) (player : Nat) (d : Int × Int) : Nat :=
  lineCountCap 4 game x y player d

/-- `GameLogic::checkWin`. -/
def checkWin (game : GameState) (x y : Nat) (player : Nat) : Bool :=
  directions.any (fun d => decide (lineCount game x y player d ≥ 5))

/-- The loop of `GameLogic::checkDraw` with `n` cells left to visit from index `i`. -/
def checkDrawFrom (game : GameState) : Nat → Nat → Bool
  | 0, _ => true
  | n + 1, i => if game.cell i = 0 then false else checkDrawFrom game n (i + 1)

/-- `GameLogic::checkDraw`. -/
def checkDraw (game : GameState) : Bool :=
  checkDrawFrom game (game.boardSize * game.boardSize) 0

/-- Whole seconds between two steady-clock readings,
`duration_cast<seconds>(now - last).count()`. -/
def elapsedSeconds (last now : Int) : Int :=
  (now - last).tdiv 1000000000

/-- `GameLogic::updateTimeAfterMove`, with the clock reading `now`. -/
def updateTimeAfterMove (game : GameState) (now : Int) : GameState :=
  if game.timeLimit = 0 then game
  else
    let elapsed := elapsedSeconds game.lastMoveTime now
    let game :=
      if game.currentTurn = game.player1Id then
        { game with
          player1TimeLeft :=
            toUInt16 (max 0 ((game.player1TimeLeft : Int) - toInt32 elapsed)) }
      else
        { game with
          player2TimeLeft :=
            toUInt16 (max 0 ((game.player2TimeLeft : Int) - toInt32 elapsed)) }
    { game with lastMoveTime := now }

/-- `GameLogic::checkTimeout`, with the clock reading `now`. -/
def checkTimeout (game : GameState) (now : Int) : Bool :=
  if game.timeLimit = 0 then false
  else
    let elapsed := elapsedSeconds game.lastMoveTime now
    if game.currentTurn = game.player1Id then
      decide ((game.player1TimeLeft : Int) - toInt32 elapsed ≤ 0)
    else
      decide ((game.player2TimeLeft : Int) - toInt32 elapsed ≤ 0)

/-- `GameLogic::getRemainingTime`, with the clock reading `now`. -/
def getRemainingTime (game : GameState) (playerId : Nat) (now : Int) : Nat :=
  if game.timeLimit = 0 then 0
  else
    let elapsed := elapsedSeconds game.lastMoveTime now
    if playerId = game.player1Id then
      if game.currentTurn = game.player1Id then
        toUInt16 (max 0 ((game.player1TimeLeft : Int) - toInt32 elapsed))
      else game.player1TimeLeft
    else
      if game.currentTurn = game.player2Id then
        toUInt16 (max 0 ((game.player2TimeLeft : Int) - toInt32 elapsed))
      else game.player2TimeLeft

/-! ## database.h -/

/-- The record `User` (without its name, e-mail and password hash). -/
structure User where
  userId : Nat
  eloRating : Nat
  wins : Nat
  losses : Nat
  draws : Nat
  isOnline : Bool
  inGame : Bool
deriving DecidableEq, Repr

/-- The record `Challenge`. -/
structure Challenge where
  challengeId : Nat
  challengerId : Nat
  challengedId : Nat
  boardSize : Nat
  timeLimit : Nat
  pending : Bool
deriving DecidableEq, Repr

/-- The record `MoveLog`. -/
structure MoveLog where
  moveNumber : Nat
  playerId : Nat
  x : Nat
  y : Nat
  timestamp : Nat
deriving DecidableEq, Repr

/-- The record `GameRecord` (without the two player names). -/
structure GameRecord where
  gameId : Nat
  player1Id : Nat
  player2Id : Nat
  boardSize : Nat
  winnerId : Nat
  result : Nat
  moves : List MoveLog
  startTime : Nat
  duration : Nat
  eloChange : Int
deriving DecidableEq, Repr

/-- The value-initialised `User()` returned for an unknown id. -/
def User.zero : User :=
  { userId := 0, eloRating := 0, wins := 0, losses := 0, draws := 0,
    isOnline := false, inGame := false }

/-- The value-initialised `Challenge()` returned for an unknown id. -/
def Challenge.zero : Challenge :=
  { challengeId := 0, challengerId := 0, challengedId := 0, boardSize := 0,
    timeLimit := 0, pending := false }

/-- The value-initialised `GameRecord()` returned for an unknown id. -/
def GameRecord.zero : GameRecord :=
  { gameId := 0, player1Id := 0, player2Id := 0, boardSize := 0, winnerId := 0,
    result := 0, moves := [], startTime := 0, duration := 0, eloChange := 0 }

/-- The in-memory tables and id counters of class `Database`. -/
structure Database where
  users : List (Nat × User)
  challenges : List (Nat × Challenge)
  gameRecords : List (Nat × GameRecord)
  userIdCounter : Nat
  challengeIdCounter : Nat
  gameIdCounter : Nat
deriving DecidableEq, Repr

/-- `Database::getUser`. -/
def Database.getUser (db : Database) (userId : Nat) : User :=
  match mapFind db.users userId with
  | some u => u
  | none => User.zero

/-- `Database::setUserInGame`. -/
def Database.setUserInGame (db : Database) (userId : Nat) (inGame : Bool) : Database :=
  { db with users := mapModify db.users userId (fun u => { u with inGame := inGame }) }

/-- `Database::createChallenge`: the new table and the id handed out. -/
def Database.createChallenge (db : Database) (challengerId challengedId : Nat)
    (boardSize timeLimit : Nat) : Database × Nat :=
  let challenge : Challenge :=
    { challengeId := db.challengeIdCounter
      challengerId := challengerId
      challengedId := challengedId
      boardSize := boardSize
      timeLimit := timeLimit
      pending := true }
  ({ db with
      challengeIdCounter := (db.challengeIdCounter + 1) % 4294967296
      challenges := mapInsert db.challenges challenge.challengeId challenge },
    challenge.challengeId)

/-- `Database::getChallenge`. -/
def Database.getChallenge (db : Database) (challengeId : Nat) : Challenge :=
  match mapFind db.challenges challengeId with
  | some c => c
  | none => Challenge.zero

/-- `Database::removeChallenge`. -/
def Database.removeChallenge (db : Database) (challengeId : Nat) : Database :=
  { db with challenges := mapErase db.challenges challengeId }

/-- `Database::createGame`, with `wall` the reading of `std::time(nullptr)`. -/
def Database.createGame (db : Database) (wall : Nat) (player1Id player2Id : Nat)
    (boardSize timeLimit : Nat) : Database × Nat :=
  let _unused := timeLimit
  let record : GameRecord :=
    { gameId := db.gameIdCounter
      player1Id := player1Id
      player2Id := player2Id
      boardSize := boardSize
      winnerId := 0
      result := 255
      moves := []
      startTime := wall
      duration := 0
      eloChange := 0 }
  let db := { db with
    gameIdCounter := (db.gameIdCounter + 1) % 4294967296
    gameRecords := mapInsert db.gameRecords record.gameId record }
  let db := db.setUserInGame player1Id true
  let db := db.setUserInGame player2Id true
  (db, record.gameId)

/-- `Database::logMove`, with `wall` the reading of `std::time(nullptr)`. -/
def Database.logMove (db : Database) (wall : Nat) (gameId playerId moveNumber : Nat)
    (x y : Nat) : Database :=
  match mapFind db.gameRecords gameId with
  | some r =>
    let log : MoveLog :=
      { moveNumber := moveNumber
        playerId := playerId
        x := x
        y := y
        timestamp := toUInt32 ((wall : Int) - r.startTime) }
    { db with
      gameRecords := mapModify db.gameRecords gameId
        (fun rec => { rec with moves := rec.moves ++ [log] }) }
  | none => db

/-- `Database::updateGameResult`, with `wall` the reading of `std::time(nullptr)`. -/
def Database.updateGameResult (db : Database) (wall : Nat) (gameId winnerId : Nat)
    (result : Nat) : Database :=
  match mapFind db.gameRecords gameId with
  | some r =>
    let db := { db with
      gameRecords := mapModify db.gameRecords gameId
        (fun rec => { rec with
          winnerId := winnerId
          result := result
          duration := toUInt32 ((wall : Int) - rec.startTime) }) }
    let db := db.setUserInGame r.player1Id false
    let db := db.setUserInGame r.player2Id false
    db
  | none => db

/-- `Database::getGameRecord`. -/
def Database.getGameRecord (db : Database) (gameId : Nat) : GameRecord :=
  match mapFind db.gameRecords gameId with
  | some r => r
  | none => GameRecord.zero

/-- The conversion of a `double` to an integer type: truncation toward zero. -/
def truncToInt (q : ℚ) : Int :=
  q.num.tdiv q.den

/-- The conversion of an integer to `int16_t`. -/
def toInt16 (v : Int) : Int :=
  (v + 32768) % 65536 - 32768

/-- Rounding to the nearest integer, ties to the even one. -/
def roundHalfEven (q : ℚ) : Int :=
  let f := ⌊q⌋
  if q - f < 1 / 2 then f
  else if 1 / 2 < q - f then f + 1
  else if f % 2 = 0 then f
  else f + 1

/-- The `double` nearest to `q`: the IEEE 754 binary64 rounding (53 significant bits,
round to nearest, ties to even) that every `double` operation applies to its exact
result. The exponent range is not limited; the values of `updateEloRating` stay far
inside it. -/
def roundDouble (q : ℚ) : ℚ :=
  if q = 0 then 0
  else
    let ulp : ℚ := 2 ^ (Int.log 2 |q| - 52)
    roundHalfEven (q / ulp) * ulp

/-- The value of the call `pow(10.0, (loserElo - winnerElo) / 400.0)` in
`Database::updateEloRating`: the quotient is rounded to `double`, and `pow10 e` stands
for the library result `pow(10.0, e)`. -/
def eloPower (pow10 : ℚ → ℚ) (winnerElo loserElo : Int) : ℚ :=
  pow10 (roundDouble (((loserElo - winnerElo : Int) : ℚ) / 400))

/-- The `double` value of `K * (1.0 - expectedWinner)` in `Database::updateEloRating`,
with `expectedWinner = 1.0 / (1.0 + pow(10.0, (loserElo - winnerElo) / 400.0))`: the
result of every operation is rounded to `double`. -/
def eloDouble (pow10 : ℚ → ℚ) (winnerElo loserElo : Int) : ℚ :=
  let K : Int := 32
  let expectedWinner : ℚ :=
    roundDouble (1 / roundDouble (1 + eloPower pow10 winnerElo loserElo))
  roundDouble ((K : ℚ) * roundDouble (1 - expectedWinner))

/-- The rating change computed by `Database::updateEloRating`:
`(int16_t)(K * (1.0 - 1.0 / (1.0 + pow(10.0, (loserElo - winnerElo) / 400.0))))`. -/
def eloDelta (pow10 : ℚ → ℚ) (winnerElo loserElo : Int) : Int :=
  toInt16 (truncToInt (eloDouble pow10 winnerElo loserElo))

/-- `Database::updateEloRating`: the new tables and the returned change. -/
def Database.updateEloRating (pow10 : ℚ → ℚ) (db : Database) (winnerId loserId : Nat) :
    Database × Int :=
  match mapFind db.users winnerId, mapFind db.users loserId with
  | some w, some l =>
    let eloChange := eloDelta pow10 w.eloRating l.eloRating
    let users := mapModify db.users winnerId
      (fun u => { u with eloRating := toUInt16 ((u.eloRating : Int) + eloChange) })
    let users := mapModify users loserId
      (fun u => { u with eloRating := toUInt16 ((u.eloRating : Int) - eloChange) })
    let users := mapModify users winnerId
      (fun u => { u with wins := (u.wins + 1) % 65536 })
    let users := mapModify users loserId
      (fun u => { u with losses := (u.losses + 1) % 65536 })
    ({ db with users := users }, eloChange)
  | _, _ => (db, 0)

/-- `Database::updateDrawStats`. -/
def Database.updateDrawStats (db : Database) (player1Id player2Id : Nat) : Database :=
  let users := mapModify db.users player1Id
    (fun u => { u with draws := (u.draws + 1) % 65536 })
  let users := mapModify users player2Id
    (fun u => { u with draws := (u.draws + 1) % 65536 })
  { db with users := users }

/-! ## protocol.h -/

def MSG_CHALLENGE_RECEIVED : Nat := 21
def MSG_CHALLENGE_RESPONSE : Nat := 24
def MSG_CHALLENGE_DECLINED : Nat := 25
def MSG_GAME_START : Nat := 30
def MSG_MOVE_RESPONSE : Nat := 32
def MSG_OPPONENT_MOVE : Nat := 33
def MSG_GAME_OVER : Nat := 34
def MSG_DRAW_RECEIVED : Nat := 42
def MSG_DECLINE_DRAW : Nat := 44
def MSG_REMATCH_RECEIVED : Nat := 51
def MSG_REMATCH_DECLINED : Nat := 54
def MSG_ERROR : Nat := 99

structure ChallengeRequest where
  targetUserId : Nat
  boardSize : Nat
  timeLimit : Nat
deriving DecidableEq, Repr

structure ChallengeResponse where
  challengeId : Nat
  challengerId : Nat
  boardSize : Nat
  timeLimit : Nat
deriving DecidableEq, Repr

structure ChallengeDeclinedResponse where
  challengeId : Nat
  declinerId : Nat
deriving DecidableEq, Repr

structure GameStart where
  gameId : Nat
  player1Id : Nat
  player2Id : Nat
  boardSize : Nat
  currentTurn : Nat
  timeLimit : Nat
  player1Time : Nat
  player2Time : Nat
deriving DecidableEq, Repr

structure MoveRequest where
  gameId : Nat
  x : Nat
  y : Nat
deriving DecidableEq, Repr

structure MoveResponse where
  success : Nat
  x : Nat
  y : Nat
  player : Nat
  nextTurn : Nat
  player1Time : Nat
  player2Time : Nat
  moveNumber : Nat
deriving DecidableEq, Repr

structure GameOver where
  gameId : Nat
  winnerId : Nat
  eloChange : Int
  reason : Nat
  totalMoves : Nat
deriving DecidableEq, Repr

structure DrawRequest where
  gameId : Nat
deriving DecidableEq, Repr

structure RematchRequest where
  lastGameId : Nat
  opponentId : Nat
deriving DecidableEq, Repr

structure ResignRequest where
  gameId : Nat
deriving DecidableEq, Repr

/-- The payload of an outgoing message. -/
inductive Payload where
  | error (text : String)
  | challengeReceived (r : ChallengeResponse)
  | challengeId (id : Nat)
  | challengeDeclined (r : ChallengeDeclinedResponse)
  | gameStart (m : GameStart)
  | move (r : MoveResponse)
  | gameOver (m : GameOver)
  | draw (r : DrawRequest)
  | rematch (r : RematchRequest)
  | rematchDeclined (lastGameId : Nat)
deriving DecidableEq, Repr

/-- One call of `sendMessage(socket, type, userId, 0, payload, ..)`. -/
structure Sent where
  socket : Int
  type : Nat
  userId : Nat
  payload : Payload
deriving DecidableEq, Repr

/-! ## server.cpp -/

/-- The tables of class `GomokuServer`. -/
structure ServerState where
  clientSockets : List (Nat × Nat)
  userSockets : List (Nat × Int)
  activeGames : List (Nat × GameState)
  userToGame : List (Nat × Nat)
  pendingRematches : List (Nat × RematchRequest)
  db : Database
deriving DecidableEq, Repr

/-- The clock readings made during one handler call, one field per call site. -/
structure Clock where
  /-- The reading of `steady_clock::now()` in `checkTimeout`. -/
  checkNow : Int
  /-- The reading of `steady_clock::now()` in `updateTimeAfterMove`. -/
  updateNow : Int
  /-- The reading of `steady_clock::now()` the handler stores in `lastMoveTime`. -/
  turnNow : Int
  /-- The reading in `getRemainingTime(game, game->player1Id)`. -/
  remain1Now : Int
  /-- The reading in `getRemainingTime(game, game->player2Id)`. -/
  remain2Now : Int
  /-- The reading of `std::time(nullptr)` in `createGame`. -/
  startWall : Nat
  /-- The reading of `std::time(nullptr)` in `logMove`. -/
  logWall : Nat
  /-- The reading of `std::time(nullptr)` in `updateGameResult`. -/
  endWall : Nat
deriving DecidableEq, Repr

/-- `GomokuServer::sendError`. -/
def sendError (socket : Int) (message : String) : Sent :=
  { socket := socket, type := MSG_ERROR, userId := 0, payload := Payload.error message }

/-- The guarded send `if (it != userSockets.end()) sendMessage(it->second, ..)` to the
socket of user `target`. -/
def sendToUser (s : ServerState) (target : Nat) (type userId : Nat) (payload : Payload) :
    List Sent :=
  match mapFind s.userSockets target with
  | some sock => [{ socket := sock, type := type, userId := userId, payload := payload }]
  | none => []

/-- Writing through the pointer `GameState *game = it->second` obtained from
`activeGames.find(gameId)`: the record stored under `gameId` becomes `game`. -/
def storeGame (s : ServerState) (gameId : Nat) (game : GameState) : ServerState :=
  { s with activeGames := mapModify s.activeGames gameId (fun _ => game) }

/-- The stone of `userId` in `game`, `(game->player1Id == userId) ? 1 : 2`. -/
def stoneOf (game : GameState) (userId : Nat) : Nat :=
  if game.player1Id = userId then 1 else 2

/-- The opponent of `userId` in `game`,
`(game->player1Id == userId) ? game->player2Id : game->player1Id`. -/
def opponentOf (game : GameState) (userId : Nat) : Nat :=
  if game.player1Id = userId then game.player2Id else game.player1Id

/-- `GomokuServer::cleanupGame`. -/
def cleanupGame (s : ServerState) (gameId : Nat) : ServerState :=
  match mapFind s.activeGames gameId with
  | some game =>
    let userToGame := mapErase s.userToGame game.player1Id
    let userToGame := mapErase userToGame game.player2Id
    { s with userToGame := userToGame, activeGames := mapErase s.activeGames gameId }
  | none => s

/-- `GomokuServer::handleGameOver`. -/
def handleGameOver (pow10 : ℚ → ℚ) (s : ServerState) (clk : Clock) (game : GameState)
    (winnerId : Nat) (reason : Nat) : ServerState × List Sent :=
  let result := if winnerId = game.player1Id then 0 else 1
  let db := s.db.updateGameResult clk.endWall game.gameId winnerId result
  let loserId := opponentOf game winnerId
  let updated := db.updateEloRating pow10 winnerId loserId
  let eloChange := updated.2
  let s := { s with db := updated.1 }
  let gameOver : GameOver :=
    { gameId := game.gameId
      winnerId := winnerId
      eloChange := eloChange
      reason := reason
      totalMoves := game.moveCount }
  let out :=
    sendToUser s game.player1Id MSG_GAME_OVER game.player1Id (Payload.gameOver gameOver)
    ++ sendToUser s game.player2Id MSG_GAME_OVER game.player2Id (Payload.gameOver gameOver)
  (cleanupGame s game.gameId, out)

/-- `GomokuServer::handleGameDraw`. -/
def handleGameDraw (s : ServerState) (clk : Clock) (game : GameState) :
    ServerState × List Sent :=
  let db := s.db.updateGameResult clk.endWall game.gameId 0 2
  let db := db.updateDrawStats game.player1Id game.player2Id
  let s := { s with db := db }
  let gameOver : GameOver :=
    { gameId := game.gameId
      winnerId := 0
      eloChange := 0
      reason := 3
      totalMoves := game.moveCount }
  let out :=
    sendToUser s game.player1Id MSG_GAME_OVER game.player1Id (Payload.gameOver gameOver)
    ++ sendToUser s game.player2Id MSG_GAME_OVER game.player2Id (Payload.gameOver gameOver)
  (cleanupGame s game.gameId, out)

/-- `GomokuServer::handleSendChallenge`. -/
def handleSendChallenge (s : ServerState) (clientSocket : Int) (challengerId : Nat)
    (req : ChallengeRequest) : ServerState × List Sent :=
  let created :=
    s.db.createChallenge challengerId req.targetUserId req.boardSize req.timeLimit
  let challengeId := created.2
  let s := { s with db := created.1 }
  let response : ChallengeResponse :=
    { challengeId := challengeId
      challengerId := challengerId
      boardSize := req.boardSize
      timeLimit := req.timeLimit }
  let out :=
    sendToUser s req.targetUserId MSG_CHALLENGE_RECEIVED 0
      (Payload.challengeReceived response)
    ++ [{ socket := clientSocket, type := MSG_CHALLENGE_RESPONSE, userId := challengerId,
          payload := Payload.challengeId challengeId }]
  (s, out)

/-- The `GameState` built by `handleAcceptChallenge` for `challenge`, accepted by
`userId`, under the new id `gameId`; `now` is the reading stored in `lastMoveTime`. -/
def newGame (challenge : Challenge) (userId gameId : Nat) (now : Int) : GameState :=
  { gameId := gameId
    player1Id := challenge.challengerId
    player2Id := userId
    boardSize := challenge.boardSize
    board := List.replicate (challenge.boardSize * challenge.boardSize) 0
    currentTurn := challenge.challengerId
    moveCount := 0
    timeLimit := challenge.timeLimit
    player1TimeLeft := challenge.timeLimit
    player2TimeLeft := challenge.timeLimit
    lastMoveTime := now
    timerActive := decide (challenge.timeLimit > 0)
    drawOffered := false
    drawOfferedBy := 0
    lastGameWinner := 0 }

/-- `GomokuServer::handleAcceptChallenge`. -/
def handleAcceptChallenge (s : ServerState) (clk : Clock) (clientSocket : Int)
    (userId : Nat) (challengeId : Nat) : ServerState × List Sent :=
  let challenge := s.db.getChallenge challengeId
  if challenge.challengeId = 0 then
    (s, [sendError clientSocket "Challenge not found or expired"])
  else
    let db := s.db.removeChallenge challengeId
    let created := db.createGame clk.startWall challenge.challengerId userId
      challenge.boardSize challenge.timeLimit
    let db := created.1
    let gameId := created.2
    let game := newGame challenge userId gameId clk.turnNow
    let activeGames := mapInsert s.activeGames gameId game
    let userToGame := mapInsert s.userToGame challenge.challengerId gameId
    let userToGame := mapInsert userToGame userId gameId
    let s := { s with db := db, activeGames := activeGames, userToGame := userToGame }
    let startMsg : GameStart :=
      { gameId := gameId
        player1Id := challenge.challengerId
        player2Id := userId
        boardSize := challenge.boardSize
        currentTurn := challenge.challengerId
        timeLimit := challenge.timeLimit
        player1Time := challenge.timeLimit
        player2Time := challenge.timeLimit }
    let out :=
      sendToUser s challenge.challengerId MSG_GAME_START challenge.challengerId
        (Payload.gameStart startMsg)
      ++ sendToUser s userId MSG_GAME_START userId (Payload.gameStart startMsg)
    (s, out)

/-- `GomokuServer::handleDeclineChallenge`. -/
def handleDeclineChallenge (s : ServerState) (clientSocket : Int) (userId : Nat)
    (challengeId : Nat) : ServerState × List Sent :=
  let _unused := clientSocket
  let challenge := s.db.getChallenge challengeId
  if challenge.challengeId = 0 then (s, [])
  else
    let s := { s with db := s.db.removeChallenge challengeId }
    let response : ChallengeDeclinedResponse :=
      { challengeId := challengeId, declinerId := userId }
    (s, sendToUser s challenge.challengerId MSG_CHALLENGE_DECLINED 0
          (Payload.challengeDeclined response))

/-- The blocks "Update time" and "Make move" of `handleMakeMove`: the clock of the
mover is charged, the stone is written to `board[y * boardSize + x]` and `moveCount`
is incremented. -/
def placeStone (game : GameState) (userId x y : Nat) (now : Int) : GameState :=
  let game := updateTimeAfterMove game now
  let player := stoneOf game userId
  let game := { game with board := game.board.set (y * game.boardSize + x) player }
  { game with moveCount := (game.moveCount + 1) % 4294967296 }

/-- The blocks "Continue game" and "Clear draw offer" of `handleMakeMove`. -/
def passTurn (game : GameState) (userId : Nat) (now : Int) : GameState :=
  let game := { game with currentTurn := opponentOf game userId }
  let game := { game with lastMoveTime := now }
  let game := { game with drawOffered := false }
  { game with drawOfferedBy := 0 }

/-- The `MoveResponse` filled in by `handleMakeMove`. -/
def moveResponse (game : GameState) (clk : Clock) (x y player : Nat) : MoveResponse :=
  { success := 1
    x := x
    y := y
    player := player
    nextTurn := game.currentTurn
    player1Time := getRemainingTime game game.player1Id clk.remain1Now
    player2Time := getRemainingTime game game.player2Id clk.remain2Now
    moveNumber := game.moveCount }

/-- `GomokuServer::handleMakeMove`. -/
def handleMakeMove (pow10 : ℚ → ℚ) (s : ServerState) (clk : Clock) (clientSocket : Int)
    (userId : Nat) (req : MoveRequest) : ServerState × List Sent :=
  match mapFind s.activeGames req.gameId with
  | none => (s, [sendError clientSocket "Game not found"])
  | some game =>
    if game.currentTurn ≠ userId then
      (s, [sendError clientSocket "Not your turn"])
    else if game.timeLimit > 0 ∧ checkTimeout game clk.checkNow = true then
      handleGameOver pow10 s clk game (opponentOf game userId) 2
    else if ¬ (isValidMove game req.x req.y = true) then
      (s, [sendError clientSocket "Invalid move - cell occupied or out of bounds"])
    else
      let game := placeStone game userId req.x req.y clk.updateNow
      let player := stoneOf game userId
      let db := s.db.logMove clk.logWall req.gameId userId game.moveCount req.x req.y
      let s := storeGame { s with db := db } req.gameId game
      if checkWin game req.x req.y player = true then
        handleGameOver pow10 s clk game userId 0
      else if checkDraw game = true then
        handleGameDraw s clk game
      else
        let game := passTurn game userId clk.turnNow
        let s := storeGame s req.gameId game
        let response := moveResponse game clk req.x req.y player
        let out :=
          sendToUser s game.player1Id MSG_MOVE_RESPONSE game.player1Id
            (Payload.move response)
          ++ sendToUser s game.player2Id MSG_OPPONENT_MOVE game.player2Id
            (Payload.move response)
        (s, out)

/-- `GomokuServer::handleResign`. -/
def handleResign (pow10 : ℚ → ℚ) (s : ServerState) (clk : Clock) (clientSocket : Int)
    (userId : Nat) (req : ResignRequest) : ServerState × List Sent :=
  match mapFind s.activeGames req.gameId with
  | none => (s, [sendError clientSocket "Game not found"])
  | some game =>
    let winnerId := opponentOf game userId
    handleGameOver pow10 s clk game winnerId 1

/-- `GomokuServer::handleOfferDraw`. -/
def handleOfferDraw (s : ServerState) (clientSocket : Int) (userId : Nat)
    (req : DrawRequest) : ServerState × List Sent :=
  match mapFind s.activeGames req.gameId with
  | none => (s, [sendError clientSocket "Game not found"])
  | some game =>
    if game.drawOffered = true then
      (s, [sendError clientSocket "Draw already offered"])
    else
      let game := { game with drawOffered := true }
      let game := { game with drawOfferedBy := userId }
      let s := storeGame s req.gameId game
      let opponentId := opponentOf game userId
      (s, sendToUser s opponentId MSG_DRAW_RECEIVED 0 (Payload.draw req))

/-- `GomokuServer::handleAcceptDraw`. -/
def handleAcceptDraw (s : ServerState) (clk : Clock) (clientSocket : Int) (userId : Nat)
    (req : DrawRequest) : ServerState × List Sent :=
  match mapFind s.activeGames req.gameId with
  | none => (s, [sendError clientSocket "Game not found"])
  | some game =>
    if ¬ (game.drawOffered = true) ∨ game.drawOfferedBy = userId then
      (s, [sendError clientSocket "No draw offer to accept"])
    else
      handleGameDraw s clk game

/-- `GomokuServer::handleDeclineDraw`. -/
def handleDeclineDraw (s : ServerState) (clientSocket : Int) (userId : Nat)
    (req : DrawRequest) : ServerState × List Sent :=
  let _unused := clientSocket
  match mapFind s.activeGames req.gameId with
  | none => (s, [])
  | some game =>
    let game := { game with drawOffered := false }
    let game := { game with drawOfferedBy := 0 }
    let s := storeGame s req.gameId game
    let offererId := opponentOf game userId
    let response : DrawRequest := { gameId := req.gameId }
    (s, sendToUser s offererId MSG_DECLINE_DRAW 0 (Payload.draw response))

/-- `GomokuServer::handleRequestRematch`. -/
def handleRequestRematch (s : ServerState) (clientSocket : Int) (userId : Nat)
    (req : RematchRequest) : ServerState × List Sent :=
  let _unused := (clientSocket, userId)
  let s := { s with pendingRematches := mapInsert s.pendingRematches req.lastGameId req }
  (s, sendToUser s req.opponentId MSG_REMATCH_RECEIVED 0 (Payload.rematch req))

/-- `GomokuServer::handleAcceptRematch`. -/
def handleAcceptRematch (s : ServerState) (clk : Clock) (clientSocket : Int)
    (userId : Nat) (lastGameId : Nat) : ServerState × List Sent :=
  match mapFind s.pendingRematches lastGameId with
  | none => (s, [sendError clientSocket "Rematch request not found"])
  | some req =>
    let s := { s with pendingRematches := mapErase s.pendingRematches lastGameId }
    let prevGame := s.db.getGameRecord lastGameId
    let created := s.db.createChallenge req.opponentId userId prevGame.boardSize 0
    let challengeId := created.2
    let s := { s with db := created.1 }
    handleAcceptChallenge s clk clientSocket userId challengeId

/-- `GomokuServer::handleDeclineRematch`. -/
def handleDeclineRematch (s : ServerState) (clientSocket : Int) (userId : Nat)
    (lastGameId : Nat) : ServerState × List Sent :=
  let _unused := (clientSocket, userId)
  match mapFind s.pendingRematches lastGameId with
  | none => (s, [])
  | some req =>
    let s := { s with pendingRematches := mapErase s.pendingRematches lastGameId }
    (s, sendToUser s req.opponentId MSG_REMATCH_DECLINED 0
          (Payload.rematchDeclined lastGameId))

/-- The game-related messages dispatched by `GomokuServer::processMessage`, each with
its decoded payload. -/
inductive Message where
  | sendChallenge (req : ChallengeRequest)
  | acceptChallenge (challengeId : Nat)
  | declineChallenge (challengeId : Nat)
  | makeMove (req : MoveRequest)
  | resign (req : ResignRequest)
  | offerDraw (req : DrawRequest)
  | acceptDraw (req : DrawRequest)
  | declineDraw (req : DrawRequest)
  | requestRematch (req : RematchRequest)
  | acceptRematch (lastGameId : Nat)
  | declineRematch (lastGameId : Nat)
deriving DecidableEq, Repr

/-- `GomokuServer::processMessage` on the game-related message types; `userId` is
`header.userId`. -/
def processMessage (pow10 : ℚ → ℚ) (s : ServerState) (clk : Clock) (clientSocket : Int)
    (userId : Nat) : Message → ServerState × List Sent
  | Message.sendChallenge req => handleSendChallenge s clientSocket userId req
  | Message.acceptChallenge id => handleAcceptChallenge s clk clientSocket userId id
  | Message.declineChallenge id => handleDeclineChallenge s clientSocket userId id
  | Message.makeMove req => handleMakeMove pow10 s clk clientSocket userId req
  | Message.resign req => handleResign pow10 s clk clientSocket userId req
  | Message.offerDraw req => handleOfferDraw s clientSocket userId req
  | Message.acceptDraw req => handleAcceptDraw s clk clientSocket userId req
  | Message.declineDraw req => handleDeclineDraw s clientSocket userId req
  | Message.requestRematch req => handleRequestRematch s clientSocket userId req
  | Message.acceptRematch id => handleAcceptRematch s clk clientSocket userId id
  | Message.declineRematch id => handleDeclineRematch s clientSocket userId id

/-- The fields of a decoded message fit their wire types (`uint8_t` coordinates and
board size, `uint16_t` time limit). -/
def Message.InRange : Message → Prop
  | Message.sendChallenge req => req.boardSize < 256 ∧ req.timeLimit < 65536
  | Message.makeMove req => req.x < 256 ∧ req.y < 256
  | _ => True

/-- A server that has just started: no match, challenge or rematch request exists yet
and `challengeIdCounter` has the value 1 given by the constructor of `Database`; the
user and game-record tables and the other two counters are whatever was loaded from
disk, with board sizes that fit `uint8_t`. -/
def ServerState.Initial (s : ServerState) : Prop :=
  s.activeGames = [] ∧ s.userToGame = [] ∧ s.pendingRematches = [] ∧
    s.db.challenges = [] ∧ s.db.challengeIdCounter = 1 ∧
    ∀ p ∈ s.db.gameRecords, p.2.boardSize < 256

/-- The states the server can reach from a start state.

* `step`: `processMessage` handles an in-range game message, from any socket and with
  any header user id and clock readings.
* `gameOver`: the call `handleGameOver(game, winnerId, reason)` that `timeoutChecker`
  and `removeClient` make for a match found in `activeGames`, here for any such match,
  winner and reason.
* `session`: registration, login and logout, which rebind sockets and change the
  user table and never touch matches, challenges or game records, here as any change
  of the socket tables, the user table and the user id counter. -/
inductive Reachable (pow10 : ℚ → ℚ) : ServerState → Prop where
  | start (s : ServerState) (h : s.Initial) : Reachable pow10 s
  | step (s : ServerState) (clk : Clock) (clientSocket : Int) (userId : Nat)
      (msg : Message) (h : Reachable pow10 s) (hmsg : msg.InRange) :
      Reachable pow10 (processMessage pow10 s clk clientSocket userId msg).1
  | gameOver (s : ServerState) (clk : Clock) (key : Nat) (game : GameState)
      (winnerId reason : Nat) (h : Reachable pow10 s)
      (hgame : mapFind s.activeGames key = some game) :
      Reachable pow10 (handleGameOver pow10 s clk game winnerId reason).1
  | session (s : ServerState) (clientSockets : List (Nat × Nat))
      (userSockets : List (Nat × Int)) (users : List (Nat × User)) (userIdCounter : Nat)
      (h : Reachable pow10 s) :
      Reachable pow10
        { s with
          clientSockets := clientSockets
          userSockets := userSockets
          db := { s.db with users := users, userIdCounter := userIdCounter } }

/-! ## Specification-side notions for the rules engine -/

/-- The cell with signed coordinates `(cx, cy)` lies on the board and holds `player`. -/
def holdsAt (game : GameState) (cx cy : Int) (player : Nat) : Prop :=
  0 ≤ cx ∧ cx < game.boardSize ∧ 0 ≤ cy ∧ cy < game.boardSize ∧
    game.cell (cy * game.boardSize + cx).toNat = player

/-- The maximal contiguous run of `player` stones through `(x, y)` along `d` extends
exactly `a` cells against the direction and `b` cells along it: every cell from
offset `-a` to offset `b` holds `player`, and the cells just beyond both ends do not. -/
def IsMaximalRun (game : GameState) (x y : Nat) (player : Nat) (d : Int × Int)
    (a b : Nat) : Prop :=
  (∀ k : Int, -(a : Int) ≤ k → k ≤ b →
      holdsAt game (x + d.1 * k) (y + d.2 * k) player) ∧
    ¬ holdsAt game (x + d.1 * ((b : Int) + 1)) (y + d.2 * ((b : Int) + 1)) player ∧
    ¬ holdsAt game (x + d.1 * (-((a : Int) + 1))) (y + d.2 * (-((a : Int) + 1))) player

/-- The uncapped-by-four variant of `checkWin`: both scans run up to `cap` steps. -/
def checkWinCap (cap : Nat) (game : GameState) (x y : Nat) (player : Nat) : Bool :=
  directions.any (fun d => decide (lineCountCap cap game x y player d ≥ 5))

/-! ## Specification-side notions for matches -/

/-- The number of non-empty cells of a board. -/
def occupiedCells (board : List Nat) : Nat :=
  board.countP (fun c => c != 0)

/-- The participant ids and the board size of a game record, the fields that no
database operation changes once the record exists. -/
def GameRecord.core (r : GameRecord) : Nat × Nat × Nat :=
  (r.player1Id, r.player2Id, r.boardSize)

/-- The per-match invariant: the board has `boardSize * boardSize` cells with a
`uint8_t` board size, `moveCount` counts its stones, and the turn is with one of the
two participants. -/
def GameState.Inv (g : GameState) : Prop :=
  g.boardSize < 256 ∧ g.board.length = g.boardSize * g.boardSize ∧
    g.moveCount = occupiedCells g.board ∧
    (g.currentTurn = g.player1Id ∨ g.currentTurn = g.player2Id)

/-- The server invariant: every active match is stored under its own id, satisfies
the per-match invariant and has a game record naming the same two participants; all
stored board sizes fit `uint8_t`. -/
def ServerState.Inv (s : ServerState) : Prop :=
  (∀ k g, mapFind s.activeGames k = some g →
      g.gameId = k ∧ g.Inv ∧
        (mapFind s.db.gameRecords k).map GameRecord.core
          = some (g.player1Id, g.player2Id, g.boardSize)) ∧
    (∀ k c, mapFind s.db.challenges k = some c → c.boardSize < 256) ∧
    (∀ k r, mapFind s.db.gameRecords k = some r → r.boardSize < 256)

/-! ## Sessions -/

/-- One incoming message as `handleClient` hands it to `processMessage`: the clock
readings of the call, the socket it arrived on, `header.userId` and the payload. -/
structure Input where
  clk : Clock
  clientSocket : Int
  userId : Nat
  msg : Message

/-- The server state after handling a list of messages in order. -/
def run (pow10 : ℚ → ℚ) (s : ServerState) : List Input → ServerState
  | [] => s
  | i :: rest =>
    run pow10 (processMessage pow10 s i.clk i.clientSocket i.userId i.msg).1 rest

/-- A clock whose readings are all zero. -/
def demoClock : Clock :=
  { checkNow := 0, updateNow := 0, turnNow := 0, remain1Now := 0, remain2Now := 0,
    startWall := 0, logWall := 0, endWall := 0 }

/-- A `pow` stand-in that is right at exponent zero, the only exponent the sessions
below reach. -/
def demoPow10 : ℚ → ℚ :=
  fun _ => 1

/-- A user as `createUser` makes it, after `draws` drawn games. -/
def demoUser (userId draws : Nat) : User :=
  { userId := userId, eloRating := 1000, wins := 0, losses := 0, draws := draws,
    isOnline := true, inGame := false }

/-- A freshly started server with users 1 and 2 connected on sockets 10 and 11, each
with `draws` drawn games on record. -/
def demoStart (draws : Nat) : ServerState :=
  { clientSockets := [(10, 1), (11, 2)]
    userSockets := [(1, 10), (2, 11)]
    activeGames := []
    userToGame := []
    pendingRematches := []
    db :=
      { users := [(1, demoUser 1 draws), (2, demoUser 2 draws)]
        challenges := []
        gameRecords := []
        userIdCounter := 3
        challengeIdCounter := 1
        gameIdCounter := 1 } }

/-- User 1 challenges user 2 on a `boardSize` board without time limit. -/
def demoSendChallenge (boardSize : Nat) : Input :=
  { clk := demoClock, clientSocket := 10, userId := 1,
    msg := Message.sendChallenge
      { targetUserId := 2, boardSize := boardSize, timeLimit := 0 } }

/-- User 1 challenges user 2 on a `boardSize` board without time limit and user 2
accepts: challenge 1 becomes game 1. -/
def demoOpening (boardSize : Nat) : List Input :=
  [ demoSendChallenge boardSize,
    { clk := demoClock, clientSocket := 11, userId := 2,
      msg := Message.acceptChallenge 1 } ]

/-- A move of `userId` in game 1. -/
def demoMove (userId x y : Nat) : Input :=
  { clk := demoClock, clientSocket := 9 + userId, userId := userId,
    msg := Message.makeMove { gameId := 1, x := x, y := y } }

/-- The challenge that `demoOpening` stores under id 1. -/
def demoChallenge (boardSize : Nat) : Challenge :=
  { challengeId := 1, challengerId := 1, challengedId := 2, boardSize := boardSize,
    timeLimit := 0, pending := true }

/-- The match that `demoOpening` starts. -/
def demoGame (boardSize : Nat) : GameState :=
  newGame (demoChallenge boardSize) 2 1 0

/-- A draw offer of `userId` in game 1. -/
def demoOfferDraw (userId : Nat) : Input :=
  { clk := demoClock, clientSocket := 9 + userId, userId := userId,
    msg := Message.offerDraw { gameId := 1 } }

/-- A five-cell board position with player 1 on the whole first row. -/
def demoRowGame : GameState :=
  { demoGame 5 with board := [1, 1, 1, 1, 1] ++ List.replicate 20 0, moveCount := 5 }

/-! ## Specification-side notions for the end-to-end scenario -/

/-- The board of `g` has `n * n` cells, holds stone 1 exactly at the indices `ones`,
stone 2 exactly at the indices `twos`, and is empty everywhere else. -/
def boardIs (g : GameState) (n : Nat) (ones twos : List Nat) : Prop :=
  g.boardSize = n ∧ g.board.length = n * n ∧
    ∀ idx, g.cell idx = if idx ∈ ones then 1 else if idx ∈ twos then 2 else 0

/-- The match `g` is an untimed 15 × 15 match of `A` (player 1) against `B` with
`turn` to move, the stones described by `ones` and `twos`, and as many moves counted
as there are stones. -/
def GameIs (g : GameState) (A B turn : Nat) (ones twos : List Nat) : Prop :=
  g.player1Id = A ∧ g.player2Id = B ∧ g.currentTurn = turn ∧ g.timeLimit = 0 ∧
    g.moveCount = ones.length + twos.length ∧ boardIs g 15 ones twos

/-- In state `s` the match `g` is active under the id `gameId` and has a game record,
while the user table and the socket table are those of `base`. -/
def InPlay (base s : ServerState) (gameId : Nat) (g : GameState) : Prop :=
  s.db.users = base.db.users ∧ s.userSockets = base.userSockets ∧
    (∃ r, mapFind s.db.gameRecords gameId = some r) ∧
    mapFind s.activeGames gameId = some g ∧ g.gameId = gameId

/-- The first eight moves of the end-to-end scenario in game `gameId`: `A` plays
(7,7), (8,7), (9,7), (10,7) and `B` answers each with the cell `b i`; `clk i` are the
clock readings of the i-th call. -/
def scenarioMoves (clk : Nat → Clock) (sockA sockB : Int) (A B gameId : Nat)
    (b : Nat → Nat × Nat) : List Input :=
  [ { clk := clk 0, clientSocket := sockA, userId := A,
      msg := Message.makeMove { gameId := gameId, x := 7, y := 7 } },
    { clk := clk 1, clientSocket := sockB, userId := B,
      msg := Message.makeMove { gameId := gameId, x := (b 0).1, y := (b 0).2 } },
    { clk := clk 2, clientSocket := sockA, userId := A,
      msg := Message.makeMove { gameId := gameId, x := 8, y := 7 } },
    { clk := clk 3, clientSocket := sockB, userId := B,
      msg := Message.makeMove { gameId := gameId, x := (b 1).1, y := (b 1).2 } },
    { clk := clk 4, clientSocket := sockA, userId := A,
      msg := Message.makeMove { gameId := gameId, x := 9, y := 7 } },
    { clk := clk 5, clientSocket := sockB, userId := B,
      msg := Message.makeMove { gameId := gameId, x := (b 2).1, y := (b 2).2 } },
    { clk := clk 6, clientSocket := sockA, userId := A,
      msg := Message.makeMove { gameId := gameId, x := 10, y := 7 } },
    { clk := clk 7, clientSocket := sockB, userId := B,
      msg := Message.makeMove { gameId := gameId, x := (b 3).1, y := (b 3).2 } } ]

/-- The state in which the scenario's match starts: `B` accepts the stored challenge
`challengeId` of `A`. -/
def scenarioStart (s0 : ServerState) (clk0 : Clock) (sockB : Int) (B challengeId : Nat) :
    ServerState :=
  (handleAcceptChallenge s0 clk0 sockB B challengeId).1

/-- The ninth call of the scenario: after the eight `scenarioMoves`, `A` plays (11,7)
in the match started by `scenarioStart`, whose id is `s0.db.gameIdCounter`. -/
def scenarioLast (pow10 : ℚ → ℚ) (s0 : ServerState) (clk0 : Clock) (clk : Nat → Clock)
    (sockA sockB : Int) (A B challengeId : Nat) (b : Nat → Nat × Nat) :
    ServerState × List Sent :=
  handleMakeMove pow10
    (run pow10 (scenarioStart s0 clk0 sockB B challengeId)
      (scenarioMoves clk sockA sockB A B s0.db.gameIdCounter b))
    (clk 8) sockA A { gameId := s0.db.gameIdCounter, x := 11, y := 7 }

/-- The server of `demoStart` after user 1 has challenged user 2 to a 15 × 15 untimed
match: challenge 1 is pending. -/
def demoChallenged : ServerState :=
  run demoPow10 (demoStart 0) [demoSendChallenge 15]

/-- Replies of player 2 along the top row: (0,0), (1,0), (2,0), (3,0). -/
def demoReplies : Nat → Nat × Nat :=
  fun i => (i, 0)

/-- The server of `demoStart draws` with game 1 running and a draw offer of user 1
pending. -/
def demoDrawPending (draws : Nat) : ServerState :=
  run demoPow10 (demoStart draws) (demoOpening 15 ++ [demoOfferDraw 1])

/-- The match of `demoDrawPending`. -/
def demoDrawGame : GameState :=
  { demoGame 15 with drawOffered := true, drawOfferedBy := 1 }

/-- The server of `demoStart 0` with game 1 running on a 15 × 15 board and no draw
offer pending. -/
def demoPlaying : ServerState :=
  run demoPow10 (demoStart 0) (demoOpening 15)

/-- A user table with users 1 and 2 both rated 5. -/
def demoLowRated : Database :=
  { users := [(1, { demoUser 1 0 with eloRating := 5 }),
      (2, { demoUser 2 0 with eloRating := 5 })]
    challenges := []
    gameRecords := []
    userIdCounter := 3
    challengeIdCounter := 1
    gameIdCounter := 1 }

/-- Specification side: rounding to the nearest integer (halves upward). -/
def roundNearest (q : ℚ) : Int :=
  Int.floor (q + 1 / 2)

/-- Specification side: the exact value `K * (1 - E)` with `K = 32` and
`E = 1 / (1 + P)`, where `P` is the power `10^((loserElo - winnerElo)/400)` as the
library call returns it; `updateEloRating` computes this expression in `double`
arithmetic. -/
def eloExact (pow10 : ℚ → ℚ) (winnerElo loserElo : Int) : ℚ :=
  32 * (1 - 1 / (1 + eloPower pow10 winnerElo loserElo))

/-- Specification side: the rating change as the rounded value `round(K * (1 - E))`. -/
def claimedDelta (pow10 : ℚ → ℚ) (winnerElo loserElo : Int) : Int :=
  roundNearest (eloExact pow10 winnerElo loserElo)

/-- A `pow` stand-in that is right at exponent zero and right to seven digits at
exponent `-1/4`, where `pow(10.0, -0.25) = 0.5623413...`. -/
def quarterPow10 : ℚ → ℚ :=
  fun e => if e = 0 then 1 else 5623413 / 10000000

/-- The parts of the database that only the creation and removal of challenges and the
creation of matches change: the challenge table and the id counters for challenges and
matches. -/
def Database.ids (db : Database) : List (Nat × Challenge) × Nat × Nat :=
  (db.challenges, db.challengeIdCounter, db.gameIdCounter)

/-- `ReachableIn pow10 n s`: the server reaches state `s` from a start state by steps of
the kinds listed for `Reachable`, `n` of which handle a message. -/
inductive ReachableIn (pow10 : ℚ → ℚ) : Nat → ServerState → Prop where
  | start (s : ServerState) (h : s.Initial) : ReachableIn pow10 0 s
  | step (n : Nat) (s : ServerState) (clk : Clock) (clientSocket : Int) (userId : Nat)
      (msg : Message) (h : ReachableIn pow10 n s) (hmsg : msg.InRange) :
      ReachableIn pow10 (n + 1) (processMessage pow10 s clk clientSocket userId msg).1
  | gameOver (n : Nat) (s : ServerState) (clk : Clock) (key : Nat) (game : GameState)
      (winnerId reason : Nat) (h : ReachableIn pow10 n s)
      (hgame : mapFind s.activeGames key = some game) :
      ReachableIn pow10 n (handleGameOver pow10 s clk game winnerId reason).1
  | session (n : Nat) (s : ServerState) (clientSockets : List (Nat × Nat))
      (userSockets : List (Nat × Int)) (users : List (Nat × User)) (userIdCounter : Nat)
      (h : ReachableIn pow10 n s) :
      ReachableIn pow10 n
        { s with
          clientSockets := clientSockets
          userSockets := userSockets
          db := { s.db with users := users, userIdCounter := userIdCounter } }

/-- User 1 sends `n` challenges to user 2, one after the other. -/
def demoFlood (n : Nat) : List Input :=
  List.replicate n (demoSendChallenge 15)

/-- The server of `demoStart 0` after the messages of `demoFlood n`. -/
def demoFlooded (n : Nat) : ServerState :=
  run demoPow10 (demoStart 0) (demoFlood n)

/-! ## client.cpp -/

/-- The `ChallengeRequest` that `GomokuClient::sendChallenge` of cpp-client/client.cpp
sends, from the three numbers read with `getIntInput`: a board size outside 10..19 is
replaced by 15. -/
def GomokuClient.sendChallenge (targetUserId boardSize timeLimit : Int) : ChallengeRequest :=
  { targetUserId := toUInt32 targetUserId
    boardSize := if boardSize ≥ 10 ∧ boardSize ≤ 19 then boardSize.toNat else 15
    timeLimit := toUInt16 timeLimit }

/-- User 2 accepts the draw offered in game 1. -/
def demoAcceptDraw : Input :=
  { clk := demoClock, clientSocket := 11, userId := 2,
    msg := Message.acceptDraw { gameId := 1 } }

/-- User 1 asks for a rematch of game `lastGameId`, naming user 2 as the opponent. -/
def demoRequestRematch (lastGameId : Nat) : Input :=
  { clk := demoClock, clientSocket := 10, userId := 1,
    msg := Message.requestRematch { lastGameId := lastGameId, opponentId := 2 } }

/-- User 2 accepts the rematch of game `lastGameId`. -/
def demoAcceptRematch (lastGameId : Nat) : Input :=
  { clk := demoClock, clientSocket := 11, userId := 2,
    msg := Message.acceptRematch lastGameId }

/-- Users 1 and 2 play game 1 and agree a draw; then user 1 asks for a rematch, naming
user 2, and user 2 accepts it. -/
def demoRematch : List Input :=
  demoOpening 15 ++
    [demoOfferDraw 1, demoAcceptDraw, demoRequestRematch 1, demoAcceptRematch 1]

/-- The server of `demoStart 0` after the messages of `demoRematch`. -/
def demoRematched : ServerState :=
  run demoPow10 (demoStart 0) demoRematch

/-- The messages that can start a match: the acceptance of a challenge and the
acceptance of a rematch. -/
def Message.StartsMatch : Message → Prop
  | Message.acceptChallenge _ => True
  | Message.acceptRematch _ => True
  | _ => False

/-- How the match `g'` stored under id `k` after `processMessage` has handled `msg`
from `userId` in state `s` came about: it was stored unchanged before, or it is the
match just created under the next game id, or it is the earlier match after a legal
move of the player to move, after a first draw offer of `userId`, or after a declined
draw offer. -/
def GameStep (s : ServerState) (clk : Clock) (userId : Nat) (msg : Message) (k : Nat)
    (g' : GameState) : Prop :=
  mapFind s.activeGames k = some g' ∨
  (k = s.db.gameIdCounter ∧ msg.StartsMatch ∧
    ∃ c : Challenge, g' = newGame c userId k clk.turnNow) ∨
  (∃ g req, msg = Message.makeMove req ∧ req.gameId = k ∧
    mapFind s.activeGames k = some g ∧ g.currentTurn = userId ∧
    isValidMove g req.x req.y = true ∧
    g' = passTurn (placeStone g userId req.x req.y clk.updateNow) userId clk.turnNow) ∨
  (∃ g req, msg = Message.offerDraw req ∧ req.gameId = k ∧
    mapFind s.activeGames k = some g ∧ g.drawOffered = false ∧
    g' = { g with drawOffered := true, drawOfferedBy := userId }) ∨
  (∃ g req, msg = Message.declineDraw req ∧ req.gameId = k ∧
    mapFind s.activeGames k = some g ∧
    g' = { g with drawOffered := false, drawOfferedBy := 0 })

/-- A draw offer for an active match carries the user id of one of its two players;
other messages are not restricted. -/
def Message.OfferByPlayer (s : ServerState) (userId : Nat) : Message → Prop
  | Message.offerDraw req =>
    ∀ g, mapFind s.activeGames req.gameId = some g →
      userId = g.player1Id ∨ userId = g.player2Id
  | _ => True

/-- The states the server can reach from a start state when every draw offer comes
from a player of the match it names; the constructors are those of `Reachable`. -/
inductive ReachableOffers (pow10 : ℚ → ℚ) : ServerState → Prop where
  | start (s : ServerState) (h : s.Initial) : ReachableOffers pow10 s
  | step (s : ServerState) (clk : Clock) (clientSocket : Int) (userId : Nat)
      (msg : Message) (h : ReachableOffers pow10 s) (hmsg : msg.InRange)
      (hoffer : msg.OfferByPlayer s userId) :
      ReachableOffers pow10 (processMessage pow10 s clk clientSocket userId msg).1
  | gameOver (s : ServerState) (clk : Clock) (key : Nat) (game : GameState)
      (winnerId reason : Nat) (h : ReachableOffers pow10 s)
      (hgame : mapFind s.activeGames key = some game) :
      ReachableOffers pow10 (handleGameOver pow10 s clk game winnerId reason).1
  | session (s : ServerState) (clientSockets : List (Nat × Nat))
      (userSockets : List (Nat × Int)) (users : List (Nat × User)) (userIdCounter : Nat)
      (h : ReachableOffers pow10 s) :
      ReachableOffers pow10
        { s with
          clientSockets := clientSockets
          userSockets := userSockets
          db := { s.db with users := users, userIdCounter := userIdCounter } }

/-- The server of `demoStart 0` with game 1 running and a draw offer recorded that
carries the user id 3, which is neither player. -/
def demoStrangerOffer : ServerState :=
  run demoPow10 (demoStart 0) (demoOpening 15 ++ [demoOfferDraw 3])

/-- `Follows pow10 gameId t u`: the server gets from state `t` to state `u` by steps of
the kinds listed for `Reachable`, a message that can start a match being handled only
while `gameIdCounter` is different from `gameId`, so that on the way the id `gameId` is
not handed out to a new match. -/
inductive Follows (pow10 : ℚ → ℚ) (gameId : Nat) (t : ServerState) : ServerState → Prop where
  | refl : Follows pow10 gameId t t
  | step (s : ServerState) (clk : Clock) (clientSocket : Int) (userId : Nat)
      (msg : Message) (h : Follows pow10 gameId t s) (hmsg : msg.InRange)
      (hid : msg.StartsMatch → s.db.gameIdCounter ≠ gameId) :
      Follows pow10 gameId t (processMessage pow10 s clk clientSocket userId msg).1
  | gameOver (s : ServerState) (clk : Clock) (key : Nat) (game : GameState)
      (winnerId reason : Nat) (h : Follows pow10 gameId t s)
      (hgame : mapFind s.activeGames key = some game) :
      Follows pow10 gameId t (handleGameOver pow10 s clk game winnerId reason).1
  | session (s : ServerState) (clientSockets : List (Nat × Nat))
      (userSockets : List (Nat × Int)) (users : List (Nat × User)) (userIdCounter : Nat)
      (h : Follows pow10 gameId t s) :
      Follows pow10 gameId t
        { s with
          clientSockets := clientSockets
          userSockets := userSockets
          db := { s.db with users := users, userIdCounter := userIdCounter } }

/-- User 2 accepts challenge `challengeId`. -/
def demoAccept (challengeId : Nat) : Input :=
  { clk := demoClock, clientSocket := 11, userId := 2,
    msg := Message.acceptChallenge challengeId }

/-- `n` rounds in each of which user 1 challenges user 2 and user 2 answers with an
accept of the challenge id that the round hands out; `challengeId` is the id handed out
in the first round. -/
def demoRounds : Nat → Nat → List Input
  | 0, _ => []
  | n + 1, challengeId =>
    demoSendChallenge 15 :: demoAccept challengeId ::
      demoRounds n ((challengeId + 1) % 4294967296)

/-- The server of `demoStart 0` after users 1 and 2 have played game 1 and agreed a
draw. -/
def demoEnded : ServerState :=
  run demoPow10 (demoStart 0) (demoOpening 15 ++ [demoOfferDraw 1, demoAcceptDraw])

/-- The server of `demoEnded` after `n` rounds of `demoRounds`, starting at the
challenge id 2, and one more challenge of user 1 that user 2 answers with an accept of
the challenge id 2. -/
def demoReissued (n : Nat) : ServerState :=
  run demoPow10 demoEnded (demoRounds n 2 ++ [demoSendChallenge 15, demoAccept 2])

/-- One round of `demoRounds` from state `s`: user 1 challenges user 2, and user 2
answers with an accept of the challenge id that `s` hands out. -/
def demoRound (pow10 : ℚ → ℚ) (s : ServerState) : ServerState :=
  run pow10 s [demoSendChallenge 15, demoAccept s.db.challengeIdCounter]

/-- User 1 challenges user 2 on a 15 × 15 board with 60 seconds for each side and user 2
accepts: challenge 1 becomes the timed game 1. -/
def demoTimedOpening : List Input :=
  [ { clk := demoClock, clientSocket := 10, userId := 1,
      msg := Message.sendChallenge { targetUserId := 2, boardSize := 15, timeLimit := 60 } },
    { clk := demoClock, clientSocket := 11, userId := 2,
      msg := Message.acceptChallenge 1 } ]

/-- The server after `demoTimedOpening`. -/
def demoTimed : ServerState :=
  run demoPow10 (demoStart 0) demoTimedOpening

/-- The match that `demoTimedOpening` starts. -/
def demoTimedGame : GameState :=
  newGame { demoChallenge 15 with timeLimit := 60 } 2 1 0

/-- A clock whose steady-clock readings are all `seconds` whole seconds after zero. -/
def demoClockAt (seconds : Int) : Clock :=
  { demoClock with
    checkNow := seconds * 1000000000, updateNow := seconds * 1000000000,
    turnNow := seconds * 1000000000, remain1Now := seconds * 1000000000,
    remain2Now := seconds * 1000000000 }

/-- The stone balance of a match: every cell holds 0, 1 or 2, and when the two
participants differ, the board holds as many stones 1 as stones 2 when `player1Id` is
on turn and one more stone 1 than stones 2 when `player2Id` is on turn. -/
def GameState.Balanced (g : GameState) : Prop :=
  (∀ c ∈ g.board, c = 0 ∨ c = 1 ∨ c = 2) ∧
    (g.player1Id ≠ g.player2Id →
      (g.currentTurn = g.player1Id → g.board.count 1 = g.board.count 2) ∧
      (g.currentTurn = g.player2Id → g.board.count 1 = g.board.count 2 + 1))

/-- The server of `demoEnded` after user 1 has sent `n` more challenges and then asked
for a rematch of game 1, naming user 2 as the opponent. -/
def demoRematchPending (n : Nat) : ServerState :=
  run demoPow10 demoEnded (demoFlood n ++ [demoRequestRematch 1])

/-! ## database.h: game history -/

/-- `Database::getUserGameHistory`: the completed games of `userId` in the order left by
`std::sort` with the comparator `a.startTime > b.startTime`, cut to `limit` entries.
The argument `sort` stands for that call of `std::sort`, which leaves the order of
records with equal start times open. -/
def Database.getUserGameHistory (sort : List GameRecord → List GameRecord) (db : Database)
    (userId limit : Nat) : List GameRecord :=
  let history := (db.gameRecords.map Prod.snd).filter
    (fun r => r.result != 255 && (r.player1Id == userId || r.player2Id == userId))
  let history := sort history
  if history.length > limit then history.take limit else history

/-- What `std::sort` with the comparator `a.startTime > b.startTime` guarantees: the
result is a rearrangement of the input in which no record compares before a record
placed ahead of it. -/
def SortsByStartTime (sort : List GameRecord → List GameRecord) : Prop :=
  ∀ l, List.Perm (sort l) l ∧
    List.Pairwise (fun a b => ¬ (b.startTime > a.startTime)) (sort l)

/-- One sorting function with the guarantee of `std::sort`: insertion sort, newest
first. -/
def demoSort : List GameRecord → List GameRecord :=
  List.insertionSort (fun a b => b.startTime ≤ a.startTime)

/-- A game record of `player1Id` against `player2Id` with the given result code and
start time. -/
def demoRecord (gameId player1Id player2Id result startTime : Nat) : GameRecord :=
  { gameId := gameId, player1Id := player1Id, player2Id := player2Id, boardSize := 15,
    winnerId := 0, result := result, moves := [], startTime := startTime, duration := 0,
    eloChange := 0 }

/-- A database with five game records: user 1 has three completed games (started at
times 100, 300 and 200), one unfinished game, and is absent from game 4. -/
def demoArchive : Database :=
  { (demoStart 0).db with
    gameRecords :=
      [ (1, demoRecord 1 1 2 0 100), (2, demoRecord 2 2 1 1 300),
        (3, demoRecord 3 1 2 2 200), (4, demoRecord 4 2 3 0 400),
        (5, demoRecord 5 1 2 255 500) ] }

/-! ## server.cpp: the timeout monitor -/

/-- The loop `for (auto &pair : activeGames)` of `GomokuServer::timeoutChecker` over the
keys still to visit, `clk key` being the clock readings made while the element under
`key` is visited. The loop holds an iterator to the element it is visiting.
`handleGameOver` ends in `cleanupGame`, which erases an element of `activeGames`: an
element erased before the loop reaches it is not visited, and when the element being
visited is erased the iterator is invalid, so that advancing it has no defined
behaviour and the sweep has no result (`none`). -/
def timeoutSweep (pow10 : ℚ → ℚ) (clk : Nat → Clock) :
    ServerState → List Nat → Option (ServerState × List Sent)
  | s, [] => some (s, [])
  | s, key :: rest =>
    match mapFind s.activeGames key with
    | none => timeoutSweep pow10 clk s rest
    | some game =>
      if game.timeLimit > 0 ∧ checkTimeout game (clk key).checkNow = true then
        let loserId := game.currentTurn
        let winnerId := opponentOf game loserId
        let over := handleGameOver pow10 s (clk key) game winnerId 2
        match mapFind over.1.activeGames key with
        | none => none
        | some _ =>
          (timeoutSweep pow10 clk over.1 rest).map (fun done => (done.1, over.2 ++ done.2))
      else timeoutSweep pow10 clk s rest

/-- One pass of the body of `while (running)` in `GomokuServer::timeoutChecker`, after
the sleep: the loop over all of `activeGames`. -/
def timeoutChecker (pow10 : ℚ → ℚ) (clk : Nat → Clock) (s : ServerState) :
    Option (ServerState × List Sent) :=
  timeoutSweep pow10 clk s (s.activeGames.map Prod.fst)

/-! ## Association-list maps: lemmas -/

theorem mapFind_mapInsert {α : Type} (m : List (Nat × α)) (k : Nat) (v : α) (key : Nat) :
    mapFind (mapInsert m k v) key = if k = key then some v else mapFind m key := by
  induction m with
  | nil => simp [mapInsert, mapFind]
  | cons p m ih =>
    obtain ⟨a, w⟩ := p
    simp only [mapInsert]
    by_cases h1 : k < a
    · rw [if_pos h1]
      simp only [mapFind]
    · rw [if_neg h1]
      by_cases h2 : a = k
      · rw [if_pos h2]
        simp only [mapFind, h2]
        split <;> rfl
      · rw [if_neg h2]
        simp only [mapFind, ih]
        by_cases h3 : a = key
        · rw [if_pos h3, if_pos h3, if_neg (by omega)]
        · rw [if_neg h3, if_neg h3]

theorem mapFind_mapErase {α : Type} (m : List (Nat × α)) (k : Nat) (key : Nat) :
    mapFind (mapErase m k) key = if k = key then none else mapFind m key := by
  induction m with
  | nil => simp [mapErase, mapFind]
  | cons p m ih =>
    obtain ⟨a, w⟩ := p
    unfold mapErase at ih ⊢
    by_cases h : a = k
    · rw [List.filter_cons_of_neg (by simp [h]), ih]
      simp only [mapFind]
      by_cases h3 : k = key
      · rw [if_pos h3, if_pos h3]
      · rw [if_neg h3, if_neg h3, if_neg (by omega)]
    · rw [List.filter_cons_of_pos (by simp [h])]
      simp only [mapFind, ih]
      by_cases h3 : a = key
      · rw [if_pos h3, if_pos h3, if_neg (by omega)]
      · rw [if_neg h3, if_neg h3]

theorem mapFind_mapModify {α : Type} (m : List (Nat × α)) (k : Nat) (f : α → α)
    (key : Nat) :
    mapFind (mapModify m k f) key
      = if k = key then (mapFind m key).map f else mapFind m key := by
  induction m with
  | nil => simp [mapModify, mapFind]
  | cons p m ih =>
    obtain ⟨a, w⟩ := p
    simp only [mapModify]
    by_cases h : a = k
    · rw [if_pos h]
      simp only [mapFind]
      by_cases h3 : k = key
      · rw [if_pos h3, if_pos (by omega), if_pos (by omega)]; rfl
      · rw [if_neg h3, if_neg (by omega), if_neg (by omega)]
    · rw [if_neg h]
      simp only [mapFind, ih]
      by_cases h3 : a = key
      · rw [if_pos h3, if_pos h3, if_neg (by omega)]
      · rw [if_neg h3, if_neg h3]

theorem mapFind_mem {α : Type} (m : List (Nat × α)) (key : Nat) (v : α)
    (h : mapFind m key = some v) : (key, v) ∈ m := by
  induction m with
  | nil => simp [mapFind] at h
  | cons p m ih =>
    obtain ⟨a, w⟩ := p
    simp only [mapFind] at h
    by_cases h3 : a = key
    · rw [if_pos h3] at h
      cases h
      rw [h3]
      exact List.mem_cons_self _ _
    · rw [if_neg h3] at h
      exact List.mem_cons_of_mem _ (ih h)

/-! ## Rules engine: lemmas and theorems -/

theorem scanLine_count (game : GameState) (x y sx sy : Int) (player : Nat)
    (steps : Nat) (i : Int) (count : Nat) :
    scanLine game x y sx sy player steps i count
      = count + scanLine game x y sx sy player steps i 0 := by
  induction steps generalizing i count with
  | zero => simp [scanLine]
  | succ n ih =>
    simp only [scanLine]
    split
    · simp
    · split
      · rw [ih (i + 1) (count + 1), ih (i + 1) (0 + 1)]
        omega
      · simp

theorem scanLine_spec (game : GameState) (x y sx sy : Int) (player : Nat)
    (steps : Nat) (i : Int) :
    scanLine game x y sx sy player steps i 0 ≤ steps ∧
    (∀ j : Nat, j < scanLine game x y sx sy player steps i 0 →
        holdsAt game (x + sx * (i + j)) (y + sy * (i + j)) player) ∧
    (scanLine game x y sx sy player steps i 0 < steps →
        ¬ holdsAt game
          (x + sx * (i + (scanLine game x y sx sy player steps i 0 : Nat)))
          (y + sy * (i + (scanLine game x y sx sy player steps i 0 : Nat))) player) := by
  induction steps generalizing i with
  | zero => simp [scanLine]
  | succ n ih =>
    simp only [scanLine]
    split
    next hout =>
      refine ⟨Nat.zero_le _, fun j hj => absurd hj (Nat.not_lt_zero _), fun _ => ?_⟩
      simp only [Nat.cast_zero, add_zero]
      intro h
      unfold holdsAt at h
      omega
    next hin =>
      split
      next hcell =>
        rw [scanLine_count]
        obtain ⟨h1, h2, h3⟩ := ih (i + 1)
        refine ⟨by omega, ?_, ?_⟩
        · intro j hj
          rcases Nat.eq_zero_or_pos j with rfl | hpos
          · simp only [Nat.cast_zero, add_zero]
            unfold holdsAt
            refine ⟨by omega, by omega, by omega, by omega, hcell⟩
          · have := h2 (j - 1) (by omega)
            have e : (i + 1 + ((j - 1 : Nat) : Int)) = i + (j : Int) := by omega
            rwa [e] at this
        · intro hlt
          have := h3 (by omega)
          have e : (i + 1 + ((scanLine game x y sx sy player n (i + 1) 0 : Nat) : Int))
              = i + ((0 + 1 + scanLine game x y sx sy player n (i + 1) 0 : Nat) : Int) := by
            push_cast; omega
          rwa [e] at this
      next hcell =>
        refine ⟨Nat.zero_le _, fun j hj => absurd hj (Nat.not_lt_zero _), fun _ => ?_⟩
        simp only [Nat.cast_zero, add_zero]
        intro h
        exact hcell h.2.2.2.2


/-- A scan over a stretch of exactly `b` stones followed by another cell counts
`min b steps` of them. -/
theorem scanLine_eq_min (game : GameState) (x y sx sy : Int) (player : Nat)
    (steps b : Nat)
    (hrun : ∀ k : Nat, 1 ≤ k → k ≤ b → holdsAt game (x + sx * k) (y + sy * k) player)
    (hend : ¬ holdsAt game (x + sx * ((b : Int) + 1)) (y + sy * ((b : Int) + 1)) player) :
    scanLine game x y sx sy player steps 1 0 = min b steps := by
  obtain ⟨h1, h2, h3⟩ := scanLine_spec game x y sx sy player steps 1
  generalize scanLine game x y sx sy player steps 1 0 = m at h1 h2 h3
  have hmb : m ≤ b := by
    by_contra hlt
    have := h2 b (by omega)
    have e : (1 + (b : Int)) = (b : Int) + 1 := by omega
    rw [e] at this
    exact hend this
  rcases Nat.lt_or_ge m steps with hlt | hge
  · have hn := h3 hlt
    have : ¬ m < b := by
      intro hmb2
      have := hrun (m + 1) (by omega) (by omega)
      have e : (((m + 1 : Nat)) : Int) = 1 + (m : Int) := by push_cast; omega
      rw [e] at this
      exact hn this
    omega
  · omega

/-- Stones on the board are found at most `boardSize - 1` steps away along a direction
with a nonzero horizontal or vertical component. -/
theorem holdsAt_step_lt (game : GameState) (x y : Nat) (sx sy : Int) (player : Nat)
    (hx : x < game.boardSize) (hy : y < game.boardSize)
    (hs : sx = 1 ∨ sx = -1 ∨ sy = 1 ∨ sy = -1) (k : Int)
    (h : holdsAt game (x + sx * k) (y + sy * k) player) : k < game.boardSize := by
  unfold holdsAt at h
  rcases hs with rfl | rfl | rfl | rfl <;> omega

theorem directions_step (d : Int × Int) (hd : d ∈ directions) :
    (d.1 = 1 ∨ d.1 = -1 ∨ d.2 = 1 ∨ d.2 = -1) ∧
    (-d.1 = 1 ∨ -d.1 = -1 ∨ -d.2 = 1 ∨ -d.2 = -1) := by
  simp only [directions, List.mem_cons, List.mem_singleton, List.not_mem_nil, or_false] at hd
  rcases hd with rfl | rfl | rfl | rfl <;> simp

/-- Every stone has a maximal run along each of the four directions. -/
theorem exists_maximalRun (game : GameState) (x y : Nat) (player : Nat)
    (hx : x < game.boardSize) (hy : y < game.boardSize)
    (hcell : game.cell (y * game.boardSize + x) = player)
    (d : Int × Int) (hd : d ∈ directions) :
    ∃ a b, IsMaximalRun game x y player d a b := by
  obtain ⟨hs, hs'⟩ := directions_step d hd
  obtain ⟨f1, f2, f3⟩ := scanLine_spec game x y d.1 d.2 player game.boardSize 1
  obtain ⟨g1, g2, g3⟩ := scanLine_spec game x y (-d.1) (-d.2) player game.boardSize 1
  generalize scanLine game x y d.1 d.2 player game.boardSize 1 0 = b at f1 f2 f3
  generalize scanLine game x y (-d.1) (-d.2) player game.boardSize 1 0 = a at g1 g2 g3
  have hb : b < game.boardSize := by
    rcases Nat.eq_zero_or_pos b with rfl | hpos
    · omega
    · have := holdsAt_step_lt game x y d.1 d.2 player hx hy hs (1 + ((b - 1 : Nat) : Int))
        (f2 (b - 1) (by omega))
      omega
  have ha : a < game.boardSize := by
    rcases Nat.eq_zero_or_pos a with rfl | hpos
    · omega
    · have := holdsAt_step_lt game x y (-d.1) (-d.2) player hx hy hs'
        (1 + ((a - 1 : Nat) : Int)) (g2 (a - 1) (by omega))
      omega
  refine ⟨a, b, ?_, ?_, ?_⟩
  · intro k hk1 hk2
    rcases lt_trichotomy k 0 with hneg | rfl | hpos
    · have := g2 (k.natAbs - 1) (by omega)
      have e : (1 + ((k.natAbs - 1 : Nat) : Int)) = -k := by omega
      rw [e] at this
      simpa using this
    · simp only [mul_zero, add_zero]
      refine ⟨by omega, by omega, by omega, by omega, ?_⟩
      have e : ((y : Int) * game.boardSize + x).toNat = y * game.boardSize + x := by
        have : ((y : Int) * game.boardSize + x) = ((y * game.boardSize + x : Nat) : Int) := by
          push_cast; ring
        rw [this, Int.toNat_ofNat]
      rw [e]; exact hcell
    · have := f2 (k.natAbs - 1) (by omega)
      have e : (1 + ((k.natAbs - 1 : Nat) : Int)) = k := by omega
      rwa [e] at this
  · have := f3 hb
    have e : (1 + (b : Int)) = (b : Int) + 1 := by omega
    rwa [e] at this
  · have := g3 ha
    have e : (1 + (a : Int)) = (a : Int) + 1 := by omega
    rw [e] at this
    have e1 : (x : Int) + d.1 * (-((a : Int) + 1)) = x + -d.1 * ((a : Int) + 1) := by ring
    have e2 : (y : Int) + d.2 * (-((a : Int) + 1)) = y + -d.2 * ((a : Int) + 1) := by ring
    rw [e1, e2]
    exact this

/-- The count of one direction, in terms of the maximal run. -/
theorem lineCountCap_of_maximalRun (cap : Nat) (game : GameState) (x y : Nat)
    (player : Nat) (d : Int × Int) (a b : Nat)
    (h : IsMaximalRun game x y player d a b) :
    lineCountCap cap game x y player d = 1 + min b cap + min a cap := by
  obtain ⟨hrun, hb, ha⟩ := h
  unfold lineCountCap
  simp only []
  rw [scanLine_count game x y (-d.1) (-d.2), scanLine_count game x y d.1 d.2]
  rw [scanLine_eq_min game x y d.1 d.2 player cap b
        (fun k _ hk => hrun k (by omega) (by omega)) hb]
  rw [scanLine_eq_min game x y (-d.1) (-d.2) player cap a ?_ ?_]
  · intro k _ hk
    have := hrun (-(k : Int)) (by omega) (by omega)
    simpa using this
  · have e1 : (x : Int) + d.1 * (-((a : Int) + 1)) = x + -d.1 * ((a : Int) + 1) := by ring
    have e2 : (y : Int) + d.2 * (-((a : Int) + 1)) = y + -d.2 * ((a : Int) + 1) := by ring
    rw [e1, e2] at ha
    exact ha

theorem checkWinCap_iff (cap : Nat) (hcap : 4 ≤ cap) (game : GameState) (x y : Nat)
    (player : Nat) (hx : x < game.boardSize) (hy : y < game.boardSize)
    (hcell : game.cell (y * game.boardSize + x) = player) :
    checkWinCap cap game x y player = true ↔
      ∃ d ∈ directions, ∃ a b, IsMaximalRun game x y player d a b ∧ a + b + 1 ≥ 5 := by
  unfold checkWinCap
  rw [List.any_eq_true]
  constructor
  · rintro ⟨d, hd, hcount⟩
    obtain ⟨a, b, hab⟩ := exists_maximalRun game x y player hx hy hcell d hd
    refine ⟨d, hd, a, b, hab, ?_⟩
    rw [lineCountCap_of_maximalRun cap game x y player d a b hab] at hcount
    simp only [ge_iff_le, decide_eq_true_eq] at hcount
    omega
  · rintro ⟨d, hd, a, b, hab, hlen⟩
    refine ⟨d, hd, ?_⟩
    rw [lineCountCap_of_maximalRun cap game x y player d a b hab]
    simp only [ge_iff_le, decide_eq_true_eq]
    omega

/-- Claim C1: for an in-bounds cell `(x, y)` holding `player`, `checkWin` answers true
exactly when along one of the four directions the maximal contiguous run of `player`
stones through `(x, y)` has length at least five (so overlines win too), and running
both scans for any `cap ≥ 4` steps instead of four gives the same answer. -/
theorem checkWin_iff_maximalRun (game : GameState) (x y : Nat) (player : Nat)
    (hx : x < game.boardSize) (hy : y < game.boardSize)
    (hcell : game.cell (y * game.boardSize + x) = player) :
    (checkWin game x y player = true ↔
      ∃ d ∈ directions, ∃ a b, IsMaximalRun game x y player d a b ∧ a + b + 1 ≥ 5) ∧
    (∀ cap, 4 ≤ cap → checkWinCap cap game x y player = checkWin game x y player) := by
  have h4 := checkWinCap_iff 4 (le_refl 4) game x y player hx hy hcell
  refine ⟨h4, fun cap hcap => ?_⟩
  have hc := checkWinCap_iff cap hcap game x y player hx hy hcell
  have e : checkWin game x y player = checkWinCap 4 game x y player := rfl
  rw [e, Bool.eq_iff_iff, hc, h4]



theorem isValidMove_true (game : GameState) (x y : Nat)
    (h : isValidMove game x y = true) :
    x < game.boardSize ∧ y < game.boardSize ∧
      game.cell (y * game.boardSize + x) = 0 := by
  unfold isValidMove at h
  by_cases hb : x ≥ game.boardSize ∨ y ≥ game.boardSize
  · rw [if_pos hb] at h
    exact absurd h (by decide)
  · rw [if_neg hb] at h
    by_cases hc : game.cell (y * game.boardSize + x) ≠ 0
    · rw [if_pos hc] at h
      exact absurd h (by decide)
    · exact ⟨by omega, by omega, not_not.mp hc⟩

theorem isValidMove_of_empty (game : GameState) (x y : Nat)
    (hx : x < game.boardSize) (hy : y < game.boardSize)
    (hc : game.cell (y * game.boardSize + x) = 0) :
    isValidMove game x y = true := by
  unfold isValidMove
  rw [if_neg (by omega), if_neg (fun hne => hne hc)]

/-- Claim C2: `isValidMove` answers true exactly when `x` and `y` are below `boardSize`
and the cell `board[y * boardSize + x]` is empty. -/
theorem isValidMove_iff (game : GameState) (x y : Nat) :
    isValidMove game x y = true ↔
      x < game.boardSize ∧ y < game.boardSize ∧
        game.cell (y * game.boardSize + x) = 0 := by
  constructor
  · exact isValidMove_true game x y
  · rintro ⟨hx, hy, hc⟩
    exact isValidMove_of_empty game x y hx hy hc

theorem checkDrawFrom_iff (game : GameState) (n i : Nat) :
    checkDrawFrom game n i = true ↔ ∀ j, j < n → game.cell (i + j) ≠ 0 := by
  induction n generalizing i with
  | zero => simp [checkDrawFrom]
  | succ n ih =>
    unfold checkDrawFrom
    by_cases hc : game.cell i = 0
    · rw [if_pos hc]
      constructor
      · intro h; exact absurd h (by decide)
      · intro h; exact absurd hc (h 0 (Nat.succ_pos n))
    · rw [if_neg hc, ih (i + 1)]
      constructor
      · intro h j hj
        rcases Nat.eq_zero_or_pos j with rfl | hpos
        · exact hc
        · have := h (j - 1) (by omega)
          have e : i + 1 + (j - 1) = i + j := by omega
          rwa [e] at this
      · intro h j hj
        have := h (j + 1) (by omega)
        have e : i + (j + 1) = i + 1 + j := by omega
        rwa [e] at this

/-- Claim C8: `checkDraw` answers true exactly when none of the
`boardSize * boardSize` cells of the board is empty. -/
theorem checkDraw_iff (game : GameState) :
    checkDraw game = true ↔
      ∀ i, i < game.boardSize * game.boardSize → game.cell i ≠ 0 := by
  unfold checkDraw
  rw [checkDrawFrom_iff]
  constructor
  · intro h i hi
    have := h i hi
    rwa [Nat.zero_add] at this
  · intro h j hj
    rw [Nat.zero_add]
    exact h j hj

/-! ## Database and termination paths: frame lemmas -/

theorem map_core_mapModify (m : List (Nat × GameRecord)) (k : Nat)
    (f : GameRecord → GameRecord) (hf : ∀ r, (f r).core = r.core) (key : Nat) :
    (mapFind (mapModify m k f) key).map GameRecord.core
      = (mapFind m key).map GameRecord.core := by
  rw [mapFind_mapModify]
  split
  · cases mapFind m key with
    | none => rfl
    | some r => simp [hf]
  · rfl

theorem updateGameResult_challenges (db : Database) (wall gameId winnerId result : Nat) :
    (db.updateGameResult wall gameId winnerId result).challenges = db.challenges := by
  unfold Database.updateGameResult
  cases mapFind db.gameRecords gameId <;> rfl

theorem updateGameResult_core (db : Database) (wall gameId winnerId result : Nat)
    (key : Nat) :
    (mapFind (db.updateGameResult wall gameId winnerId result).gameRecords key).map
        GameRecord.core
      = (mapFind db.gameRecords key).map GameRecord.core := by
  unfold Database.updateGameResult
  cases mapFind db.gameRecords gameId with
  | none => rfl
  | some r =>
    simp only [Database.setUserInGame]
    apply map_core_mapModify
    intro rec
    rfl

theorem logMove_challenges (db : Database) (wall gameId playerId moveNumber x y : Nat) :
    (db.logMove wall gameId playerId moveNumber x y).challenges = db.challenges := by
  unfold Database.logMove
  cases mapFind db.gameRecords gameId <;> rfl

theorem logMove_users (db : Database) (wall gameId playerId moveNumber x y : Nat) :
    (db.logMove wall gameId playerId moveNumber x y).users = db.users := by
  unfold Database.logMove
  cases mapFind db.gameRecords gameId <;> rfl

theorem logMove_core (db : Database) (wall gameId playerId moveNumber x y : Nat)
    (key : Nat) :
    (mapFind (db.logMove wall gameId playerId moveNumber x y).gameRecords key).map
        GameRecord.core
      = (mapFind db.gameRecords key).map GameRecord.core := by
  unfold Database.logMove
  cases mapFind db.gameRecords gameId with
  | none => rfl
  | some r =>
    simp only []
    apply map_core_mapModify
    intro rec
    rfl

theorem updateEloRating_gameRecords (pow10 : ℚ → ℚ) (db : Database) (w l : Nat) :
    (db.updateEloRating pow10 w l).1.gameRecords = db.gameRecords := by
  unfold Database.updateEloRating
  cases mapFind db.users w <;> cases mapFind db.users l <;> rfl

theorem updateEloRating_challenges (pow10 : ℚ → ℚ) (db : Database) (w l : Nat) :
    (db.updateEloRating pow10 w l).1.challenges = db.challenges := by
  unfold Database.updateEloRating
  cases mapFind db.users w <;> cases mapFind db.users l <;> rfl

theorem cleanupGame_db (s : ServerState) (gameId : Nat) :
    (cleanupGame s gameId).db = s.db := by
  unfold cleanupGame
  cases mapFind s.activeGames gameId <;> rfl

theorem cleanupGame_activeGames (s : ServerState) (gameId key : Nat) :
    mapFind (cleanupGame s gameId).activeGames key
      = if gameId = key then none else mapFind s.activeGames key := by
  unfold cleanupGame
  cases h : mapFind s.activeGames gameId with
  | none =>
    simp only []
    split
    next e => rw [← e, h]
    next => rfl
  | some g =>
    simp only []
    exact mapFind_mapErase _ _ _

theorem handleGameOver_activeGames (pow10 : ℚ → ℚ) (s : ServerState) (clk : Clock)
    (game : GameState) (winnerId reason key : Nat) :
    mapFind (handleGameOver pow10 s clk game winnerId reason).1.activeGames key
      = if game.gameId = key then none else mapFind s.activeGames key := by
  unfold handleGameOver
  simp only []
  rw [cleanupGame_activeGames]

theorem handleGameOver_db (pow10 : ℚ → ℚ) (s : ServerState) (clk : Clock)
    (game : GameState) (winnerId reason : Nat) :
    (handleGameOver pow10 s clk game winnerId reason).1.db
      = (Database.updateEloRating pow10
          (s.db.updateGameResult clk.endWall game.gameId winnerId
            (if winnerId = game.player1Id then 0 else 1))
          winnerId
          (opponentOf game winnerId)).1 := by
  unfold handleGameOver
  simp only []
  rw [cleanupGame_db]

theorem handleGameDraw_activeGames (s : ServerState) (clk : Clock)
    (game : GameState) (key : Nat) :
    mapFind (handleGameDraw s clk game).1.activeGames key
      = if game.gameId = key then none else mapFind s.activeGames key := by
  unfold handleGameDraw
  simp only []
  rw [cleanupGame_activeGames]

theorem handleGameDraw_db (s : ServerState) (clk : Clock) (game : GameState) :
    (handleGameDraw s clk game).1.db
      = (s.db.updateGameResult clk.endWall game.gameId 0 2).updateDrawStats
          game.player1Id game.player2Id := by
  unfold handleGameDraw
  simp only []
  rw [cleanupGame_db]

/-! ## The server invariant -/

theorem Inv_of_sub (s s' : ServerState) (h : s.Inv)
    (hact : ∀ k g, mapFind s'.activeGames k = some g → mapFind s.activeGames k = some g)
    (hch : s'.db.challenges = s.db.challenges)
    (hrec : ∀ k, (mapFind s'.db.gameRecords k).map GameRecord.core
      = (mapFind s.db.gameRecords k).map GameRecord.core) : s'.Inv := by
  obtain ⟨h1, h2, h3⟩ := h
  refine ⟨?_, ?_, ?_⟩
  · intro k g hk
    obtain ⟨a, b, c⟩ := h1 k g (hact k g hk)
    exact ⟨a, b, by rw [hrec, c]⟩
  · intro k c hk
    rw [hch] at hk
    exact h2 k c hk
  · intro k r hk
    have e := hrec k
    rw [hk] at e
    cases h0 : mapFind s.db.gameRecords k with
    | none => rw [h0] at e; simp at e
    | some r0 =>
      rw [h0] at e
      simp only [Option.map_some', Option.some.injEq, GameRecord.core, Prod.mk.injEq] at e
      have := h3 k r0 h0
      omega

theorem handleGameOver_Inv (pow10 : ℚ → ℚ) (s : ServerState) (clk : Clock)
    (game : GameState) (winnerId reason : Nat) (h : s.Inv) :
    (handleGameOver pow10 s clk game winnerId reason).1.Inv := by
  apply Inv_of_sub s _ h
  · intro k g hk
    rw [handleGameOver_activeGames] at hk
    split at hk
    · cases hk
    · exact hk
  · rw [handleGameOver_db, updateEloRating_challenges, updateGameResult_challenges]
  · intro k
    rw [handleGameOver_db, updateEloRating_gameRecords, updateGameResult_core]

theorem handleGameDraw_Inv (s : ServerState) (clk : Clock) (game : GameState)
    (h : s.Inv) : (handleGameDraw s clk game).1.Inv := by
  apply Inv_of_sub s _ h
  · intro k g hk
    rw [handleGameDraw_activeGames] at hk
    split at hk
    · cases hk
    · exact hk
  · rw [handleGameDraw_db]
    exact updateGameResult_challenges _ _ _ _ _
  · intro k
    rw [handleGameDraw_db]
    exact updateGameResult_core _ _ _ _ _ _


theorem occupiedCells_le_length (board : List Nat) : occupiedCells board ≤ board.length :=
  List.countP_le_length _

theorem occupiedCells_replicate (n : Nat) : occupiedCells (List.replicate n 0) = 0 := by
  induction n with
  | zero => rfl
  | succ n ih =>
    rw [List.replicate_succ]
    unfold occupiedCells at ih ⊢
    rw [List.countP_cons_of_neg _ _ (by simp)]
    exact ih

theorem occupiedCells_set (board : List Nat) (i v : Nat) (hi : i < board.length)
    (h0 : board.getD i 0 = 0) (hv : v ≠ 0) :
    occupiedCells (board.set i v) = occupiedCells board + 1 := by
  induction board generalizing i with
  | nil => simp at hi
  | cons c rest ih =>
    cases i with
    | zero =>
      simp only [List.getD_cons_zero] at h0
      subst h0
      simp only [List.set_cons_zero]
      unfold occupiedCells
      rw [List.countP_cons_of_pos _ _ (by simpa using hv),
        List.countP_cons_of_neg _ _ (by simp)]
    | succ j =>
      simp only [List.getD_cons_succ] at h0
      simp only [List.length_cons, Nat.add_lt_add_iff_right] at hi
      simp only [List.set_cons_succ]
      have := ih j hi h0
      unfold occupiedCells at this ⊢
      simp only [List.countP_cons]
      omega

theorem updateTimeAfterMove_frame (g : GameState) (now : Int) :
    (updateTimeAfterMove g now).gameId = g.gameId ∧
    (updateTimeAfterMove g now).player1Id = g.player1Id ∧
    (updateTimeAfterMove g now).player2Id = g.player2Id ∧
    (updateTimeAfterMove g now).boardSize = g.boardSize ∧
    (updateTimeAfterMove g now).board = g.board ∧
    (updateTimeAfterMove g now).currentTurn = g.currentTurn ∧
    (updateTimeAfterMove g now).moveCount = g.moveCount ∧
    (updateTimeAfterMove g now).timeLimit = g.timeLimit ∧
    (updateTimeAfterMove g now).drawOffered = g.drawOffered ∧
    (updateTimeAfterMove g now).drawOfferedBy = g.drawOfferedBy := by
  unfold updateTimeAfterMove
  split
  · simp
  · simp only []
    split <;> simp

theorem Inv_modify (s : ServerState) (gid : Nat) (g g' : GameState) (db' : Database)
    (h : s.Inv) (hfind : mapFind s.activeGames gid = some g)
    (hid : g'.gameId = g.gameId) (hp1 : g'.player1Id = g.player1Id)
    (hp2 : g'.player2Id = g.player2Id) (hbs : g'.boardSize = g.boardSize)
    (hinv : g'.Inv) (hch : db'.challenges = s.db.challenges)
    (hrec : ∀ k, (mapFind db'.gameRecords k).map GameRecord.core
      = (mapFind s.db.gameRecords k).map GameRecord.core) :
    (storeGame { s with db := db' } gid g').Inv := by
  obtain ⟨h1, h2, h3⟩ := h
  refine ⟨?_, ?_, ?_⟩
  · intro k g0 hk
    simp only [storeGame, mapFind_mapModify] at hk
    split at hk
    next e =>
      subst e
      rw [hfind] at hk
      simp only [Option.map_some', Option.some.injEq] at hk
      subst hk
      obtain ⟨a, _, c⟩ := h1 gid g hfind
      refine ⟨by rw [hid, a], hinv, ?_⟩
      show (mapFind db'.gameRecords gid).map GameRecord.core = _
      rw [hrec, c, hp1, hp2, hbs]
    next e =>
      obtain ⟨a, b, c⟩ := h1 k g0 hk
      refine ⟨a, b, ?_⟩
      show (mapFind db'.gameRecords k).map GameRecord.core = _
      rw [hrec, c]
  · intro k c hk
    change mapFind db'.challenges k = some c at hk
    rw [hch] at hk
    exact h2 k c hk
  · intro k r hk
    change mapFind db'.gameRecords k = some r at hk
    have e := hrec k
    rw [hk] at e
    cases h0 : mapFind s.db.gameRecords k with
    | none => rw [h0] at e; simp at e
    | some r0 =>
      rw [h0] at e
      simp only [Option.map_some', Option.some.injEq, GameRecord.core, Prod.mk.injEq] at e
      have := h3 k r0 h0
      omega

theorem stoneOf_ne_zero (g : GameState) (userId : Nat) : stoneOf g userId ≠ 0 := by
  unfold stoneOf
  split <;> decide

theorem placeStone_frame (g : GameState) (userId x y : Nat) (now : Int) :
    (placeStone g userId x y now).gameId = g.gameId ∧
    (placeStone g userId x y now).player1Id = g.player1Id ∧
    (placeStone g userId x y now).player2Id = g.player2Id ∧
    (placeStone g userId x y now).boardSize = g.boardSize ∧
    (placeStone g userId x y now).board
      = g.board.set (y * g.boardSize + x) (stoneOf g userId) ∧
    (placeStone g userId x y now).currentTurn = g.currentTurn ∧
    (placeStone g userId x y now).moveCount = (g.moveCount + 1) % 4294967296 ∧
    (placeStone g userId x y now).timeLimit = g.timeLimit := by
  obtain ⟨f1, f2, f3, f4, f5, f6, f7, f8, _⟩ := updateTimeAfterMove_frame g now
  unfold placeStone
  simp only []
  refine ⟨f1, f2, f3, f4, ?_, f6, by rw [f7], f8⟩
  rw [f5, f4]
  unfold stoneOf
  rw [f2]

/-- The match with the stone of the mover placed and counted, as `handleMakeMove`
stores it before looking for a win, keeps the per-match invariant. -/
theorem placeStone_Inv (g : GameState) (userId x y : Nat) (now : Int) (hg : g.Inv)
    (hvalid : isValidMove g x y = true) :
    (placeStone g userId x y now).Inv := by
  obtain ⟨f1, f2, f3, f4, f5, f6, f7, _⟩ := placeStone_frame g userId x y now
  obtain ⟨hbs, hlen, hcount, hturn⟩ := hg
  obtain ⟨hx, hy, hcell⟩ := isValidMove_true g x y hvalid
  have hidx : y * g.boardSize + x < g.board.length := by
    rw [hlen]
    have : y * g.boardSize + g.boardSize ≤ g.boardSize * g.boardSize := by
      have := Nat.mul_le_mul_right g.boardSize (Nat.succ_le_of_lt hy)
      rw [Nat.succ_mul] at this
      exact this
    omega
  have hocc := occupiedCells_set g.board (y * g.boardSize + x) (stoneOf g userId) hidx
    hcell (stoneOf_ne_zero g userId)
  have hle := occupiedCells_le_length g.board
  have hsq : g.boardSize * g.boardSize ≤ 255 * 255 :=
    Nat.mul_le_mul (by omega) (by omega)
  refine ⟨?_, ?_, ?_, ?_⟩
  · rw [f4]; exact hbs
  · rw [f5, f4, List.length_set]; exact hlen
  · rw [f5, f7, hocc, hcount]
    apply Nat.mod_eq_of_lt
    omega
  · rw [f6, f2, f3]; exact hturn

theorem passTurn_frame (g : GameState) (userId : Nat) (now : Int) :
    (passTurn g userId now).gameId = g.gameId ∧
    (passTurn g userId now).player1Id = g.player1Id ∧
    (passTurn g userId now).player2Id = g.player2Id ∧
    (passTurn g userId now).boardSize = g.boardSize ∧
    (passTurn g userId now).board = g.board ∧
    (passTurn g userId now).currentTurn = opponentOf g userId ∧
    (passTurn g userId now).moveCount = g.moveCount ∧
    (passTurn g userId now).timeLimit = g.timeLimit ∧
    (passTurn g userId now).drawOffered = false ∧
    (passTurn g userId now).drawOfferedBy = 0 :=
  ⟨rfl, rfl, rfl, rfl, rfl, rfl, rfl, rfl, rfl, rfl⟩

theorem passTurn_Inv (g : GameState) (userId : Nat) (now : Int) (hg : g.Inv) :
    (passTurn g userId now).Inv := by
  obtain ⟨a, b, c, _⟩ := hg
  refine ⟨a, b, c, ?_⟩
  show opponentOf g userId = g.player1Id ∨ opponentOf g userId = g.player2Id
  unfold opponentOf
  split
  · right; rfl
  · left; rfl

theorem storeGame_find (s : ServerState) (gid : Nat) (g g' : GameState)
    (hfind : mapFind s.activeGames gid = some g) :
    mapFind (storeGame s gid g').activeGames gid = some g' := by
  simp only [storeGame, mapFind_mapModify, hfind, if_true, Option.map_some']

theorem handleMakeMove_Inv (pow10 : ℚ → ℚ) (s : ServerState) (clk : Clock)
    (clientSocket : Int) (userId : Nat) (req : MoveRequest) (h : s.Inv) :
    (handleMakeMove pow10 s clk clientSocket userId req).1.Inv := by
  unfold handleMakeMove
  cases hfind : mapFind s.activeGames req.gameId with
  | none => exact h
  | some game =>
    simp only []
    obtain ⟨hgid, hginv, _⟩ := h.1 _ _ hfind
    by_cases hturn : game.currentTurn ≠ userId
    · rw [if_pos hturn]; exact h
    rw [if_neg hturn]
    by_cases htime : game.timeLimit > 0 ∧ checkTimeout game clk.checkNow = true
    · rw [if_pos htime]; exact handleGameOver_Inv _ _ _ _ _ _ h
    rw [if_neg htime]
    by_cases hvalid : ¬ (isValidMove game req.x req.y = true)
    · rw [if_pos hvalid]; exact h
    rw [if_neg hvalid]
    have hvalid' : isValidMove game req.x req.y = true := not_not.mp hvalid
    obtain ⟨f1, f2, f3, f4, _⟩ := placeStone_frame game userId req.x req.y clk.updateNow
    have hplaced := placeStone_Inv game userId req.x req.y clk.updateNow hginv hvalid'
    have hs1 := Inv_modify s req.gameId game _
      (s.db.logMove clk.logWall req.gameId userId
        (placeStone game userId req.x req.y clk.updateNow).moveCount req.x req.y)
      h hfind f1 f2 f3 f4 hplaced (logMove_challenges _ _ _ _ _ _ _)
      (logMove_core _ _ _ _ _ _ _)
    split
    · exact handleGameOver_Inv _ _ _ _ _ _ hs1
    · split
      · exact handleGameDraw_Inv _ _ _ hs1
      · exact Inv_modify _ req.gameId _ _ _ hs1 (storeGame_find _ _ _ _ hfind)
          rfl rfl rfl rfl (passTurn_Inv _ _ _ hplaced) rfl (fun _ => rfl)



theorem createChallenge_Inv (s : ServerState) (a b boardSize timeLimit : Nat)
    (h : s.Inv) (hbs : boardSize < 256) :
    ServerState.Inv { s with db := (s.db.createChallenge a b boardSize timeLimit).1 } := by
  obtain ⟨h1, h2, h3⟩ := h
  refine ⟨h1, ?_, h3⟩
  intro k c hk
  simp only [Database.createChallenge, mapFind_mapInsert] at hk
  split at hk
  · cases hk; exact hbs
  · exact h2 k c hk

theorem handleSendChallenge_Inv (s : ServerState) (clientSocket : Int) (userId : Nat)
    (req : ChallengeRequest) (h : s.Inv) (hbs : req.boardSize < 256) :
    (handleSendChallenge s clientSocket userId req).1.Inv :=
  createChallenge_Inv s _ _ _ _ h hbs

theorem getChallenge_found (db : Database) (id : Nat)
    (h : ¬ (db.getChallenge id).challengeId = 0) :
    mapFind db.challenges id = some (db.getChallenge id) := by
  unfold Database.getChallenge at h ⊢
  cases hf : mapFind db.challenges id with
  | none => rw [hf] at h; exact absurd rfl h
  | some c => rfl

theorem newGame_Inv (c : Challenge) (userId gameId : Nat) (now : Int)
    (hbs : c.boardSize < 256) : (newGame c userId gameId now).Inv := by
  refine ⟨hbs, ?_, ?_, Or.inl rfl⟩
  · simp [newGame]
  · simp only [newGame, occupiedCells_replicate]

theorem handleAcceptChallenge_Inv (s : ServerState) (clk : Clock) (clientSocket : Int)
    (userId challengeId : Nat) (h : s.Inv) :
    (handleAcceptChallenge s clk clientSocket userId challengeId).1.Inv := by
  unfold handleAcceptChallenge
  simp only []
  by_cases h0 : (s.db.getChallenge challengeId).challengeId = 0
  · rw [if_pos h0]; exact h
  rw [if_neg h0]
  obtain ⟨h1, h2, h3⟩ := h
  have hbs := h2 _ _ (getChallenge_found _ _ h0)
  refine ⟨?_, ?_, ?_⟩
  · intro k g hk
    simp only [mapFind_mapInsert] at hk
    simp only [Database.createGame, Database.removeChallenge, Database.setUserInGame,
      mapFind_mapInsert]
    split at hk
    next e =>
      cases hk
      refine ⟨e, newGame_Inv _ _ _ _ hbs, ?_⟩
      have e' : s.db.gameIdCounter = k := e
      rw [if_pos e']
      rfl
    next e =>
      obtain ⟨a, b, c⟩ := h1 k g hk
      refine ⟨a, b, ?_⟩
      have e' : ¬ s.db.gameIdCounter = k := e
      rw [if_neg e']
      exact c
  · intro k c hk
    simp only [Database.createGame, Database.removeChallenge, Database.setUserInGame,
      mapFind_mapErase] at hk
    split at hk
    · cases hk
    · exact h2 k c hk
  · intro k r hk
    simp only [Database.createGame, Database.removeChallenge, Database.setUserInGame,
      mapFind_mapInsert] at hk
    split at hk
    · cases hk; exact hbs
    · exact h3 k r hk

theorem handleDeclineChallenge_Inv (s : ServerState) (clientSocket : Int)
    (userId challengeId : Nat) (h : s.Inv) :
    (handleDeclineChallenge s clientSocket userId challengeId).1.Inv := by
  unfold handleDeclineChallenge
  simp only []
  split
  · exact h
  · obtain ⟨h1, h2, h3⟩ := h
    refine ⟨h1, ?_, h3⟩
    intro k c hk
    simp only [Database.removeChallenge, mapFind_mapErase] at hk
    split at hk
    · cases hk
    · exact h2 k c hk

theorem handleResign_Inv (pow10 : ℚ → ℚ) (s : ServerState) (clk : Clock)
    (clientSocket : Int) (userId : Nat) (req : ResignRequest) (h : s.Inv) :
    (handleResign pow10 s clk clientSocket userId req).1.Inv := by
  unfold handleResign
  cases mapFind s.activeGames req.gameId with
  | none => exact h
  | some game => exact handleGameOver_Inv _ _ _ _ _ _ h

theorem handleOfferDraw_Inv (s : ServerState) (clientSocket : Int) (userId : Nat)
    (req : DrawRequest) (h : s.Inv) :
    (handleOfferDraw s clientSocket userId req).1.Inv := by
  unfold handleOfferDraw
  cases hfind : mapFind s.activeGames req.gameId with
  | none => exact h
  | some game =>
    simp only []
    split
    · exact h
    · obtain ⟨_, hg, _⟩ := h.1 _ _ hfind
      exact Inv_modify s req.gameId game _ s.db h hfind rfl rfl rfl rfl hg rfl
        (fun _ => rfl)

theorem handleAcceptDraw_Inv (s : ServerState) (clk : Clock) (clientSocket : Int)
    (userId : Nat) (req : DrawRequest) (h : s.Inv) :
    (handleAcceptDraw s clk clientSocket userId req).1.Inv := by
  unfold handleAcceptDraw
  cases mapFind s.activeGames req.gameId with
  | none => exact h
  | some game =>
    simp only []
    split
    · exact h
    · exact handleGameDraw_Inv _ _ _ h

theorem handleDeclineDraw_Inv (s : ServerState) (clientSocket : Int) (userId : Nat)
    (req : DrawRequest) (h : s.Inv) :
    (handleDeclineDraw s clientSocket userId req).1.Inv := by
  unfold handleDeclineDraw
  cases hfind : mapFind s.activeGames req.gameId with
  | none => exact h
  | some game =>
    obtain ⟨_, hg, _⟩ := h.1 _ _ hfind
    exact Inv_modify s req.gameId game _ s.db h hfind rfl rfl rfl rfl hg rfl
      (fun _ => rfl)

theorem getGameRecord_boardSize (s : ServerState) (h : s.Inv) (id : Nat) :
    (s.db.getGameRecord id).boardSize < 256 := by
  unfold Database.getGameRecord
  cases hf : mapFind s.db.gameRecords id with
  | none => decide
  | some r => exact h.2.2 _ _ hf

theorem handleAcceptRematch_Inv (s : ServerState) (clk : Clock) (clientSocket : Int)
    (userId lastGameId : Nat) (h : s.Inv) :
    (handleAcceptRematch s clk clientSocket userId lastGameId).1.Inv := by
  unfold handleAcceptRematch
  cases mapFind s.pendingRematches lastGameId with
  | none => exact h
  | some req =>
    simp only []
    apply handleAcceptChallenge_Inv
    exact createChallenge_Inv
      { s with pendingRematches := mapErase s.pendingRematches lastGameId } _ _ _ _ h
      (getGameRecord_boardSize s h lastGameId)

theorem handleDeclineRematch_Inv (s : ServerState) (clientSocket : Int)
    (userId lastGameId : Nat) (h : s.Inv) :
    (handleDeclineRematch s clientSocket userId lastGameId).1.Inv := by
  unfold handleDeclineRematch
  cases mapFind s.pendingRematches lastGameId with
  | none => exact h
  | some req => exact h

theorem processMessage_Inv (pow10 : ℚ → ℚ) (s : ServerState) (clk : Clock)
    (clientSocket : Int) (userId : Nat) (msg : Message) (h : s.Inv)
    (hmsg : msg.InRange) :
    (processMessage pow10 s clk clientSocket userId msg).1.Inv := by
  cases msg with
  | sendChallenge req => exact handleSendChallenge_Inv s clientSocket userId req h hmsg.1
  | acceptChallenge id => exact handleAcceptChallenge_Inv s clk clientSocket userId id h
  | declineChallenge id => exact handleDeclineChallenge_Inv s clientSocket userId id h
  | makeMove req => exact handleMakeMove_Inv pow10 s clk clientSocket userId req h
  | resign req => exact handleResign_Inv pow10 s clk clientSocket userId req h
  | offerDraw req => exact handleOfferDraw_Inv s clientSocket userId req h
  | acceptDraw req => exact handleAcceptDraw_Inv s clk clientSocket userId req h
  | declineDraw req => exact handleDeclineDraw_Inv s clientSocket userId req h
  | requestRematch req => exact h
  | acceptRematch id => exact handleAcceptRematch_Inv s clk clientSocket userId id h
  | declineRematch id => exact handleDeclineRematch_Inv s clientSocket userId id h

theorem Initial_Inv (s : ServerState) (h : s.Initial) : s.Inv := by
  obtain ⟨h1, _, _, h4, _, h5⟩ := h
  refine ⟨?_, ?_, ?_⟩
  · intro k g hk
    rw [h1] at hk
    cases hk
  · intro k c hk
    rw [h4] at hk
    cases hk
  · intro k r hk
    exact h5 _ (mapFind_mem _ _ _ hk)

theorem Reachable_Inv (pow10 : ℚ → ℚ) (s : ServerState) (h : Reachable pow10 s) :
    s.Inv := by
  induction h with
  | start s h0 => exact Initial_Inv s h0
  | step s clk sock userId msg _ hmsg ih =>
    exact processMessage_Inv pow10 s clk sock userId msg ih hmsg
  | gameOver s clk key game winnerId reason _ _ ih =>
    exact handleGameOver_Inv pow10 s clk game winnerId reason ih
  | session s clientSockets userSockets users userIdCounter _ ih =>
    exact Inv_of_sub s _ ih (fun _ _ hk => hk) rfl (fun _ => rfl)


/-! ## Reachable sessions -/

theorem Reachable_run (pow10 : ℚ → ℚ) (s : ServerState) (inputs : List Input)
    (h : Reachable pow10 s) (hin : ∀ i ∈ inputs, i.msg.InRange) :
    Reachable pow10 (run pow10 s inputs) := by
  induction inputs generalizing s with
  | nil => exact h
  | cons i rest ih =>
    apply ih
    · exact Reachable.step s i.clk i.clientSocket i.userId i.msg h
        (hin i (List.mem_cons_self _ _))
    · intro j hj
      exact hin j (List.mem_cons_of_mem _ hj)

theorem demoStart_Initial (draws : Nat) : (demoStart draws).Initial :=
  ⟨rfl, rfl, rfl, rfl, rfl, fun _ hp => absurd hp (List.not_mem_nil _)⟩

theorem demoOpening_InRange (boardSize : Nat) (h : boardSize < 256) :
    ∀ i ∈ demoOpening boardSize, i.msg.InRange := by
  intro i hi
  simp only [demoOpening, demoSendChallenge, List.mem_cons, List.mem_singleton,
    List.not_mem_nil, or_false] at hi
  rcases hi with rfl | rfl
  · exact ⟨h, Nat.zero_lt_succ _⟩
  · trivial

theorem demoMove_InRange (userId x y : Nat) (hx : x < 256) (hy : y < 256) :
    (demoMove userId x y).msg.InRange :=
  ⟨hx, hy⟩

/-! ## Move handling: rejected requests -/

/-- Claim C3: a move request for an active match from a user who is not the match's
`currentTurn` is answered with the error "Not your turn" and changes nothing in the
server state (board, `moveCount`, `currentTurn`, clocks and draw-offer fields
included), whatever the coordinates. -/
theorem handleMakeMove_not_your_turn (pow10 : ℚ → ℚ) (s : ServerState) (clk : Clock)
    (clientSocket : Int) (userId : Nat) (req : MoveRequest) (game : GameState)
    (hgame : mapFind s.activeGames req.gameId = some game)
    (hturn : userId ≠ game.currentTurn) :
    handleMakeMove pow10 s clk clientSocket userId req
      = (s, [sendError clientSocket "Not your turn"]) := by
  unfold handleMakeMove
  rw [hgame]
  simp only []
  rw [if_pos (fun e => hturn e.symm)]

/-- Claim C4: in an active match whose on-turn clock has not expired, a move of the
on-turn player to a cell that is out of bounds or occupied is answered with the
invalid-move error and changes nothing in the server state: the match (board,
`moveCount`, `currentTurn`, both clocks, draw-offer fields) and the move log are as
before the call. -/
theorem handleMakeMove_illegal (pow10 : ℚ → ℚ) (s : ServerState) (clk : Clock)
    (clientSocket : Int) (userId : Nat) (req : MoveRequest) (game : GameState)
    (hgame : mapFind s.activeGames req.gameId = some game)
    (hturn : game.currentTurn = userId)
    (hclock : checkTimeout game clk.checkNow = false)
    (hcell : game.boardSize ≤ req.x ∨ game.boardSize ≤ req.y ∨
      game.cell (req.y * game.boardSize + req.x) ≠ 0) :
    handleMakeMove pow10 s clk clientSocket userId req
      = (s, [sendError clientSocket "Invalid move - cell occupied or out of bounds"]) := by
  unfold handleMakeMove
  rw [hgame]
  simp only []
  rw [if_neg (fun h => h hturn), if_neg (by rw [hclock]; simp), if_pos]
  intro hvalid
  obtain ⟨h1, h2, h3⟩ := isValidMove_true game req.x req.y hvalid
  rcases hcell with h | h | h
  · omega
  · omega
  · exact h h3

/-! ## Invariants of active matches -/

/-- Claim C6: in every reachable server state, every active match has a board of
`boardSize * boardSize` cells and its `moveCount` equals the number of non-empty
cells of that board. -/
theorem moveCount_eq_occupiedCells (pow10 : ℚ → ℚ) (s : ServerState)
    (h : Reachable pow10 s) (gameId : Nat) (game : GameState)
    (hgame : mapFind s.activeGames gameId = some game) :
    game.board.length = game.boardSize * game.boardSize ∧
      game.moveCount = occupiedCells game.board := by
  obtain ⟨_, ⟨_, hlen, hcount, _⟩, _⟩ := (Reachable_Inv pow10 s h).1 gameId game hgame
  exact ⟨hlen, hcount⟩

/-- Claim C7: in every reachable server state the `currentTurn` of every active match
is `player1Id` or `player2Id`, and a match created by `handleAcceptChallenge` starts
with `currentTurn = player1Id`. -/
theorem currentTurn_participant (pow10 : ℚ → ℚ) (s : ServerState)
    (h : Reachable pow10 s) :
    (∀ gameId game, mapFind s.activeGames gameId = some game →
      game.currentTurn = game.player1Id ∨ game.currentTurn = game.player2Id) ∧
    (∀ clk clientSocket userId challengeId,
      (s.db.getChallenge challengeId).challengeId ≠ 0 →
      ∃ game,
        mapFind (handleAcceptChallenge s clk clientSocket userId challengeId).1.activeGames
            s.db.gameIdCounter = some game ∧
          game.player1Id = (s.db.getChallenge challengeId).challengerId ∧
          game.player2Id = userId ∧
          game.currentTurn = game.player1Id) := by
  refine ⟨?_, ?_⟩
  · intro gameId game hgame
    obtain ⟨_, ⟨_, _, _, hturn⟩, _⟩ := (Reachable_Inv pow10 s h).1 gameId game hgame
    exact hturn
  · intro clk clientSocket userId challengeId h0
    unfold handleAcceptChallenge
    simp only []
    rw [if_neg h0]
    refine ⟨newGame (s.db.getChallenge challengeId) userId s.db.gameIdCounter
      clk.turnNow, ?_, rfl, rfl, rfl⟩
    simp only [mapFind_mapInsert]
    rw [if_pos]
    · rfl
    · rfl

/-! ## Termination by resignation and by agreed draw -/

theorem Inv_record (s : ServerState) (h : s.Inv) (gameId : Nat) (game : GameState)
    (hgame : mapFind s.activeGames gameId = some game) :
    game.gameId = gameId ∧
    ∃ r, mapFind s.db.gameRecords gameId = some r ∧ r.player1Id = game.player1Id ∧
      r.player2Id = game.player2Id := by
  obtain ⟨hid, _, hrec⟩ := h.1 gameId game hgame
  refine ⟨hid, ?_⟩
  cases hf : mapFind s.db.gameRecords gameId with
  | none => rw [hf] at hrec; cases hrec
  | some r =>
    rw [hf] at hrec
    simp only [Option.map_some', Option.some.injEq, GameRecord.core, Prod.mk.injEq] at hrec
    exact ⟨r, rfl, hrec.1, hrec.2.1⟩

theorem handleGameOver_record (pow10 : ℚ → ℚ) (s : ServerState) (clk : Clock)
    (game : GameState) (winnerId reason : Nat) (r : GameRecord)
    (hr : mapFind s.db.gameRecords game.gameId = some r) :
    ∃ r', mapFind (handleGameOver pow10 s clk game winnerId reason).1.db.gameRecords
        game.gameId = some r' ∧
      r'.winnerId = winnerId ∧
      r'.result = (if winnerId = game.player1Id then 0 else 1) ∧
      r'.eloChange = r.eloChange ∧ r'.moves = r.moves := by
  rw [handleGameOver_db, updateEloRating_gameRecords]
  unfold Database.updateGameResult
  rw [hr]
  simp only [Database.setUserInGame, mapFind_mapModify, if_true, hr, Option.map_some']
  exact ⟨_, rfl, rfl, rfl, rfl, rfl⟩

theorem handleGameOver_sent (pow10 : ℚ → ℚ) (s : ServerState) (clk : Clock)
    (game : GameState) (winnerId reason : Nat) :
    (handleGameOver pow10 s clk game winnerId reason).2
      = sendToUser s game.player1Id MSG_GAME_OVER game.player1Id
          (Payload.gameOver
            { gameId := game.gameId, winnerId := winnerId,
              eloChange := (Database.updateEloRating pow10
                (s.db.updateGameResult clk.endWall game.gameId winnerId
                  (if winnerId = game.player1Id then 0 else 1))
                winnerId (opponentOf game winnerId)).2,
              reason := reason, totalMoves := game.moveCount })
        ++ sendToUser s game.player2Id MSG_GAME_OVER game.player2Id
          (Payload.gameOver
            { gameId := game.gameId, winnerId := winnerId,
              eloChange := (Database.updateEloRating pow10
                (s.db.updateGameResult clk.endWall game.gameId winnerId
                  (if winnerId = game.player1Id then 0 else 1))
                winnerId (opponentOf game winnerId)).2,
              reason := reason, totalMoves := game.moveCount }) :=
  rfl

/-- Claim C9: in a reachable server state, a resignation by a participant `p` of an
active match succeeds whoever is on turn: the match leaves the active set, its game
record names the opponent of `p` as winner (with the matching result code), and the
only messages sent are the game-over notices to the two players, naming that winner
with reason code 1. -/
theorem handleResign_terminates (pow10 : ℚ → ℚ) (s : ServerState)
    (h : Reachable pow10 s) (clk : Clock) (clientSocket : Int) (p : Nat)
    (req : ResignRequest) (game : GameState)
    (hgame : mapFind s.activeGames req.gameId = some game)
    (hp : p = game.player1Id ∨ p = game.player2Id) :
    ∃ winner : Nat,
      ((p = game.player1Id ∧ winner = game.player2Id) ∨
        (p = game.player2Id ∧ winner = game.player1Id)) ∧
      mapFind (handleResign pow10 s clk clientSocket p req).1.activeGames req.gameId
        = none ∧
      (∃ r, mapFind (handleResign pow10 s clk clientSocket p req).1.db.gameRecords
            req.gameId = some r ∧
          r.winnerId = winner ∧
          r.result = (if winner = game.player1Id then 0 else 1)) ∧
      (∃ eloChange : Int,
        (handleResign pow10 s clk clientSocket p req).2
          = sendToUser s game.player1Id MSG_GAME_OVER game.player1Id
              (Payload.gameOver
                { gameId := req.gameId, winnerId := winner,
                  eloChange := eloChange, reason := 1, totalMoves := game.moveCount })
            ++ sendToUser s game.player2Id MSG_GAME_OVER game.player2Id
              (Payload.gameOver
                { gameId := req.gameId, winnerId := winner,
                  eloChange := eloChange, reason := 1,
                  totalMoves := game.moveCount })) := by
  obtain ⟨hid, r, hr, _, _⟩ := Inv_record s (Reachable_Inv pow10 s h) req.gameId game hgame
  have hres : handleResign pow10 s clk clientSocket p req
      = handleGameOver pow10 s clk game (opponentOf game p) 1 := by
    unfold handleResign
    rw [hgame]
  rw [hres]
  refine ⟨opponentOf game p, ?_, ?_, ?_, ?_⟩
  · unfold opponentOf
    by_cases e : game.player1Id = p
    · rw [if_pos e]; exact Or.inl ⟨e.symm, rfl⟩
    · rw [if_neg e]
      rcases hp with hp | hp
      · exact absurd hp.symm e
      · exact Or.inr ⟨hp, rfl⟩
  · rw [handleGameOver_activeGames, if_pos hid]
  · rw [← hid] at hr ⊢
    obtain ⟨r', h1, h2, h3, _⟩ := handleGameOver_record pow10 s clk game
      (opponentOf game p) 1 r hr
    exact ⟨r', h1, h2, h3⟩
  · rw [← hid]
    exact ⟨_, handleGameOver_sent pow10 s clk game (opponentOf game p) 1⟩

theorem mapFind_mapModify_proj {α β : Type} (m : List (Nat × α)) (k : Nat) (f : α → α)
    (proj : α → β) (hf : ∀ v, proj (f v) = proj v) (key : Nat) :
    (mapFind (mapModify m k f) key).map proj = (mapFind m key).map proj := by
  rw [mapFind_mapModify]
  split
  · cases mapFind m key with
    | none => rfl
    | some v => simp [hf]
  · rfl

theorem updateGameResult_users_proj {β : Type} (db : Database)
    (wall gameId winnerId result : Nat) (proj : User → β)
    (hproj : ∀ (u : User) (b : Bool), proj { u with inGame := b } = proj u) (key : Nat) :
    (mapFind (db.updateGameResult wall gameId winnerId result).users key).map proj
      = (mapFind db.users key).map proj := by
  unfold Database.updateGameResult
  cases mapFind db.gameRecords gameId with
  | none => rfl
  | some r =>
    simp only [Database.setUserInGame]
    refine (mapFind_mapModify_proj _ _ _ proj ?_ _).trans ?_
    · intro v; exact hproj v false
    refine (mapFind_mapModify_proj _ _ _ proj ?_ _).trans ?_
    · intro v; exact hproj v false
    rfl

theorem handleGameDraw_record (s : ServerState) (clk : Clock) (game : GameState)
    (r : GameRecord) (hr : mapFind s.db.gameRecords game.gameId = some r) :
    ∃ r', mapFind (handleGameDraw s clk game).1.db.gameRecords game.gameId = some r' ∧
      r'.winnerId = 0 ∧ r'.result = 2 := by
  rw [handleGameDraw_db]
  unfold Database.updateGameResult Database.updateDrawStats
  rw [hr]
  simp only [Database.setUserInGame, mapFind_mapModify, if_true, hr, Option.map_some']
  exact ⟨_, rfl, rfl, rfl⟩

theorem handleGameDraw_rating (s : ServerState) (clk : Clock) (game : GameState)
    (key : Nat) :
    (mapFind (handleGameDraw s clk game).1.db.users key).map User.eloRating
      = (mapFind s.db.users key).map User.eloRating := by
  rw [handleGameDraw_db]
  have hbase := updateGameResult_users_proj s.db clk.endWall game.gameId 0 2
    User.eloRating (fun _ _ => rfl) key
  unfold Database.updateDrawStats
  simp only []
  refine (mapFind_mapModify_proj _ _ _ User.eloRating ?_ _).trans ?_
  · intro v; rfl
  refine (mapFind_mapModify_proj _ _ _ User.eloRating ?_ _).trans ?_
  · intro v; rfl
  exact hbase

theorem handleGameDraw_draws (s : ServerState) (clk : Clock) (game : GameState)
    (hne : game.player1Id ≠ game.player2Id) (key : Nat)
    (hkey : key = game.player1Id ∨ key = game.player2Id) :
    (mapFind (handleGameDraw s clk game).1.db.users key).map User.draws
      = (mapFind s.db.users key).map (fun u => (u.draws + 1) % 65536) := by
  rw [handleGameDraw_db]
  have hbase := updateGameResult_users_proj s.db clk.endWall game.gameId 0 2 User.draws
    (fun _ _ => rfl) key
  unfold Database.updateDrawStats
  simp only [mapFind_mapModify]
  have hite : (if game.player2Id = key then
        Option.map (fun u : User => { u with draws := (u.draws + 1) % 65536 })
          (if game.player1Id = key then
            Option.map (fun u : User => { u with draws := (u.draws + 1) % 65536 })
              (mapFind (s.db.updateGameResult clk.endWall game.gameId 0 2).users key)
          else mapFind (s.db.updateGameResult clk.endWall game.gameId 0 2).users key)
      else
        if game.player1Id = key then
          Option.map (fun u : User => { u with draws := (u.draws + 1) % 65536 })
            (mapFind (s.db.updateGameResult clk.endWall game.gameId 0 2).users key)
        else mapFind (s.db.updateGameResult clk.endWall game.gameId 0 2).users key)
      = Option.map (fun u : User => { u with draws := (u.draws + 1) % 65536 })
          (mapFind (s.db.updateGameResult clk.endWall game.gameId 0 2).users key) := by
    rcases hkey with e | e
    · rw [if_neg (by rw [e]; exact fun e' => hne e'.symm), if_pos e.symm]
    · rw [if_pos e.symm, if_neg (by rw [e]; exact hne)]
  rw [hite]
  cases hU : mapFind (s.db.updateGameResult clk.endWall game.gameId 0 2).users key with
  | none =>
    rw [hU] at hbase
    cases h0 : mapFind s.db.users key with
    | none => rfl
    | some u0 => rw [h0] at hbase; cases hbase
  | some u =>
    rw [hU] at hbase
    cases h0 : mapFind s.db.users key with
    | none => rw [h0] at hbase; cases hbase
    | some u0 =>
      rw [h0] at hbase
      simp only [Option.map_some', Option.some.injEq] at hbase ⊢
      rw [hbase]

theorem handleGameDraw_sent (s : ServerState) (clk : Clock) (game : GameState) :
    (handleGameDraw s clk game).2
      = sendToUser s game.player1Id MSG_GAME_OVER game.player1Id
          (Payload.gameOver
            { gameId := game.gameId, winnerId := 0, eloChange := 0, reason := 3,
              totalMoves := game.moveCount })
        ++ sendToUser s game.player2Id MSG_GAME_OVER game.player2Id
          (Payload.gameOver
            { gameId := game.gameId, winnerId := 0, eloChange := 0, reason := 3,
              totalMoves := game.moveCount }) :=
  rfl

/-- Claim C10, as amended: in a reachable server state, when one participant has a
draw offer pending and the other participant accepts it, the match leaves the active
set, its game record gets winner 0 and result code 2, the game-over notices report
winner 0 and rating change 0, neither rating changes, and each player's draw counter
becomes its old value plus one modulo 65536. -/
theorem handleAcceptDraw_terminates (pow10 : ℚ → ℚ) (s : ServerState)
    (h : Reachable pow10 s) (clk : Clock) (clientSocket : Int) (userId : Nat)
    (req : DrawRequest) (game : GameState) (u1 u2 : User)
    (hgame : mapFind s.activeGames req.gameId = some game)
    (hoffer : game.drawOffered = true)
    (hby : game.drawOfferedBy = game.player1Id ∨ game.drawOfferedBy = game.player2Id)
    (huser : userId = game.player1Id ∨ userId = game.player2Id)
    (hother : userId ≠ game.drawOfferedBy)
    (hu1 : mapFind s.db.users game.player1Id = some u1)
    (hu2 : mapFind s.db.users game.player2Id = some u2) :
    mapFind (handleAcceptDraw s clk clientSocket userId req).1.activeGames req.gameId
      = none ∧
    (∃ r, mapFind (handleAcceptDraw s clk clientSocket userId req).1.db.gameRecords
          req.gameId = some r ∧ r.winnerId = 0 ∧ r.result = 2) ∧
    (handleAcceptDraw s clk clientSocket userId req).2
      = sendToUser s game.player1Id MSG_GAME_OVER game.player1Id
          (Payload.gameOver
            { gameId := req.gameId, winnerId := 0, eloChange := 0, reason := 3,
              totalMoves := game.moveCount })
        ++ sendToUser s game.player2Id MSG_GAME_OVER game.player2Id
          (Payload.gameOver
            { gameId := req.gameId, winnerId := 0, eloChange := 0, reason := 3,
              totalMoves := game.moveCount }) ∧
    ((handleAcceptDraw s clk clientSocket userId req).1.db.getUser game.player1Id).eloRating
      = u1.eloRating ∧
    ((handleAcceptDraw s clk clientSocket userId req).1.db.getUser game.player2Id).eloRating
      = u2.eloRating ∧
    ((handleAcceptDraw s clk clientSocket userId req).1.db.getUser game.player1Id).draws
      = (u1.draws + 1) % 65536 ∧
    ((handleAcceptDraw s clk clientSocket userId req).1.db.getUser game.player2Id).draws
      = (u2.draws + 1) % 65536 := by
  obtain ⟨hid, r, hr, _, _⟩ := Inv_record s (Reachable_Inv pow10 s h) req.gameId game hgame
  have hne : game.player1Id ≠ game.player2Id := by
    intro e
    apply hother
    rcases hby with hby | hby <;> rcases huser with hu | hu <;> omega
  have hres : handleAcceptDraw s clk clientSocket userId req = handleGameDraw s clk game := by
    unfold handleAcceptDraw
    rw [hgame]
    simp only []
    rw [if_neg]
    rintro (h1 | h1)
    · exact h1 hoffer
    · exact hother h1.symm
  rw [hres]
  have hget : ∀ (db : Database) (key : Nat) (proj : User → Nat) (v : Nat),
      (mapFind db.users key).map proj = some v → proj (db.getUser key) = v := by
    intro db key proj v hv
    unfold Database.getUser
    cases hf : mapFind db.users key with
    | none => rw [hf] at hv; cases hv
    | some u => rw [hf] at hv; simpa using hv
  refine ⟨?_, ?_, ?_, ?_, ?_, ?_, ?_⟩
  · rw [handleGameDraw_activeGames, if_pos hid]
  · rw [← hid] at hr ⊢
    exact handleGameDraw_record s clk game r hr
  · rw [← hid]
    exact handleGameDraw_sent s clk game
  · apply hget _ _ User.eloRating
    rw [handleGameDraw_rating, hu1]; rfl
  · apply hget _ _ User.eloRating
    rw [handleGameDraw_rating, hu2]; rfl
  · apply hget _ _ User.draws
    rw [handleGameDraw_draws s clk game hne _ (Or.inl rfl), hu1]; rfl
  · apply hget _ _ User.draws
    rw [handleGameDraw_draws s clk game hne _ (Or.inr rfl), hu2]; rfl

/-! ## The theorems at concrete sessions -/

theorem checkWin_iff_maximalRun_witness :
    (2 < demoRowGame.boardSize ∧ 0 < demoRowGame.boardSize ∧
      demoRowGame.cell (0 * demoRowGame.boardSize + 2) = 1) ∧
    ((checkWin demoRowGame 2 0 1 = true ↔
        ∃ d ∈ directions, ∃ a b, IsMaximalRun demoRowGame 2 0 1 d a b ∧ a + b + 1 ≥ 5) ∧
      (∀ cap, 4 ≤ cap → checkWinCap cap demoRowGame 2 0 1 = checkWin demoRowGame 2 0 1)) :=
  ⟨⟨by decide, by decide, by decide⟩,
    checkWin_iff_maximalRun demoRowGame 2 0 1 (by decide) (by decide) (by decide)⟩

set_option maxRecDepth 100000 in
theorem handleMakeMove_not_your_turn_witness :
    (mapFind (run demoPow10 (demoStart 0) (demoOpening 15)).activeGames 1
        = some (demoGame 15) ∧ 2 ≠ (demoGame 15).currentTurn) ∧
    handleMakeMove demoPow10 (run demoPow10 (demoStart 0) (demoOpening 15)) demoClock 11 2
        { gameId := 1, x := 3, y := 4 }
      = (run demoPow10 (demoStart 0) (demoOpening 15), [sendError 11 "Not your turn"]) :=
  ⟨⟨by decide, by decide⟩,
    handleMakeMove_not_your_turn demoPow10 _ demoClock 11 2 { gameId := 1, x := 3, y := 4 }
      (demoGame 15) (by decide) (by decide)⟩

set_option maxRecDepth 100000 in
theorem handleMakeMove_illegal_witness :
    (mapFind (run demoPow10 (demoStart 0) (demoOpening 15)).activeGames 1
        = some (demoGame 15) ∧ (demoGame 15).currentTurn = 1 ∧
      checkTimeout (demoGame 15) demoClock.checkNow = false ∧
      (demoGame 15).boardSize ≤ 15) ∧
    handleMakeMove demoPow10 (run demoPow10 (demoStart 0) (demoOpening 15)) demoClock 10 1
        { gameId := 1, x := 15, y := 4 }
      = (run demoPow10 (demoStart 0) (demoOpening 15),
          [sendError 10 "Invalid move - cell occupied or out of bounds"]) :=
  ⟨⟨by decide, by decide, by decide, by decide⟩,
    handleMakeMove_illegal demoPow10 _ demoClock 10 1 { gameId := 1, x := 15, y := 4 }
      (demoGame 15) (by decide) (by decide) (by decide) (Or.inl (by decide))⟩

theorem demoMoved_Reachable :
    Reachable demoPow10
      (run demoPow10 (demoStart 0) (demoOpening 15 ++ [demoMove 1 7 7])) := by
  apply Reachable_run _ _ _ (Reachable.start _ (demoStart_Initial 0))
  intro i hi
  rcases List.mem_append.mp hi with hi | hi
  · exact demoOpening_InRange 15 (by decide) i hi
  · rw [List.mem_singleton] at hi
    rw [hi]
    exact demoMove_InRange 1 7 7 (by decide) (by decide)

set_option maxRecDepth 100000 in
theorem moveCount_eq_occupiedCells_witness :
    mapFind (run demoPow10 (demoStart 0) (demoOpening 15 ++ [demoMove 1 7 7])).activeGames 1
        = some (passTurn (placeStone (demoGame 15) 1 7 7 0) 1 0) ∧
    (passTurn (placeStone (demoGame 15) 1 7 7 0) 1 0).board.length
        = (passTurn (placeStone (demoGame 15) 1 7 7 0) 1 0).boardSize
          * (passTurn (placeStone (demoGame 15) 1 7 7 0) 1 0).boardSize ∧
    (passTurn (placeStone (demoGame 15) 1 7 7 0) 1 0).moveCount
        = occupiedCells (passTurn (placeStone (demoGame 15) 1 7 7 0) 1 0).board :=
  ⟨by decide,
    moveCount_eq_occupiedCells demoPow10 _ demoMoved_Reachable 1
      (passTurn (placeStone (demoGame 15) 1 7 7 0) 1 0) (by decide)⟩

theorem currentTurn_participant_witness :
    (∀ gameId game,
      mapFind (run demoPow10 (demoStart 0) (demoOpening 15 ++ [demoMove 1 7 7])).activeGames
          gameId = some game →
        game.currentTurn = game.player1Id ∨ game.currentTurn = game.player2Id) ∧
    (∀ clk clientSocket userId challengeId,
      ((run demoPow10 (demoStart 0) (demoOpening 15 ++ [demoMove 1 7 7])).db.getChallenge
          challengeId).challengeId ≠ 0 →
      ∃ game,
        mapFind (handleAcceptChallenge
            (run demoPow10 (demoStart 0) (demoOpening 15 ++ [demoMove 1 7 7]))
            clk clientSocket userId challengeId).1.activeGames
            (run demoPow10 (demoStart 0)
              (demoOpening 15 ++ [demoMove 1 7 7])).db.gameIdCounter = some game ∧
          game.player1Id
            = ((run demoPow10 (demoStart 0)
                (demoOpening 15 ++ [demoMove 1 7 7])).db.getChallenge
                  challengeId).challengerId ∧
          game.player2Id = userId ∧
          game.currentTurn = game.player1Id) :=
  currentTurn_participant demoPow10 _ demoMoved_Reachable

set_option maxRecDepth 100000 in
theorem handleResign_terminates_witness :
    ∃ winner : Nat,
      ((2 = (passTurn (placeStone (demoGame 15) 1 7 7 0) 1 0).player1Id ∧
          winner = (passTurn (placeStone (demoGame 15) 1 7 7 0) 1 0).player2Id) ∨
        (2 = (passTurn (placeStone (demoGame 15) 1 7 7 0) 1 0).player2Id ∧
          winner = (passTurn (placeStone (demoGame 15) 1 7 7 0) 1 0).player1Id)) ∧
      mapFind (handleResign demoPow10
          (run demoPow10 (demoStart 0) (demoOpening 15 ++ [demoMove 1 7 7]))
          demoClock 11 2 { gameId := 1 }).1.activeGames 1 = none ∧
      (∃ r, mapFind (handleResign demoPow10
            (run demoPow10 (demoStart 0) (demoOpening 15 ++ [demoMove 1 7 7]))
            demoClock 11 2 { gameId := 1 }).1.db.gameRecords 1 = some r ∧
          r.winnerId = winner ∧
          r.result
            = (if winner = (passTurn (placeStone (demoGame 15) 1 7 7 0) 1 0).player1Id
                then 0 else 1)) ∧
      (∃ eloChange : Int,
        (handleResign demoPow10
            (run demoPow10 (demoStart 0) (demoOpening 15 ++ [demoMove 1 7 7]))
            demoClock 11 2 { gameId := 1 }).2
          = sendToUser (run demoPow10 (demoStart 0) (demoOpening 15 ++ [demoMove 1 7 7]))
              (passTurn (placeStone (demoGame 15) 1 7 7 0) 1 0).player1Id MSG_GAME_OVER
              (passTurn (placeStone (demoGame 15) 1 7 7 0) 1 0).player1Id
              (Payload.gameOver
                { gameId := 1, winnerId := winner, eloChange := eloChange, reason := 1,
                  totalMoves := (passTurn (placeStone (demoGame 15) 1 7 7 0) 1 0).moveCount })
            ++ sendToUser
              (run demoPow10 (demoStart 0) (demoOpening 15 ++ [demoMove 1 7 7]))
              (passTurn (placeStone (demoGame 15) 1 7 7 0) 1 0).player2Id MSG_GAME_OVER
              (passTurn (placeStone (demoGame 15) 1 7 7 0) 1 0).player2Id
              (Payload.gameOver
                { gameId := 1, winnerId := winner, eloChange := eloChange, reason := 1,
                  totalMoves :=
                    (passTurn (placeStone (demoGame 15) 1 7 7 0) 1 0).moveCount })) :=
  handleResign_terminates demoPow10 _ demoMoved_Reachable demoClock 11 2 { gameId := 1 }
    (passTurn (placeStone (demoGame 15) 1 7 7 0) 1 0) (by decide) (Or.inr (by decide))


/-! ## Winning lines and stone counts -/

theorem cell_set (g : GameState) (board : List Nat) (i v j : Nat) (hi : i < board.length) :
    GameState.cell { g with board := board.set i v } j
      = if j = i then v else GameState.cell { g with board := board } j := by
  unfold GameState.cell
  simp only [List.getD_eq_getElem?_getD, List.getElem?_set]
  by_cases h : i = j
  · rw [if_pos h, if_pos hi, if_pos h.symm]; rfl
  · rw [if_neg h, if_neg (fun e => h e.symm)]

/-- The board index of an on-board cell determines its coordinates. -/
theorem index_injective (n : Int) (cx cy cx' cy' : Int)
    (h1 : 0 ≤ cx) (h2 : cx < n) (h3 : 0 ≤ cy) (h1' : 0 ≤ cx') (h2' : cx' < n)
    (h3' : 0 ≤ cy') (h : (cy * n + cx).toNat = (cy' * n + cx').toNat) :
    cx = cx' ∧ cy = cy' := by
  have hn : 0 < n := by omega
  have e1 : 0 ≤ cy * n + cx := by positivity
  have e2 : 0 ≤ cy' * n + cx' := by positivity
  have e : cy * n + cx = cy' * n + cx' := by
    have := congrArg (fun t : Nat => (t : Int)) h
    simp only [Int.toNat_of_nonneg e1, Int.toNat_of_nonneg e2] at this
    exact this
  have hy : cy = cy' := by
    rcases lt_trichotomy cy cy' with hlt | heq | hgt
    · have : (cy + 1) * n ≤ cy' * n := Int.mul_le_mul_of_nonneg_right (by omega) (by omega)
      rw [add_mul] at this
      omega
    · exact heq
    · have : (cy' + 1) * n ≤ cy * n := Int.mul_le_mul_of_nonneg_right (by omega) (by omega)
      rw [add_mul] at this
      omega
  subst hy
  exact ⟨by omega, rfl⟩

/-- A win needs five stones: if all cells holding `player` are among at most four
indices, `checkWin` answers false. -/
theorem checkWin_false_of_few (game : GameState) (x y player : Nat) (cells : List Nat)
    (hx : x < game.boardSize) (hy : y < game.boardSize)
    (hcell : game.cell (y * game.boardSize + x) = player)
    (hsub : ∀ idx, game.cell idx = player → idx ∈ cells)
    (hlen : cells.length ≤ 4) :
    checkWin game x y player = false := by
  by_contra hne
  have hw : checkWinCap 4 game x y player = true := by
    have : checkWin game x y player = true := by
      cases h : checkWin game x y player
      · exact absurd h hne
      · rfl
    exact this
  obtain ⟨d, hd, a, b, ⟨hrun, _, _⟩, hlen5⟩ :=
    (checkWinCap_iff 4 (le_refl 4) game x y player hx hy hcell).mp hw
  obtain ⟨hs, _⟩ := directions_step d hd
  let f : Nat → Nat := fun j =>
    (((y : Int) + d.2 * (-(a : Int) + j)) * game.boardSize
      + ((x : Int) + d.1 * (-(a : Int) + j))).toNat
  have hmem : ∀ j ∈ Finset.range 5, f j ∈ cells.toFinset := by
    intro j hj
    rw [Finset.mem_range] at hj
    rw [List.mem_toFinset]
    apply hsub
    exact (hrun (-(a : Int) + j) (by omega) (by omega)).2.2.2.2
  have hinj : Set.InjOn f (Finset.range 5 : Set Nat) := by
    intro j hj j' hj'
    simp only [Finset.coe_range, Set.mem_Iio] at hj hj'
    intro hff
    have r1 := hrun (-(a : Int) + j) (by omega) (by omega)
    have r2 := hrun (-(a : Int) + j') (by omega) (by omega)
    obtain ⟨q1, q2⟩ := index_injective game.boardSize _ _ _ _ r1.1 r1.2.1 r1.2.2.1
      r2.1 r2.2.1 r2.2.2.1 hff
    rcases hs with e | e | e | e
    · rw [e] at q1; omega
    · rw [e] at q1; omega
    · rw [e] at q2; omega
    · rw [e] at q2; omega
  have hcard := Finset.card_le_card_of_injOn f hmem hinj
  rw [Finset.card_range] at hcard
  have := List.toFinset_card_le cells
  omega

/-- Five stones in a row ending at `(x, y)` win: if along a direction the cell and the
four cells before it hold `player`, `checkWin` answers true. -/
theorem checkWin_of_five (game : GameState) (x y player : Nat) (d : Int × Int)
    (hd : d ∈ directions)
    (hrun : ∀ k : Int, -4 ≤ k → k ≤ 0 →
      holdsAt game (x + d.1 * k) (y + d.2 * k) player) :
    checkWin game x y player = true := by
  have h0 := hrun 0 (by omega) (by omega)
  simp only [mul_zero, add_zero] at h0
  obtain ⟨hx0, hx1, hy0, hy1, hc⟩ := h0
  have hx : x < game.boardSize := by omega
  have hy : y < game.boardSize := by omega
  have hcell : game.cell (y * game.boardSize + x) = player := by
    have e : ((y : Int) * game.boardSize + x).toNat = y * game.boardSize + x := by
      have : ((y : Int) * game.boardSize + x) = ((y * game.boardSize + x : Nat) : Int) := by
        push_cast; ring
      rw [this, Int.toNat_ofNat]
    rw [← e]; exact hc
  obtain ⟨a, b, hab⟩ := exists_maximalRun game x y player hx hy hcell d hd
  have ha : 4 ≤ a := by
    by_contra hlt
    exact hab.2.2 (hrun (-((a : Int) + 1)) (by omega) (by omega))
  exact (checkWinCap_iff 4 (le_refl 4) game x y player hx hy hcell).mpr
    ⟨d, hd, a, b, hab, by omega⟩

/-! ## The end-to-end scenario: one move at a time -/

theorem boardIs_valid (g : GameState) (n x y : Nat) (ones twos : List Nat)
    (h : boardIs g n ones twos) (hx : x < n) (hy : y < n)
    (h1 : y * n + x ∉ ones) (h2 : y * n + x ∉ twos) :
    isValidMove g x y = true := by
  obtain ⟨hn, _, hc⟩ := h
  apply isValidMove_of_empty g x y (by rw [hn]; exact hx) (by rw [hn]; exact hy)
  rw [hn, hc, if_neg h1, if_neg h2]

theorem placeStone_cell (g : GameState) (u x y : Nat) (now : Int) (j : Nat)
    (hidx : y * g.boardSize + x < g.board.length) :
    (placeStone g u x y now).cell j
      = if j = y * g.boardSize + x then stoneOf g u else g.cell j := by
  obtain ⟨_, _, _, _, f5, _⟩ := placeStone_frame g u x y now
  unfold GameState.cell
  rw [f5]
  simp only [List.getD_eq_getElem?_getD, List.getElem?_set]
  by_cases h : y * g.boardSize + x = j
  · rw [if_pos h, if_pos hidx, if_pos h.symm]; rfl
  · rw [if_neg h, if_neg (fun e => h e.symm)]

theorem index_lt (n x y : Nat) (hx : x < n) (hy : y < n) : y * n + x < n * n := by
  have : y * n + n ≤ n * n := by
    have := Nat.mul_le_mul_right n (Nat.succ_le_of_lt hy)
    rw [Nat.succ_mul] at this
    exact this
  omega

theorem placeStone_boardIs_one (g : GameState) (n u x y : Nat) (now : Int)
    (ones twos : List Nat) (h : boardIs g n ones twos) (hx : x < n) (hy : y < n)
    (hstone : stoneOf g u = 1) :
    boardIs (placeStone g u x y now) n ((y * n + x) :: ones) twos := by
  obtain ⟨hn, hlen, hc⟩ := h
  obtain ⟨_, _, _, f4, f5, _⟩ := placeStone_frame g u x y now
  have hidx : y * g.boardSize + x < g.board.length := by
    rw [hlen, hn]; exact index_lt n x y hx hy
  refine ⟨by rw [f4, hn], by rw [f5, List.length_set, hlen], ?_⟩
  intro j
  rw [placeStone_cell g u x y now j hidx, hstone, hn, hc]
  by_cases e : j = y * n + x
  · rw [if_pos e, if_pos (by rw [e]; exact List.mem_cons_self _ _)]
  · rw [if_neg e]
    by_cases m : j ∈ ones
    · rw [if_pos m, if_pos (List.mem_cons_of_mem _ m)]
    · have hm : j ∉ (y * n + x) :: ones := by
        rw [List.mem_cons]; exact fun o => o.elim e m
      rw [if_neg m, if_neg hm]

theorem placeStone_boardIs_two (g : GameState) (n u x y : Nat) (now : Int)
    (ones twos : List Nat) (h : boardIs g n ones twos) (hx : x < n) (hy : y < n)
    (hfree : y * n + x ∉ ones) (hstone : stoneOf g u = 2) :
    boardIs (placeStone g u x y now) n ones ((y * n + x) :: twos) := by
  obtain ⟨hn, hlen, hc⟩ := h
  obtain ⟨_, _, _, f4, f5, _⟩ := placeStone_frame g u x y now
  have hidx : y * g.boardSize + x < g.board.length := by
    rw [hlen, hn]; exact index_lt n x y hx hy
  refine ⟨by rw [f4, hn], by rw [f5, List.length_set, hlen], ?_⟩
  intro j
  rw [placeStone_cell g u x y now j hidx, hstone, hn, hc]
  by_cases e : j = y * n + x
  · rw [if_pos e, if_neg (by rw [e]; exact hfree),
      if_pos (by rw [e]; exact List.mem_cons_self _ _)]
  · rw [if_neg e]
    by_cases m : j ∈ ones
    · rw [if_pos m, if_pos m]
    · rw [if_neg m, if_neg m]
      by_cases m2 : j ∈ twos
      · rw [if_pos m2, if_pos (List.mem_cons_of_mem _ m2)]
      · have hm : j ∉ (y * n + x) :: twos := by
          rw [List.mem_cons]; exact fun o => o.elim e m2
        rw [if_neg m2, if_neg hm]

theorem boardIs_checkWin_one (g : GameState) (n x y : Nat) (ones twos : List Nat)
    (h : boardIs g n ones twos) (hx : x < n) (hy : y < n) (hmem : y * n + x ∈ ones)
    (hlen : ones.length ≤ 4) : checkWin g x y 1 = false := by
  obtain ⟨hn, _, hc⟩ := h
  apply checkWin_false_of_few g x y 1 ones (by rw [hn]; exact hx) (by rw [hn]; exact hy)
  · rw [hn, hc, if_pos hmem]
  · intro idx hidx
    rw [hc] at hidx
    by_contra hno
    rw [if_neg hno] at hidx
    split at hidx <;> omega
  · exact hlen

theorem boardIs_checkWin_two (g : GameState) (n x y : Nat) (ones twos : List Nat)
    (h : boardIs g n ones twos) (hx : x < n) (hy : y < n) (hfree : y * n + x ∉ ones)
    (hmem : y * n + x ∈ twos) (hlen : twos.length ≤ 4) : checkWin g x y 2 = false := by
  obtain ⟨hn, _, hc⟩ := h
  apply checkWin_false_of_few g x y 2 twos (by rw [hn]; exact hx) (by rw [hn]; exact hy)
  · rw [hn, hc, if_neg hfree, if_pos hmem]
  · intro idx hidx
    rw [hc] at hidx
    by_contra hno
    rw [if_neg hno] at hidx
    split at hidx <;> omega
  · exact hlen

theorem boardIs_checkDraw (g : GameState) (n e : Nat) (ones twos : List Nat)
    (h : boardIs g n ones twos) (he : e < n * n) (h1 : e ∉ ones) (h2 : e ∉ twos) :
    checkDraw g = false := by
  obtain ⟨hn, _, hc⟩ := h
  cases hd : checkDraw g with
  | false => rfl
  | true =>
    have := (checkDrawFrom_iff g _ 0).mp hd e (by rw [hn]; exact he)
    rw [Nat.zero_add, hc, if_neg h1, if_neg h2] at this
    exact absurd rfl this

theorem handleMakeMove_continue (pow10 : ℚ → ℚ) (s : ServerState) (clk : Clock)
    (clientSocket : Int) (userId : Nat) (req : MoveRequest) (game : GameState)
    (hgame : mapFind s.activeGames req.gameId = some game)
    (hturn : game.currentTurn = userId) (htime : game.timeLimit = 0)
    (hvalid : isValidMove game req.x req.y = true)
    (hwin : checkWin (placeStone game userId req.x req.y clk.updateNow) req.x req.y
      (stoneOf (placeStone game userId req.x req.y clk.updateNow) userId) = false)
    (hdraw : checkDraw (placeStone game userId req.x req.y clk.updateNow) = false) :
    (handleMakeMove pow10 s clk clientSocket userId req).1
      = storeGame
          (storeGame
            { s with
              db := s.db.logMove clk.logWall req.gameId userId
                (placeStone game userId req.x req.y clk.updateNow).moveCount req.x req.y }
            req.gameId (placeStone game userId req.x req.y clk.updateNow))
          req.gameId
          (passTurn (placeStone game userId req.x req.y clk.updateNow) userId
            clk.turnNow) := by
  unfold handleMakeMove
  rw [hgame]
  simp only []
  rw [if_neg (fun h => h hturn), if_neg (by rw [htime]; simp), if_neg (fun h => h hvalid),
    if_neg (by rw [hwin]; simp), if_neg (by rw [hdraw]; simp)]

theorem logMove_record (db : Database) (wall gameId playerId moveNumber x y : Nat)
    (h : ∃ r, mapFind db.gameRecords gameId = some r) :
    ∃ r, mapFind (db.logMove wall gameId playerId moveNumber x y).gameRecords gameId
      = some r := by
  obtain ⟨r, hr⟩ := h
  unfold Database.logMove
  rw [hr]
  simp only [mapFind_mapModify, if_true, hr, Option.map_some']
  exact ⟨_, rfl⟩

theorem InPlay_move (pow10 : ℚ → ℚ) (base s : ServerState) (clk : Clock)
    (clientSocket : Int) (gameId userId x y : Nat) (g : GameState)
    (h : InPlay base s gameId g)
    (hturn : g.currentTurn = userId) (htime : g.timeLimit = 0)
    (hvalid : isValidMove g x y = true)
    (hwin : checkWin (placeStone g userId x y clk.updateNow) x y
      (stoneOf (placeStone g userId x y clk.updateNow) userId) = false)
    (hdraw : checkDraw (placeStone g userId x y clk.updateNow) = false) :
    InPlay base
      (handleMakeMove pow10 s clk clientSocket userId
        { gameId := gameId, x := x, y := y }).1
      gameId (passTurn (placeStone g userId x y clk.updateNow) userId clk.turnNow) := by
  obtain ⟨h1, h2, h3, h4, h5⟩ := h
  rw [handleMakeMove_continue pow10 s clk clientSocket userId
    { gameId := gameId, x := x, y := y } g h4 hturn htime hvalid hwin hdraw]
  refine ⟨?_, h2, ?_, ?_, ?_⟩
  · show (s.db.logMove _ _ _ _ _ _).users = _
    rw [logMove_users, h1]
  · exact logMove_record _ _ _ _ _ _ _ h3
  · apply storeGame_find _ _ (placeStone g userId x y clk.updateNow)
    exact storeGame_find _ _ g _ h4
  · rw [(passTurn_frame _ _ _).1, (placeStone_frame _ _ _ _ _).1, h5]

theorem GameIs_moveA (g : GameState) (A B x y e : Nat) (now turnNow : Int)
    (ones twos : List Nat) (h : GameIs g A B A ones twos) (hx : x < 15) (hy : y < 15)
    (h1 : y * 15 + x ∉ ones) (h2 : y * 15 + x ∉ twos) (hlen : ones.length ≤ 3)
    (hlen' : twos.length ≤ 4)
    (he : e < 15 * 15) (he0 : e ≠ y * 15 + x) (he1 : e ∉ ones) (he2 : e ∉ twos) :
    isValidMove g x y = true ∧
    checkWin (placeStone g A x y now) x y (stoneOf (placeStone g A x y now) A) = false ∧
    checkDraw (placeStone g A x y now) = false ∧
    GameIs (passTurn (placeStone g A x y now) A turnNow) A B B ((y * 15 + x) :: ones) twos := by
  obtain ⟨p1, p2, _, tl, mc, hb⟩ := h
  obtain ⟨_, f2, f3, _, _, _, f7, f8⟩ := placeStone_frame g A x y now
  have hstone : stoneOf g A = 1 := by unfold stoneOf; rw [if_pos p1]
  have hstone' : stoneOf (placeStone g A x y now) A = 1 := by
    unfold stoneOf; rw [f2, if_pos p1]
  have hb' := placeStone_boardIs_one g 15 A x y now ones twos hb hx hy hstone
  refine ⟨boardIs_valid g 15 x y ones twos hb hx hy h1 h2, ?_, ?_, ?_⟩
  · rw [hstone']
    exact boardIs_checkWin_one _ 15 x y _ twos hb' hx hy (List.mem_cons_self _ _)
      (by simp only [List.length_cons]; omega)
  · apply boardIs_checkDraw _ 15 e _ twos hb' he _ he2
    rw [List.mem_cons]
    exact fun o => o.elim he0 he1
  · refine ⟨by rw [(passTurn_frame _ _ _).2.1, f2, p1],
      by rw [(passTurn_frame _ _ _).2.2.1, f3, p2], ?_, ?_, ?_, ?_⟩
    · rw [(passTurn_frame _ _ _).2.2.2.2.2.1]
      unfold opponentOf
      rw [f2, f3, if_pos p1, p2]
    · rw [(passTurn_frame _ _ _).2.2.2.2.2.2.2.1, f8, tl]
    · rw [(passTurn_frame _ _ _).2.2.2.2.2.2.1, f7, mc]
      simp only [List.length_cons]
      omega
    · exact hb'

theorem GameIs_moveB (g : GameState) (A B x y e : Nat) (now turnNow : Int)
    (ones twos : List Nat) (hAB : A ≠ B) (h : GameIs g A B B ones twos)
    (hx : x < 15) (hy : y < 15)
    (h1 : y * 15 + x ∉ ones) (h2 : y * 15 + x ∉ twos) (hlen : twos.length ≤ 3)
    (hlen' : ones.length ≤ 4)
    (he : e < 15 * 15) (he0 : e ≠ y * 15 + x) (he1 : e ∉ ones) (he2 : e ∉ twos) :
    isValidMove g x y = true ∧
    checkWin (placeStone g B x y now) x y (stoneOf (placeStone g B x y now) B) = false ∧
    checkDraw (placeStone g B x y now) = false ∧
    GameIs (passTurn (placeStone g B x y now) B turnNow) A B A ones ((y * 15 + x) :: twos) := by
  obtain ⟨p1, p2, _, tl, mc, hb⟩ := h
  obtain ⟨_, f2, f3, _, _, _, f7, f8⟩ := placeStone_frame g B x y now
  have hstone : stoneOf g B = 2 := by unfold stoneOf; rw [if_neg (by rw [p1]; exact hAB)]
  have hstone' : stoneOf (placeStone g B x y now) B = 2 := by
    unfold stoneOf; rw [f2, if_neg (by rw [p1]; exact hAB)]
  have hb' := placeStone_boardIs_two g 15 B x y now ones twos hb hx hy h1 hstone
  refine ⟨boardIs_valid g 15 x y ones twos hb hx hy h1 h2, ?_, ?_, ?_⟩
  · rw [hstone']
    exact boardIs_checkWin_two _ 15 x y ones _ hb' hx hy h1 (List.mem_cons_self _ _)
      (by simp only [List.length_cons]; omega)
  · apply boardIs_checkDraw _ 15 e ones _ hb' he he1
    rw [List.mem_cons]
    exact fun o => o.elim he0 he2
  · refine ⟨by rw [(passTurn_frame _ _ _).2.1, f2, p1],
      by rw [(passTurn_frame _ _ _).2.2.1, f3, p2], ?_, ?_, ?_, ?_⟩
    · rw [(passTurn_frame _ _ _).2.2.2.2.2.1]
      unfold opponentOf
      rw [f2, if_neg (by rw [p1]; exact hAB), p1]
    · rw [(passTurn_frame _ _ _).2.2.2.2.2.2.2.1, f8, tl]
    · rw [(passTurn_frame _ _ _).2.2.2.2.2.2.1, f7, mc]
      simp only [List.length_cons]
      omega
    · exact hb'


/-! ## Rounding to `double` -/

theorem roundHalfEven_bounds (q : ℚ) :
    ⌊q⌋ ≤ roundHalfEven q ∧ roundHalfEven q ≤ ⌊q⌋ + 1 := by
  unfold roundHalfEven
  simp only []
  split_ifs <;> constructor <;> omega

theorem roundHalfEven_err (q : ℚ) : |(roundHalfEven q : ℚ) - q| ≤ 1 / 2 := by
  have h1 := Int.floor_le q
  have h2 := Int.lt_floor_add_one q
  unfold roundHalfEven
  simp only []
  split_ifs with a b c
  · rw [abs_le]; constructor <;> linarith
  · push_cast; rw [abs_le]; constructor <;> linarith
  · rw [abs_le]; constructor <;> linarith
  · push_cast; rw [abs_le]; constructor <;> linarith

theorem roundHalfEven_intCast (n : Int) : roundHalfEven (n : ℚ) = n := by
  unfold roundHalfEven
  simp only [Int.floor_intCast, sub_self]
  rw [if_pos (by norm_num)]

theorem roundHalfEven_mono (x y : ℚ) (h : x ≤ y) : roundHalfEven x ≤ roundHalfEven y := by
  have hf : ⌊x⌋ ≤ ⌊y⌋ := Int.floor_le_floor h
  rcases lt_or_eq_of_le hf with hlt | heq
  · have a := (roundHalfEven_bounds x).2
    have b := (roundHalfEven_bounds y).1
    omega
  · unfold roundHalfEven
    simp only []
    rw [heq]
    split_ifs <;> first | omega | (exfalso; linarith)

theorem two_zpow_pos (k : Int) : (0 : ℚ) < 2 ^ k := by positivity

theorem two_zpow_split (e : Int) (n : Nat) :
    (2 : ℚ) ^ e = (((2 : Int) ^ n : Int) : ℚ) * 2 ^ (e - n) := by
  rw [Int.cast_pow, Int.cast_ofNat, ← zpow_natCast, ← zpow_add₀ (by norm_num)]
  congr 1
  omega

/-- On a positive number the exponent used by `roundDouble` is the one of its binade. -/
theorem roundDouble_of_binade (q : ℚ) (e : Int) (h1 : (2 : ℚ) ^ e ≤ q)
    (h2 : q < (2 : ℚ) ^ (e + 1)) :
    roundDouble q = roundHalfEven (q / 2 ^ (e - 52)) * 2 ^ (e - 52) := by
  have hq : 0 < q := lt_of_lt_of_le (two_zpow_pos e) h1
  have hlog : Int.log 2 |q| = e := by
    rw [abs_of_pos hq]
    apply le_antisymm
    · have := (Int.lt_zpow_iff_log_lt (b := 2) (by norm_num) hq (x := e + 1)).mp
        (by exact_mod_cast h2)
      omega
    · exact (Int.zpow_le_iff_le_log (b := 2) (by norm_num) hq).mp (by exact_mod_cast h1)
  unfold roundDouble
  rw [if_neg (ne_of_gt hq)]
  simp only []
  rw [hlog]

theorem binade_exists (q : ℚ) (hq : 0 < q) :
    ∃ e : Int, (2 : ℚ) ^ e ≤ q ∧ q < (2 : ℚ) ^ (e + 1) := by
  refine ⟨Int.log 2 q, ?_, ?_⟩
  · exact_mod_cast Int.zpow_log_le_self (b := 2) (by norm_num) hq
  · exact_mod_cast Int.lt_zpow_succ_log_self (b := 2) (by norm_num) q

theorem roundDouble_zero : roundDouble 0 = 0 := by
  unfold roundDouble
  rw [if_pos rfl]

theorem roundDouble_two_zpow (k : Int) : roundDouble ((2 : ℚ) ^ k) = 2 ^ k := by
  rw [roundDouble_of_binade _ k le_rfl
    (by rw [zpow_add_one₀ (by norm_num)]; linarith [two_zpow_pos k])]
  have e : (2 : ℚ) ^ k / 2 ^ (k - 52) = (((2 : Int) ^ 52 : Int) : ℚ) := by
    rw [div_eq_iff (ne_of_gt (two_zpow_pos _))]
    exact two_zpow_split k 52
  rw [e, roundHalfEven_intCast]
  exact (two_zpow_split k 52).symm

/-- The result of `roundDouble` stays in the binade of its argument. -/
theorem roundDouble_range (q : ℚ) (e : Int) (h1 : (2 : ℚ) ^ e ≤ q)
    (h2 : q < (2 : ℚ) ^ (e + 1)) :
    (2 : ℚ) ^ e ≤ roundDouble q ∧ roundDouble q ≤ (2 : ℚ) ^ (e + 1) := by
  have hu := two_zpow_pos (e - 52)
  have a1 : (2 : ℚ) ^ e = (((2 : Int) ^ 52 : Int) : ℚ) * 2 ^ (e - 52) := two_zpow_split e 52
  have a2 : (2 : ℚ) ^ (e + 1) = (((2 : Int) ^ 53 : Int) : ℚ) * 2 ^ (e - 52) := by
    have := two_zpow_split (e + 1) 53
    have e' : e + 1 - (53 : Nat) = e - 52 := by omega
    rw [e'] at this
    exact this
  rw [roundDouble_of_binade q e h1 h2]
  constructor
  · rw [a1]
    apply mul_le_mul_of_nonneg_right _ (le_of_lt hu)
    have := roundHalfEven_mono (((2 : Int) ^ 52 : Int) : ℚ) (q / 2 ^ (e - 52))
      (by rw [le_div_iff₀ hu, ← a1]; exact h1)
    rw [roundHalfEven_intCast] at this
    exact_mod_cast this
  · rw [a2]
    apply mul_le_mul_of_nonneg_right _ (le_of_lt hu)
    have := roundHalfEven_mono (q / 2 ^ (e - 52)) (((2 : Int) ^ 53 : Int) : ℚ)
      (by rw [div_le_iff₀ hu, ← a2]; exact le_of_lt h2)
    rw [roundHalfEven_intCast] at this
    exact_mod_cast this

/-- Rounding to `double` is monotone on the non-negative numbers. -/
theorem roundDouble_mono (x y : ℚ) (hx : 0 ≤ x) (h : x ≤ y) :
    roundDouble x ≤ roundDouble y := by
  rcases eq_or_lt_of_le hx with h0 | hpos
  · rw [← h0, roundDouble_zero]
    rcases eq_or_lt_of_le (hx.trans h) with h0' | hpos'
    · rw [← h0', roundDouble_zero]
    · obtain ⟨e, h1, h2⟩ := binade_exists y hpos'
      exact le_trans (le_of_lt (two_zpow_pos e)) (roundDouble_range y e h1 h2).1
  · have hy : 0 < y := lt_of_lt_of_le hpos h
    obtain ⟨e, h1, h2⟩ := binade_exists x hpos
    obtain ⟨e', h1', h2'⟩ := binade_exists y hy
    have hee : e ≤ e' := by
      by_contra hc
      have : e' + 1 ≤ e := by omega
      have := zpow_le_zpow_right₀ (show (1 : ℚ) ≤ 2 by norm_num) this
      linarith
    rcases eq_or_lt_of_le hee with heq | hlt
    · subst heq
      rw [roundDouble_of_binade x e h1 h2, roundDouble_of_binade y e h1' h2']
      apply mul_le_mul_of_nonneg_right _ (le_of_lt (two_zpow_pos _))
      exact_mod_cast roundHalfEven_mono _ _
        (div_le_div_of_nonneg_right h (le_of_lt (two_zpow_pos _)))
    · have := zpow_le_zpow_right₀ (show (1 : ℚ) ≤ 2 by norm_num) (show e + 1 ≤ e' by omega)
      exact le_trans (roundDouble_range x e h1 h2).2
        (le_trans this (roundDouble_range y e' h1' h2').1)

/-- The relative error of rounding to `double` is at most `2^-53`. -/
theorem roundDouble_err (q : ℚ) (hq : 0 ≤ q) : |roundDouble q - q| ≤ q / 2 ^ 53 := by
  rcases eq_or_lt_of_le hq with h0 | hpos
  · rw [← h0, roundDouble_zero]
    norm_num
  · obtain ⟨e, h1, h2⟩ := binade_exists q hpos
    have hu := two_zpow_pos (e - 52)
    rw [roundDouble_of_binade q e h1 h2]
    have herr := roundHalfEven_err (q / 2 ^ (e - 52))
    have e1 : (roundHalfEven (q / 2 ^ (e - 52)) : ℚ) * 2 ^ (e - 52) - q
        = ((roundHalfEven (q / 2 ^ (e - 52)) : ℚ) - q / 2 ^ (e - 52)) * 2 ^ (e - 52) := by
      field_simp
    rw [e1, abs_mul, abs_of_pos hu]
    have a1 : (2 : ℚ) ^ e = 2 ^ 53 * (2 ^ (e - 52) / 2) := by
      have : (2 : ℚ) ^ e = 2 ^ (52 : Int) * 2 ^ (e - 52) := by
        rw [← zpow_add₀ (by norm_num)]
        congr 1
        omega
      rw [this]
      norm_num
      ring
    have : 1 / 2 * (2 : ℚ) ^ (e - 52) ≤ q / 2 ^ 53 := by
      rw [le_div_iff₀ (by positivity)]
      calc 1 / 2 * (2 : ℚ) ^ (e - 52) * 2 ^ 53 = 2 ^ 53 * (2 ^ (e - 52) / 2) := by ring
        _ = 2 ^ e := a1.symm
        _ ≤ q := h1
    exact le_trans (mul_le_mul_of_nonneg_right herr (le_of_lt hu)) this


theorem roundDouble_exact (q : ℚ) (e n : Int) (hq : q ≠ 0) (he : Int.log 2 |q| = e)
    (hn : q / 2 ^ (e - 52) = (n : ℚ)) : roundDouble q = q := by
  unfold roundDouble
  rw [if_neg hq]
  simp only []
  rw [he, hn, roundHalfEven_intCast, ← hn]
  exact div_mul_cancel₀ q (ne_of_gt (two_zpow_pos _))

theorem roundDouble_neg_two_zpow (k : Int) : roundDouble (-(2 : ℚ) ^ k) = -(2 : ℚ) ^ k := by
  apply roundDouble_exact _ k (-((2 : Int) ^ 52))
  · exact neg_ne_zero.mpr (ne_of_gt (two_zpow_pos k))
  · rw [abs_neg, abs_of_pos (two_zpow_pos k)]
    exact_mod_cast Int.log_zpow (R := ℚ) (b := 2) (by norm_num) k
  · rw [div_eq_iff (ne_of_gt (two_zpow_pos _)), Int.cast_neg, neg_mul]
    exact congrArg Neg.neg (two_zpow_split k 52)

theorem roundDouble_one : roundDouble 1 = 1 := by
  have := roundDouble_two_zpow 0
  rwa [zpow_zero] at this

theorem roundDouble_nonneg (q : ℚ) (hq : 0 ≤ q) : 0 ≤ roundDouble q := by
  have := roundDouble_mono 0 q le_rfl hq
  rwa [roundDouble_zero] at this

theorem roundDouble_le_one (q : ℚ) (h0 : 0 ≤ q) (h1 : q ≤ 1) : roundDouble q ≤ 1 := by
  have := roundDouble_mono q 1 h0 h1
  rwa [roundDouble_one] at this

/-- The rounded chain `32 * fl(1 - fl(1 / fl(1 + p)))` for a positive `p`: it lies in
`0..32` and within `2^-46` of the exact value `32 * (1 - 1 / (1 + p))`. -/
theorem eloChain (p : ℚ) (hp : 0 < p) :
    0 ≤ roundDouble (32 * roundDouble (1 - roundDouble (1 / roundDouble (1 + p)))) ∧
    roundDouble (32 * roundDouble (1 - roundDouble (1 / roundDouble (1 + p)))) ≤ 32 ∧
    |roundDouble (32 * roundDouble (1 - roundDouble (1 / roundDouble (1 + p))))
        - 32 * (1 - 1 / (1 + p))| ≤ 1 / 2 ^ 46 := by
  have ha : 1 ≤ 1 + p := by linarith
  have hs1 : 1 ≤ roundDouble (1 + p) := by
    have := roundDouble_mono 1 (1 + p) (by norm_num) ha
    rwa [roundDouble_one] at this
  have hserr := roundDouble_err (1 + p) (by linarith)
  generalize roundDouble (1 + p) = s at hs1 hserr
  have hs0 : 0 < s := by linarith
  have ht0 : 0 < 1 / s := one_div_pos.mpr hs0
  have ht1 : 1 / s ≤ 1 := by rw [div_le_one hs0]; exact hs1
  have hta : |1 / s - 1 / (1 + p)| ≤ 1 / 2 ^ 53 := by
    have e : 1 / s - 1 / (1 + p) = ((1 + p) - s) / (s * (1 + p)) := by
      field_simp
    rw [e, abs_div, abs_of_pos (show 0 < s * (1 + p) by positivity),
      div_le_iff₀ (show 0 < s * (1 + p) by positivity), abs_sub_comm]
    calc |s - (1 + p)| ≤ (1 + p) / 2 ^ 53 := hserr
      _ = 1 / 2 ^ 53 * (1 * (1 + p)) := by ring
      _ ≤ 1 / 2 ^ 53 * (s * (1 + p)) := by
        apply mul_le_mul_of_nonneg_left _ (by positivity)
        exact mul_le_mul_of_nonneg_right hs1 (by linarith)
  have hE0 := roundDouble_nonneg (1 / s) (le_of_lt ht0)
  have hE1 := roundDouble_le_one (1 / s) (le_of_lt ht0) ht1
  have hEerr := roundDouble_err (1 / s) (le_of_lt ht0)
  generalize roundDouble (1 / s) = E at hE0 hE1 hEerr
  have hd0 := roundDouble_nonneg (1 - E) (by linarith)
  have hd1 := roundDouble_le_one (1 - E) (by linarith) (by linarith)
  have hderr := roundDouble_err (1 - E) (by linarith)
  generalize roundDouble (1 - E) = d at hd0 hd1 hderr
  have hv0 := roundDouble_nonneg (32 * d) (by linarith)
  have hv1 : roundDouble (32 * d) ≤ 32 := by
    have := roundDouble_mono (32 * d) 32 (by linarith) (by linarith)
    have e32 : roundDouble 32 = 32 := by
      have := roundDouble_two_zpow 5
      norm_num at this
      exact this
    rwa [e32] at this
  have hverr := roundDouble_err (32 * d) (by linarith)
  generalize roundDouble (32 * d) = v at hv0 hv1 hverr
  refine ⟨hv0, hv1, ?_⟩
  rw [abs_le] at hta hEerr hderr hverr ⊢
  have k1 : 1 / s / 2 ^ 53 ≤ 1 / 2 ^ 53 := by
    apply div_le_div_of_nonneg_right ht1 (by positivity)
  have k2 : (1 - E) / 2 ^ 53 ≤ 1 / 2 ^ 53 := by
    apply div_le_div_of_nonneg_right (by linarith) (by positivity)
  have k3 : 32 * d / 2 ^ 53 ≤ 32 / 2 ^ 53 := by
    apply div_le_div_of_nonneg_right (by linarith) (by positivity)
  constructor <;> linarith

/-! ## The end-to-end scenario: rating update and the winning move -/

theorem eloDouble_eq (pow10 : ℚ → ℚ) (w l : Int) :
    eloDouble pow10 w l
      = roundDouble (32 * roundDouble (1 - roundDouble (1 / roundDouble
          (1 + eloPower pow10 w l)))) := by
  unfold eloDouble
  simp only [Int.cast_ofNat]

theorem eloPower_equal (pow10 : ℚ → ℚ) (rating : Int) :
    eloPower pow10 rating rating = pow10 0 := by
  unfold eloPower
  simp only [sub_self, Int.cast_zero, zero_div, roundDouble_zero]

theorem eloDelta_equal (pow10 : ℚ → ℚ) (hpow : pow10 0 = 1) (rating : Nat) :
    eloDelta pow10 rating rating = 16 := by
  have e2 : roundDouble 2 = 2 := by
    have := roundDouble_two_zpow 1
    rwa [zpow_one] at this
  have eh : roundDouble (1 / 2) = 1 / 2 := by
    have := roundDouble_two_zpow (-1)
    norm_num at this
    exact this
  have e16 : roundDouble 16 = 16 := by
    have := roundDouble_two_zpow 4
    norm_num at this
    exact this
  have ev : eloDouble pow10 rating rating = 16 := by
    rw [eloDouble_eq, eloPower_equal, hpow]
    norm_num [e2, eh, e16]
  unfold eloDelta
  rw [ev]
  unfold truncToInt toInt16
  norm_num

theorem updateEloRating_spec (pow10 : ℚ → ℚ) (db : Database) (w l : Nat) (uw ul : User)
    (hw : mapFind db.users w = some uw) (hl : mapFind db.users l = some ul)
    (hne : w ≠ l) :
    (db.updateEloRating pow10 w l).2 = eloDelta pow10 uw.eloRating ul.eloRating ∧
    ((db.updateEloRating pow10 w l).1.getUser w).eloRating
      = toUInt16 ((uw.eloRating : Int) + eloDelta pow10 uw.eloRating ul.eloRating) ∧
    ((db.updateEloRating pow10 w l).1.getUser l).eloRating
      = toUInt16 ((ul.eloRating : Int) - eloDelta pow10 uw.eloRating ul.eloRating) := by
  have hne' : ¬ l = w := fun e => hne e.symm
  unfold Database.updateEloRating
  rw [hw, hl]
  refine ⟨rfl, ?_, ?_⟩
  · unfold Database.getUser
    simp only [mapFind_mapModify, if_true, if_neg hne', hw, Option.map_some']
  · unfold Database.getUser
    simp only [mapFind_mapModify, if_true, if_neg hne, hl, Option.map_some']

theorem sendToUser_congr (s s' : ServerState) (h : s.userSockets = s'.userSockets)
    (target type userId : Nat) (payload : Payload) :
    sendToUser s target type userId payload = sendToUser s' target type userId payload := by
  unfold sendToUser
  rw [h]

theorem handleMakeMove_wins (pow10 : ℚ → ℚ) (s : ServerState) (clk : Clock)
    (clientSocket : Int) (userId : Nat) (req : MoveRequest) (game : GameState)
    (hgame : mapFind s.activeGames req.gameId = some game)
    (hturn : game.currentTurn = userId) (htime : game.timeLimit = 0)
    (hvalid : isValidMove game req.x req.y = true)
    (hwin : checkWin (placeStone game userId req.x req.y clk.updateNow) req.x req.y
      (stoneOf (placeStone game userId req.x req.y clk.updateNow) userId) = true) :
    handleMakeMove pow10 s clk clientSocket userId req
      = handleGameOver pow10
          (storeGame
            { s with
              db := s.db.logMove clk.logWall req.gameId userId
                (placeStone game userId req.x req.y clk.updateNow).moveCount req.x req.y }
            req.gameId (placeStone game userId req.x req.y clk.updateNow))
          clk (placeStone game userId req.x req.y clk.updateNow) userId 0 := by
  unfold handleMakeMove
  rw [hgame]
  simp only []
  rw [if_neg (fun h => h hturn), if_neg (by rw [htime]; simp), if_neg (fun h => h hvalid),
    if_pos hwin]

theorem find_of_map_eq {β : Type} (m m' : List (Nat × User)) (key : Nat)
    (proj : User → β) (u : User)
    (h : (mapFind m' key).map proj = (mapFind m key).map proj)
    (hu : mapFind m key = some u) :
    ∃ u', mapFind m' key = some u' ∧ proj u' = proj u := by
  rw [hu] at h
  cases hf : mapFind m' key with
  | none => rw [hf] at h; cases h
  | some u' =>
    rw [hf] at h
    simp only [Option.map_some', Option.some.injEq] at h
    exact ⟨u', rfl, h⟩

/-- The winning fifth move: with player 1 on (7,7)–(10,7) and (11,7) free, the move
of `A` to (11,7) ends the match in favour of `A`. -/
theorem InPlay_winningMove (pow10 : ℚ → ℚ) (hpow : pow10 0 = 1) (base s : ServerState)
    (clk : Clock) (clientSocket : Int) (gameId A B : Nat) (g : GameState)
    (ones twos : List Nat) (uA uB : User) (hAB : A ≠ B)
    (h : InPlay base s gameId g) (hg : GameIs g A B A ones twos)
    (huA : mapFind base.db.users A = some uA) (hrA : uA.eloRating = 1000)
    (huB : mapFind base.db.users B = some uB) (hrB : uB.eloRating = 1000)
    (hones : 112 ∈ ones ∧ 113 ∈ ones ∧ 114 ∈ ones ∧ 115 ∈ ones)
    (h1 : 116 ∉ ones) (h2 : 116 ∉ twos) (hcount : ones.length + twos.length = 8) :
    mapFind (handleMakeMove pow10 s clk clientSocket A
        { gameId := gameId, x := 11, y := 7 }).1.activeGames gameId = none ∧
    (handleMakeMove pow10 s clk clientSocket A { gameId := gameId, x := 11, y := 7 }).2
      = sendToUser base A MSG_GAME_OVER A
          (Payload.gameOver
            { gameId := gameId, winnerId := A, eloChange := 16, reason := 0,
              totalMoves := 9 })
        ++ sendToUser base B MSG_GAME_OVER B
          (Payload.gameOver
            { gameId := gameId, winnerId := A, eloChange := 16, reason := 0,
              totalMoves := 9 }) ∧
    (∃ r, mapFind (handleMakeMove pow10 s clk clientSocket A
          { gameId := gameId, x := 11, y := 7 }).1.db.gameRecords gameId = some r ∧
        r.winnerId = A ∧ r.result = 0) ∧
    ((handleMakeMove pow10 s clk clientSocket A
        { gameId := gameId, x := 11, y := 7 }).1.db.getUser A).eloRating = 1016 ∧
    ((handleMakeMove pow10 s clk clientSocket A
        { gameId := gameId, x := 11, y := 7 }).1.db.getUser B).eloRating = 984 := by
  obtain ⟨i1, i2, i3, i4, i5⟩ := h
  obtain ⟨p1, p2, pt, tl, mc, hb⟩ := hg
  obtain ⟨f1, f2, f3, f4, _, _, f7, _⟩ := placeStone_frame g A 11 7 clk.updateNow
  have f7' : (placeStone g A 11 7 clk.updateNow).moveCount = 9 := by
    rw [f7, mc, hcount]
  have hstone : stoneOf g A = 1 := by unfold stoneOf; rw [if_pos p1]
  have hstone' : stoneOf (placeStone g A 11 7 clk.updateNow) A = 1 := by
    unfold stoneOf; rw [f2, if_pos p1]
  have hb' := placeStone_boardIs_one g 15 A 11 7 clk.updateNow ones twos hb
    (by decide) (by decide) hstone
  have hvalid : isValidMove g 11 7 = true :=
    boardIs_valid g 15 11 7 ones twos hb (by decide) (by decide) h1 h2
  have hwin : checkWin (placeStone g A 11 7 clk.updateNow) 11 7
      (stoneOf (placeStone g A 11 7 clk.updateNow) A) = true := by
    rw [hstone']
    apply checkWin_of_five _ 11 7 1 (1, 0) (by decide)
    intro k hk1 hk2
    obtain ⟨hn, _, hc⟩ := hb'
    have hidx : ((((7 : Nat) : Int) + (1, 0).2 * k) * (placeStone g A 11 7
        clk.updateNow).boardSize + (((11 : Nat) : Int) + (1, 0).1 * k)).toNat
        = (116 + k).toNat := by
      rw [hn]; congr 1; simp only []; push_cast; ring
    refine ⟨by simp only []; push_cast; omega, by rw [hn]; simp only []; push_cast; omega,
      by simp only []; push_cast; omega, by rw [hn]; simp only []; push_cast; omega, ?_⟩
    rw [hidx, hc, if_pos]
    have hk : k = -4 ∨ k = -3 ∨ k = -2 ∨ k = -1 ∨ k = 0 := by omega
    obtain ⟨o1, o2, o3, o4⟩ := hones
    rcases hk with rfl | rfl | rfl | rfl | rfl
    · exact List.mem_cons_of_mem _ o1
    · exact List.mem_cons_of_mem _ o2
    · exact List.mem_cons_of_mem _ o3
    · exact List.mem_cons_of_mem _ o4
    · exact List.mem_cons_self _ _
  rw [handleMakeMove_wins pow10 s clk clientSocket A { gameId := gameId, x := 11, y := 7 }
    g i4 pt tl hvalid hwin]
  have hopp : opponentOf (placeStone g A 11 7 clk.updateNow) A = B := by
    unfold opponentOf; rw [f2, f3, if_pos p1, p2]
  have hrec := logMove_record s.db clk.logWall gameId A
    (placeStone g A 11 7 clk.updateNow).moveCount 11 7 i3
  obtain ⟨r1, hr1⟩ := hrec
  -- the users after the result is stored
  have husers : ∀ key,
      (mapFind ((s.db.logMove clk.logWall gameId A
          (placeStone g A 11 7 clk.updateNow).moveCount 11 7).updateGameResult clk.endWall
            (placeStone g A 11 7 clk.updateNow).gameId A
            (if A = (placeStone g A 11 7 clk.updateNow).player1Id then 0 else 1)).users
          key).map User.eloRating
        = (mapFind base.db.users key).map User.eloRating := by
    intro key
    rw [updateGameResult_users_proj _ _ _ _ _ User.eloRating (fun _ _ => rfl), logMove_users,
      i1]
  obtain ⟨vA, hvA, hvA'⟩ := find_of_map_eq _ _ A User.eloRating uA (husers A) huA
  obtain ⟨vB, hvB, hvB'⟩ := find_of_map_eq _ _ B User.eloRating uB (husers B) huB
  obtain ⟨e1, e2, e3⟩ := updateEloRating_spec pow10 _ A B vA vB hvA hvB hAB
  rw [hvA', hvB', hrA, hrB, eloDelta_equal pow10 hpow 1000] at e1 e2 e3
  refine ⟨?_, ?_, ?_, ?_, ?_⟩
  · rw [handleGameOver_activeGames, if_pos (by rw [f1, i5])]
  · rw [handleGameOver_sent, hopp]
    have e1' : (Database.updateEloRating pow10
        ((storeGame
          { s with
            db := s.db.logMove clk.logWall gameId A
              (placeStone g A 11 7 clk.updateNow).moveCount 11 7 }
          gameId (placeStone g A 11 7 clk.updateNow)).db.updateGameResult clk.endWall
            (placeStone g A 11 7 clk.updateNow).gameId A
            (if A = (placeStone g A 11 7 clk.updateNow).player1Id then 0 else 1))
        A B).2 = 16 := e1
    have i2' : (storeGame
          { s with
            db := s.db.logMove clk.logWall gameId A
              (placeStone g A 11 7 clk.updateNow).moveCount 11 7 }
          gameId (placeStone g A 11 7 clk.updateNow)).userSockets = base.userSockets := i2
    rw [e1', sendToUser_congr _ base i2', sendToUser_congr _ base i2']
    rw [f1, f2, f3, f7', i5, p1, p2]
  · have hr1' : mapFind (storeGame
          { s with
            db := s.db.logMove clk.logWall gameId A
              (placeStone g A 11 7 clk.updateNow).moveCount 11 7 }
          gameId (placeStone g A 11 7 clk.updateNow)).db.gameRecords
        (placeStone g A 11 7 clk.updateNow).gameId = some r1 := by
      rw [f1, i5]; exact hr1
    obtain ⟨r', q1, q2, q3, _⟩ := handleGameOver_record pow10 _ clk
      (placeStone g A 11 7 clk.updateNow) A 0 r1 hr1'
    rw [f1, i5] at q1
    refine ⟨r', q1, q2, ?_⟩
    rw [q3, f2, p1, if_pos rfl]
  · rw [handleGameOver_db, hopp]
    exact e2
  · rw [handleGameOver_db, hopp]
    exact e3

theorem getD_replicate_zero (n idx : Nat) : (List.replicate n 0).getD idx 0 = 0 := by
  simp only [List.getD_eq_getElem?_getD, List.getElem?_replicate]
  split <;> rfl

theorem newGame_GameIs (c : Challenge) (userId gameId : Nat) (now : Int)
    (hs : c.boardSize = 15) (ht : c.timeLimit = 0) :
    GameIs (newGame c userId gameId now) c.challengerId userId c.challengerId [] [] := by
  refine ⟨rfl, rfl, rfl, ht, rfl, ?_, ?_, ?_⟩
  · exact hs
  · show (List.replicate (c.boardSize * c.boardSize) 0).length = 15 * 15
    rw [List.length_replicate, hs]
  · intro idx
    rw [if_neg (List.not_mem_nil _), if_neg (List.not_mem_nil _)]
    exact getD_replicate_zero _ _

theorem getChallenge_of_find (db : Database) (id : Nat) (c : Challenge)
    (h : mapFind db.challenges id = some c) : db.getChallenge id = c := by
  unfold Database.getChallenge
  rw [h]

/-- Accepting a stored challenge starts the match under the next game id. -/
theorem handleAcceptChallenge_InPlay (s : ServerState) (clk : Clock) (clientSocket : Int)
    (userId challengeId : Nat) (c : Challenge)
    (hc : mapFind s.db.challenges challengeId = some c) (hid : c.challengeId ≠ 0) :
    InPlay (handleAcceptChallenge s clk clientSocket userId challengeId).1
      (handleAcceptChallenge s clk clientSocket userId challengeId).1 s.db.gameIdCounter
      (newGame c userId s.db.gameIdCounter clk.turnNow) ∧
    (handleAcceptChallenge s clk clientSocket userId challengeId).1.userSockets
      = s.userSockets ∧
    ∀ key,
      (mapFind (handleAcceptChallenge s clk clientSocket userId challengeId).1.db.users
          key).map User.eloRating
        = (mapFind s.db.users key).map User.eloRating := by
  have hget := getChallenge_of_find s.db challengeId c hc
  unfold handleAcceptChallenge
  simp only []
  rw [hget, if_neg hid]
  refine ⟨⟨rfl, rfl, ?_, ?_, rfl⟩, rfl, ?_⟩
  · simp only [Database.createGame, Database.removeChallenge, Database.setUserInGame,
      mapFind_mapInsert, if_true]
    exact ⟨_, rfl⟩
  · simp only [Database.createGame, Database.removeChallenge, mapFind_mapInsert, if_true]
  · intro key
    simp only [Database.createGame, Database.removeChallenge, Database.setUserInGame]
    refine (mapFind_mapModify_proj _ _ _ User.eloRating ?_ _).trans ?_
    · intro v; rfl
    refine (mapFind_mapModify_proj _ _ _ User.eloRating ?_ _).trans ?_
    · intro v; rfl
    rfl

theorem offRow_index (x y : Nat) (hx : x < 15) (hn : ¬ (y = 7 ∧ 7 ≤ x ∧ x ≤ 11)) :
    y * 15 + x ≠ 7 * 15 + 7 ∧ y * 15 + x ≠ 7 * 15 + 8 ∧ y * 15 + x ≠ 7 * 15 + 9 ∧
      y * 15 + x ≠ 7 * 15 + 10 ∧ y * 15 + x ≠ 116 := by
  refine ⟨?_, ?_, ?_, ?_, ?_⟩ <;> omega

theorem index_ne_of_ne (p q : Nat × Nat) (hp : p.1 < 15) (hq : q.1 < 15) (h : p ≠ q) :
    p.2 * 15 + p.1 ≠ q.2 * 15 + q.1 := by
  intro e
  exact h (Prod.ext (by omega) (by omega))

/-! ## The end-to-end scenario -/

/-- Claim C5: from any server state holding a pending 15 × 15 untimed challenge of `A`
and user records of `A` and `B` rated 1000 (with `pow(10.0, 0.0) = 1`), after `B`
accepts and `A` plays (7,7), (8,7), (9,7), (10,7) in alternation with any four
distinct in-bounds replies of `B` off the cells (7,7)–(11,7), the match is still
active after each of these eight moves, and the move of `A` to (11,7) removes it from
the active set, reports winner `A`, reason 0, rating change 16 and nine moves to both
players, records winner `A` with result 0, and leaves `A` rated 1016 and `B` rated
984. -/
theorem fiveInARow_scenario (pow10 : ℚ → ℚ) (hpow : pow10 0 = 1) (s0 : ServerState)
    (clk0 : Clock) (clk : Nat → Clock) (sockA sockB : Int) (A B challengeId : Nat)
    (c : Challenge) (uA uB : User) (b : Nat → Nat × Nat) (hAB : A ≠ B)
    (hc : mapFind s0.db.challenges challengeId = some c) (hid : c.challengeId ≠ 0)
    (hcA : c.challengerId = A) (hcs : c.boardSize = 15) (hct : c.timeLimit = 0)
    (huA : mapFind s0.db.users A = some uA) (hrA : uA.eloRating = 1000)
    (huB : mapFind s0.db.users B = some uB) (hrB : uB.eloRating = 1000)
    (hb : ∀ i, i < 4 →
      (b i).1 < 15 ∧ (b i).2 < 15 ∧ ¬ ((b i).2 = 7 ∧ 7 ≤ (b i).1 ∧ (b i).1 ≤ 11))
    (hbne : ∀ i j, i < j → j < 4 → b i ≠ b j) :
    (∀ n, n ≤ 8 →
      (mapFind
        (run pow10 (scenarioStart s0 clk0 sockB B challengeId)
          ((scenarioMoves clk sockA sockB A B s0.db.gameIdCounter b).take n)).activeGames
        s0.db.gameIdCounter).isSome = true) ∧
    mapFind (scenarioLast pow10 s0 clk0 clk sockA sockB A B challengeId b).1.activeGames
      s0.db.gameIdCounter = none ∧
    (scenarioLast pow10 s0 clk0 clk sockA sockB A B challengeId b).2
      = sendToUser s0 A MSG_GAME_OVER A
          (Payload.gameOver
            { gameId := s0.db.gameIdCounter, winnerId := A, eloChange := 16, reason := 0,
              totalMoves := 9 })
        ++ sendToUser s0 B MSG_GAME_OVER B
          (Payload.gameOver
            { gameId := s0.db.gameIdCounter, winnerId := A, eloChange := 16, reason := 0,
              totalMoves := 9 }) ∧
    (∃ r,
      mapFind (scenarioLast pow10 s0 clk0 clk sockA sockB A B challengeId b).1.db.gameRecords
          s0.db.gameIdCounter = some r ∧
        r.winnerId = A ∧ r.result = 0) ∧
    ((scenarioLast pow10 s0 clk0 clk sockA sockB A B challengeId b).1.db.getUser A).eloRating
      = 1016 ∧
    ((scenarioLast pow10 s0 clk0 clk sockA sockB A B challengeId b).1.db.getUser B).eloRating
      = 984 := by
  obtain ⟨x0, y0, n0⟩ := hb 0 (by decide)
  obtain ⟨a00, a01, a02, a03, a04⟩ := offRow_index (b 0).1 (b 0).2 x0 n0
  obtain ⟨x1, y1, n1⟩ := hb 1 (by decide)
  obtain ⟨a10, a11, a12, a13, a14⟩ := offRow_index (b 1).1 (b 1).2 x1 n1
  obtain ⟨x2, y2, n2⟩ := hb 2 (by decide)
  obtain ⟨a20, a21, a22, a23, a24⟩ := offRow_index (b 2).1 (b 2).2 x2 n2
  obtain ⟨x3, y3, n3⟩ := hb 3 (by decide)
  obtain ⟨a30, a31, a32, a33, a34⟩ := offRow_index (b 3).1 (b 3).2 x3 n3
  have d01 := index_ne_of_ne (b 0) (b 1) x0 x1 (hbne 0 1 (by decide) (by decide))
  have d02 := index_ne_of_ne (b 0) (b 2) x0 x2 (hbne 0 2 (by decide) (by decide))
  have d03 := index_ne_of_ne (b 0) (b 3) x0 x3 (hbne 0 3 (by decide) (by decide))
  have d12 := index_ne_of_ne (b 1) (b 2) x1 x2 (hbne 1 2 (by decide) (by decide))
  have d13 := index_ne_of_ne (b 1) (b 3) x1 x3 (hbne 1 3 (by decide) (by decide))
  have d23 := index_ne_of_ne (b 2) (b 3) x2 x3 (hbne 2 3 (by decide) (by decide))
  have m1a : 7 * 15 + 7 ∉ ([] : List Nat) :=
    (List.not_mem_nil _)
  have m1b : 7 * 15 + 7 ∉ ([] : List Nat) :=
    (List.not_mem_nil _)
  have l1a : ([] : List Nat).length ≤ 3 := Nat.le_of_ble_eq_true rfl
  have l1b : ([] : List Nat).length ≤ 4 := Nat.le_of_ble_eq_true rfl
  have m1c : 116 ∉ ([] : List Nat) :=
    (List.not_mem_nil _)
  have m1d : 116 ∉ ([] : List Nat) :=
    (List.not_mem_nil _)
  have m2a : (b 0).2 * 15 + (b 0).1 ∉ [7 * 15 + 7] :=
    (List.not_mem_cons_of_ne_of_not_mem a00 (List.not_mem_nil _))
  have m2b : (b 0).2 * 15 + (b 0).1 ∉ ([] : List Nat) :=
    (List.not_mem_nil _)
  have l2a : ([] : List Nat).length ≤ 3 := Nat.le_of_ble_eq_true rfl
  have l2b : [7 * 15 + 7].length ≤ 4 := Nat.le_of_ble_eq_true rfl
  have m2c : 116 ∉ [7 * 15 + 7] :=
    (List.not_mem_cons_of_ne_of_not_mem (by decide) (List.not_mem_nil _))
  have m2d : 116 ∉ ([] : List Nat) :=
    (List.not_mem_nil _)
  have m3a : 7 * 15 + 8 ∉ [7 * 15 + 7] :=
    (List.not_mem_cons_of_ne_of_not_mem (by decide) (List.not_mem_nil _))
  have m3b : 7 * 15 + 8 ∉ [(b 0).2 * 15 + (b 0).1] :=
    (List.not_mem_cons_of_ne_of_not_mem (Ne.symm a01) (List.not_mem_nil _))
  have l3a : [7 * 15 + 7].length ≤ 3 := Nat.le_of_ble_eq_true rfl
  have l3b : [(b 0).2 * 15 + (b 0).1].length ≤ 4 := Nat.le_of_ble_eq_true rfl
  have m3c : 116 ∉ [7 * 15 + 7] :=
    (List.not_mem_cons_of_ne_of_not_mem (by decide) (List.not_mem_nil _))
  have m3d : 116 ∉ [(b 0).2 * 15 + (b 0).1] :=
    (List.not_mem_cons_of_ne_of_not_mem (Ne.symm a04) (List.not_mem_nil _))
  have m4a : (b 1).2 * 15 + (b 1).1 ∉ [7 * 15 + 8, 7 * 15 + 7] :=
    (List.not_mem_cons_of_ne_of_not_mem a11 (List.not_mem_cons_of_ne_of_not_mem a10 (List.not_mem_nil _)))
  have m4b : (b 1).2 * 15 + (b 1).1 ∉ [(b 0).2 * 15 + (b 0).1] :=
    (List.not_mem_cons_of_ne_of_not_mem (Ne.symm d01) (List.not_mem_nil _))
  have l4a : [(b 0).2 * 15 + (b 0).1].length ≤ 3 := Nat.le_of_ble_eq_true rfl
  have l4b : [7 * 15 + 8, 7 * 15 + 7].length ≤ 4 := Nat.le_of_ble_eq_true rfl
  have m4c : 116 ∉ [7 * 15 + 8, 7 * 15 + 7] :=
    (List.not_mem_cons_of_ne_of_not_mem (by decide) (List.not_mem_cons_of_ne_of_not_mem (by decide) (List.not_mem_nil _)))
  have m4d : 116 ∉ [(b 0).2 * 15 + (b 0).1] :=
    (List.not_mem_cons_of_ne_of_not_mem (Ne.symm a04) (List.not_mem_nil _))
  have m5a : 7 * 15 + 9 ∉ [7 * 15 + 8, 7 * 15 + 7] :=
    (List.not_mem_cons_of_ne_of_not_mem (by decide) (List.not_mem_cons_of_ne_of_not_mem (by decide) (List.not_mem_nil _)))
  have m5b : 7 * 15 + 9 ∉ [(b 1).2 * 15 + (b 1).1, (b 0).2 * 15 + (b 0).1] :=
    (List.not_mem_cons_of_ne_of_not_mem (Ne.symm a12) (List.not_mem_cons_of_ne_of_not_mem (Ne.symm a02) (List.not_mem_nil _)))
  have l5a : [7 * 15 + 8, 7 * 15 + 7].length ≤ 3 := Nat.le_of_ble_eq_true rfl
  have l5b : [(b 1).2 * 15 + (b 1).1, (b 0).2 * 15 + (b 0).1].length ≤ 4 := Nat.le_of_ble_eq_true rfl
  have m5c : 116 ∉ [7 * 15 + 8, 7 * 15 + 7] :=
    (List.not_mem_cons_of_ne_of_not_mem (by decide) (List.not_mem_cons_of_ne_of_not_mem (by decide) (List.not_mem_nil _)))
  have m5d : 116 ∉ [(b 1).2 * 15 + (b 1).1, (b 0).2 * 15 + (b 0).1] :=
    (List.not_mem_cons_of_ne_of_not_mem (Ne.symm a14) (List.not_mem_cons_of_ne_of_not_mem (Ne.symm a04) (List.not_mem_nil _)))
  have m6a : (b 2).2 * 15 + (b 2).1 ∉ [7 * 15 + 9, 7 * 15 + 8, 7 * 15 + 7] :=
    (List.not_mem_cons_of_ne_of_not_mem a22 (List.not_mem_cons_of_ne_of_not_mem a21 (List.not_mem_cons_of_ne_of_not_mem a20 (List.not_mem_nil _))))
  have m6b : (b 2).2 * 15 + (b 2).1 ∉ [(b 1).2 * 15 + (b 1).1, (b 0).2 * 15 + (b 0).1] :=
    (List.not_mem_cons_of_ne_of_not_mem (Ne.symm d12) (List.not_mem_cons_of_ne_of_not_mem (Ne.symm d02) (List.not_mem_nil _)))
  have l6a : [(b 1).2 * 15 + (b 1).1, (b 0).2 * 15 + (b 0).1].length ≤ 3 := Nat.le_of_ble_eq_true rfl
  have l6b : [7 * 15 + 9, 7 * 15 + 8, 7 * 15 + 7].length ≤ 4 := Nat.le_of_ble_eq_true rfl
  have m6c : 116 ∉ [7 * 15 + 9, 7 * 15 + 8, 7 * 15 + 7] :=
    (List.not_mem_cons_of_ne_of_not_mem (by decide) (List.not_mem_cons_of_ne_of_not_mem (by decide) (List.not_mem_cons_of_ne_of_not_mem (by decide) (List.not_mem_nil _))))
  have m6d : 116 ∉ [(b 1).2 * 15 + (b 1).1, (b 0).2 * 15 + (b 0).1] :=
    (List.not_mem_cons_of_ne_of_not_mem (Ne.symm a14) (List.not_mem_cons_of_ne_of_not_mem (Ne.symm a04) (List.not_mem_nil _)))
  have m7a : 7 * 15 + 10 ∉ [7 * 15 + 9, 7 * 15 + 8, 7 * 15 + 7] :=
    (List.not_mem_cons_of_ne_of_not_mem (by decide) (List.not_mem_cons_of_ne_of_not_mem (by decide) (List.not_mem_cons_of_ne_of_not_mem (by decide) (List.not_mem_nil _))))
  have m7b : 7 * 15 + 10 ∉ [(b 2).2 * 15 + (b 2).1, (b 1).2 * 15 + (b 1).1, (b 0).2 * 15 + (b 0).1] :=
    (List.not_mem_cons_of_ne_of_not_mem (Ne.symm a23) (List.not_mem_cons_of_ne_of_not_mem (Ne.symm a13) (List.not_mem_cons_of_ne_of_not_mem (Ne.symm a03) (List.not_mem_nil _))))
  have l7a : [7 * 15 + 9, 7 * 15 + 8, 7 * 15 + 7].length ≤ 3 := Nat.le_of_ble_eq_true rfl
  have l7b : [(b 2).2 * 15 + (b 2).1, (b 1).2 * 15 + (b 1).1, (b 0).2 * 15 + (b 0).1].length ≤ 4 := Nat.le_of_ble_eq_true rfl
  have m7c : 116 ∉ [7 * 15 + 9, 7 * 15 + 8, 7 * 15 + 7] :=
    (List.not_mem_cons_of_ne_of_not_mem (by decide) (List.not_mem_cons_of_ne_of_not_mem (by decide) (List.not_mem_cons_of_ne_of_not_mem (by decide) (List.not_mem_nil _))))
  have m7d : 116 ∉ [(b 2).2 * 15 + (b 2).1, (b 1).2 * 15 + (b 1).1, (b 0).2 * 15 + (b 0).1] :=
    (List.not_mem_cons_of_ne_of_not_mem (Ne.symm a24) (List.not_mem_cons_of_ne_of_not_mem (Ne.symm a14) (List.not_mem_cons_of_ne_of_not_mem (Ne.symm a04) (List.not_mem_nil _))))
  have m8a : (b 3).2 * 15 + (b 3).1 ∉ [7 * 15 + 10, 7 * 15 + 9, 7 * 15 + 8, 7 * 15 + 7] :=
    (List.not_mem_cons_of_ne_of_not_mem a33 (List.not_mem_cons_of_ne_of_not_mem a32 (List.not_mem_cons_of_ne_of_not_mem a31 (List.not_mem_cons_of_ne_of_not_mem a30 (List.not_mem_nil _)))))
  have m8b : (b 3).2 * 15 + (b 3).1 ∉ [(b 2).2 * 15 + (b 2).1, (b 1).2 * 15 + (b 1).1, (b 0).2 * 15 + (b 0).1] :=
    (List.not_mem_cons_of_ne_of_not_mem (Ne.symm d23) (List.not_mem_cons_of_ne_of_not_mem (Ne.symm d13) (List.not_mem_cons_of_ne_of_not_mem (Ne.symm d03) (List.not_mem_nil _))))
  have l8a : [(b 2).2 * 15 + (b 2).1, (b 1).2 * 15 + (b 1).1, (b 0).2 * 15 + (b 0).1].length ≤ 3 := Nat.le_of_ble_eq_true rfl
  have l8b : [7 * 15 + 10, 7 * 15 + 9, 7 * 15 + 8, 7 * 15 + 7].length ≤ 4 := Nat.le_of_ble_eq_true rfl
  have m8c : 116 ∉ [7 * 15 + 10, 7 * 15 + 9, 7 * 15 + 8, 7 * 15 + 7] :=
    (List.not_mem_cons_of_ne_of_not_mem (by decide) (List.not_mem_cons_of_ne_of_not_mem (by decide) (List.not_mem_cons_of_ne_of_not_mem (by decide) (List.not_mem_cons_of_ne_of_not_mem (by decide) (List.not_mem_nil _)))))
  have m8d : 116 ∉ [(b 2).2 * 15 + (b 2).1, (b 1).2 * 15 + (b 1).1, (b 0).2 * 15 + (b 0).1] :=
    (List.not_mem_cons_of_ne_of_not_mem (Ne.symm a24) (List.not_mem_cons_of_ne_of_not_mem (Ne.symm a14) (List.not_mem_cons_of_ne_of_not_mem (Ne.symm a04) (List.not_mem_nil _))))
  have o0 : 112 ∈ [7 * 15 + 10, 7 * 15 + 9, 7 * 15 + 8, 7 * 15 + 7] :=
    (List.mem_cons_of_mem _ (List.mem_cons_of_mem _ (List.mem_cons_of_mem _ (List.mem_cons_self _ _))))
  have o1 : 113 ∈ [7 * 15 + 10, 7 * 15 + 9, 7 * 15 + 8, 7 * 15 + 7] :=
    (List.mem_cons_of_mem _ (List.mem_cons_of_mem _ (List.mem_cons_self _ _)))
  have o2 : 114 ∈ [7 * 15 + 10, 7 * 15 + 9, 7 * 15 + 8, 7 * 15 + 7] :=
    (List.mem_cons_of_mem _ (List.mem_cons_self _ _))
  have o3 : 115 ∈ [7 * 15 + 10, 7 * 15 + 9, 7 * 15 + 8, 7 * 15 + 7] :=
    (List.mem_cons_self _ _)
  have m9c : 116 ∉ [7 * 15 + 10, 7 * 15 + 9, 7 * 15 + 8, 7 * 15 + 7] :=
    (List.not_mem_cons_of_ne_of_not_mem (by decide) (List.not_mem_cons_of_ne_of_not_mem (by decide) (List.not_mem_cons_of_ne_of_not_mem (by decide) (List.not_mem_cons_of_ne_of_not_mem (by decide) (List.not_mem_nil _)))))
  have m9d : 116 ∉ [(b 3).2 * 15 + (b 3).1, (b 2).2 * 15 + (b 2).1, (b 1).2 * 15 + (b 1).1, (b 0).2 * 15 + (b 0).1] :=
    (List.not_mem_cons_of_ne_of_not_mem (Ne.symm a34) (List.not_mem_cons_of_ne_of_not_mem (Ne.symm a24) (List.not_mem_cons_of_ne_of_not_mem (Ne.symm a14) (List.not_mem_cons_of_ne_of_not_mem (Ne.symm a04) (List.not_mem_nil _)))))
  have l9 : [7 * 15 + 10, 7 * 15 + 9, 7 * 15 + 8, 7 * 15 + 7].length + [(b 3).2 * 15 + (b 3).1, (b 2).2 * 15 + (b 2).1, (b 1).2 * 15 + (b 1).1, (b 0).2 * 15 + (b 0).1].length = 8 := rfl
  obtain ⟨hin0, hsock, husers⟩ :=
    handleAcceptChallenge_InPlay s0 clk0 sockB B challengeId c hc hid
  have hg0 := newGame_GameIs c B s0.db.gameIdCounter clk0.turnNow hcs hct
  rw [hcA] at hg0
  obtain ⟨vA, hvA, hvA'⟩ := find_of_map_eq _ _ A User.eloRating uA (husers A) huA
  obtain ⟨vB, hvB, hvB'⟩ := find_of_map_eq _ _ B User.eloRating uB (husers B) huB
  obtain ⟨v1, w1, q1, hg1⟩ := GameIs_moveA _ A B 7 7 116 (clk 0).updateNow
    (clk 0).turnNow ([] : List Nat) ([] : List Nat) hg0 (by decide) (by decide)
    m1a m1b l1a l1b (by decide) (by decide) m1c m1d
  have hin1 := InPlay_move pow10 _ _ (clk 0) sockA s0.db.gameIdCounter A 7 7 _
    hin0 hg0.2.2.1 hg0.2.2.2.1 v1 w1 q1
  obtain ⟨v2, w2, q2, hg2⟩ := GameIs_moveB _ A B (b 0).1 (b 0).2 116
    (clk 1).updateNow (clk 1).turnNow [7 * 15 + 7] ([] : List Nat) hAB hg1 x0 y0
    m2a m2b l2a l2b (by decide) (Ne.symm a04) m2c m2d
  have hin2 := InPlay_move pow10 _ _ (clk 1) sockB s0.db.gameIdCounter B (b 0).1
    (b 0).2 _ hin1 hg1.2.2.1 hg1.2.2.2.1 v2 w2 q2
  obtain ⟨v3, w3, q3, hg3⟩ := GameIs_moveA _ A B 8 7 116 (clk 2).updateNow
    (clk 2).turnNow [7 * 15 + 7] [(b 0).2 * 15 + (b 0).1] hg2 (by decide) (by decide)
    m3a m3b l3a l3b (by decide) (by decide) m3c m3d
  have hin3 := InPlay_move pow10 _ _ (clk 2) sockA s0.db.gameIdCounter A 8 7 _
    hin2 hg2.2.2.1 hg2.2.2.2.1 v3 w3 q3
  obtain ⟨v4, w4, q4, hg4⟩ := GameIs_moveB _ A B (b 1).1 (b 1).2 116
    (clk 3).updateNow (clk 3).turnNow [7 * 15 + 8, 7 * 15 + 7] [(b 0).2 * 15 + (b 0).1] hAB hg3 x1 y1
    m4a m4b l4a l4b (by decide) (Ne.symm a14) m4c m4d
  have hin4 := InPlay_move pow10 _ _ (clk 3) sockB s0.db.gameIdCounter B (b 1).1
    (b 1).2 _ hin3 hg3.2.2.1 hg3.2.2.2.1 v4 w4 q4
  obtain ⟨v5, w5, q5, hg5⟩ := GameIs_moveA _ A B 9 7 116 (clk 4).updateNow
    (clk 4).turnNow [7 * 15 + 8, 7 * 15 + 7] [(b 1).2 * 15 + (b 1).1, (b 0).2 * 15 + (b 0).1] hg4 (by decide) (by decide)
    m5a m5b l5a l5b (by decide) (by decide) m5c m5d
  have hin5 := InPlay_move pow10 _ _ (clk 4) sockA s0.db.gameIdCounter A 9 7 _
    hin4 hg4.2.2.1 hg4.2.2.2.1 v5 w5 q5
  obtain ⟨v6, w6, q6, hg6⟩ := GameIs_moveB _ A B (b 2).1 (b 2).2 116
    (clk 5).updateNow (clk 5).turnNow [7 * 15 + 9, 7 * 15 + 8, 7 * 15 + 7] [(b 1).2 * 15 + (b 1).1, (b 0).2 * 15 + (b 0).1] hAB hg5 x2 y2
    m6a m6b l6a l6b (by decide) (Ne.symm a24) m6c m6d
  have hin6 := InPlay_move pow10 _ _ (clk 5) sockB s0.db.gameIdCounter B (b 2).1
    (b 2).2 _ hin5 hg5.2.2.1 hg5.2.2.2.1 v6 w6 q6
  obtain ⟨v7, w7, q7, hg7⟩ := GameIs_moveA _ A B 10 7 116 (clk 6).updateNow
    (clk 6).turnNow [7 * 15 + 9, 7 * 15 + 8, 7 * 15 + 7] [(b 2).2 * 15 + (b 2).1, (b 1).2 * 15 + (b 1).1, (b 0).2 * 15 + (b 0).1] hg6 (by decide) (by decide)
    m7a m7b l7a l7b (by decide) (by decide) m7c m7d
  have hin7 := InPlay_move pow10 _ _ (clk 6) sockA s0.db.gameIdCounter A 10 7 _
    hin6 hg6.2.2.1 hg6.2.2.2.1 v7 w7 q7
  obtain ⟨v8, w8, q8, hg8⟩ := GameIs_moveB _ A B (b 3).1 (b 3).2 116
    (clk 7).updateNow (clk 7).turnNow [7 * 15 + 10, 7 * 15 + 9, 7 * 15 + 8, 7 * 15 + 7] [(b 2).2 * 15 + (b 2).1, (b 1).2 * 15 + (b 1).1, (b 0).2 * 15 + (b 0).1] hAB hg7 x3 y3
    m8a m8b l8a l8b (by decide) (Ne.symm a34) m8c m8d
  have hin8 := InPlay_move pow10 _ _ (clk 7) sockB s0.db.gameIdCounter B (b 3).1
    (b 3).2 _ hin7 hg7.2.2.1 hg7.2.2.2.1 v8 w8 q8
  have hfinal := InPlay_winningMove pow10 hpow _ _ (clk 8) sockA s0.db.gameIdCounter A B _
    [7 * 15 + 10, 7 * 15 + 9, 7 * 15 + 8, 7 * 15 + 7] [(b 3).2 * 15 + (b 3).1, (b 2).2 * 15 + (b 2).1, (b 1).2 * 15 + (b 1).1, (b 0).2 * 15 + (b 0).1] vA vB hAB hin8 hg8 hvA (by rw [hvA', hrA]) hvB
    (by rw [hvB', hrB]) ⟨o0, o1, o2, o3⟩ m9c m9d l9
  rw [sendToUser_congr _ s0 hsock, sendToUser_congr _ s0 hsock] at hfinal
  refine ⟨?_, ?_⟩
  · intro n hn
    interval_cases n
    · simp only [scenarioStart, scenarioMoves, List.take, run, processMessage]
      rw [hin0.2.2.2.1]
      rfl
    · simp only [scenarioStart, scenarioMoves, List.take, run, processMessage]
      rw [hin1.2.2.2.1]
      rfl
    · simp only [scenarioStart, scenarioMoves, List.take, run, processMessage]
      rw [hin2.2.2.2.1]
      rfl
    · simp only [scenarioStart, scenarioMoves, List.take, run, processMessage]
      rw [hin3.2.2.2.1]
      rfl
    · simp only [scenarioStart, scenarioMoves, List.take, run, processMessage]
      rw [hin4.2.2.2.1]
      rfl
    · simp only [scenarioStart, scenarioMoves, List.take, run, processMessage]
      rw [hin5.2.2.2.1]
      rfl
    · simp only [scenarioStart, scenarioMoves, List.take, run, processMessage]
      rw [hin6.2.2.2.1]
      rfl
    · simp only [scenarioStart, scenarioMoves, List.take, run, processMessage]
      rw [hin7.2.2.2.1]
      rfl
    · simp only [scenarioStart, scenarioMoves, List.take, run, processMessage]
      rw [hin8.2.2.2.1]
      rfl
  · simp only [scenarioLast, scenarioStart, scenarioMoves, run, processMessage]
    exact hfinal

set_option maxRecDepth 100000 in
theorem fiveInARow_scenario_witness :
    (∀ n, n ≤ 8 →
      (mapFind
        (run demoPow10 (scenarioStart demoChallenged demoClock 11 2 1)
          ((scenarioMoves (fun _ => demoClock) 10 11 1 2 demoChallenged.db.gameIdCounter
            demoReplies).take n)).activeGames
        demoChallenged.db.gameIdCounter).isSome = true) ∧
    mapFind (scenarioLast demoPow10 demoChallenged demoClock (fun _ => demoClock) 10 11 1 2 1
        demoReplies).1.activeGames demoChallenged.db.gameIdCounter = none ∧
    (scenarioLast demoPow10 demoChallenged demoClock (fun _ => demoClock) 10 11 1 2 1
        demoReplies).2
      = sendToUser demoChallenged 1 MSG_GAME_OVER 1
          (Payload.gameOver
            { gameId := demoChallenged.db.gameIdCounter, winnerId := 1, eloChange := 16,
              reason := 0, totalMoves := 9 })
        ++ sendToUser demoChallenged 2 MSG_GAME_OVER 2
          (Payload.gameOver
            { gameId := demoChallenged.db.gameIdCounter, winnerId := 1, eloChange := 16,
              reason := 0, totalMoves := 9 }) ∧
    (∃ r,
      mapFind (scenarioLast demoPow10 demoChallenged demoClock (fun _ => demoClock) 10 11 1 2
          1 demoReplies).1.db.gameRecords demoChallenged.db.gameIdCounter = some r ∧
        r.winnerId = 1 ∧ r.result = 0) ∧
    ((scenarioLast demoPow10 demoChallenged demoClock (fun _ => demoClock) 10 11 1 2 1
        demoReplies).1.db.getUser 1).eloRating = 1016 ∧
    ((scenarioLast demoPow10 demoChallenged demoClock (fun _ => demoClock) 10 11 1 2 1
        demoReplies).1.db.getUser 2).eloRating = 984 :=
  fiveInARow_scenario demoPow10 rfl demoChallenged demoClock (fun _ => demoClock) 10 11 1 2 1
    (demoChallenge 15) (demoUser 1 0) (demoUser 2 0) demoReplies (by decide) (by decide)
    (by decide) rfl rfl rfl (by decide) rfl (by decide) rfl
    (by
      intro i hi
      interval_cases i <;> decide)
    (by
      intro i j hij hj
      interval_cases j <;> interval_cases i <;> decide)

/-! ## Agreed draws at concrete sessions -/

theorem demoDrawPending_Reachable (draws : Nat) :
    Reachable demoPow10 (demoDrawPending draws) := by
  apply Reachable_run _ _ _ (Reachable.start _ (demoStart_Initial draws))
  intro i hi
  rcases List.mem_append.mp hi with hi | hi
  · exact demoOpening_InRange 15 (by decide) i hi
  · rw [List.mem_singleton] at hi
    rw [hi]
    trivial

set_option maxRecDepth 100000 in
/-- Claim C10, counterexample: user 1, with 65535 draws on record, offers a draw in
game 1 and user 2, the other participant, accepts it; afterwards the draw counter of
user 1 is 0, not 65536. -/
theorem handleAcceptDraw_counter_wraps :
    Reachable demoPow10 (demoDrawPending 65535) ∧
    mapFind (demoDrawPending 65535).activeGames 1 = some demoDrawGame ∧
    demoDrawGame.drawOffered = true ∧
    demoDrawGame.drawOfferedBy = demoDrawGame.player1Id ∧
    2 = demoDrawGame.player2Id ∧
    ((demoDrawPending 65535).db.getUser 1).draws = 65535 ∧
    ((handleAcceptDraw (demoDrawPending 65535) demoClock 11 2 { gameId := 1 }).1.db.getUser
      1).draws = 0 ∧
    ¬ (((handleAcceptDraw (demoDrawPending 65535) demoClock 11 2
          { gameId := 1 }).1.db.getUser 1).draws
        = ((demoDrawPending 65535).db.getUser 1).draws + 1) :=
  ⟨demoDrawPending_Reachable 65535, by decide, by decide, by decide, by decide, by decide,
    by decide, by decide⟩

set_option maxRecDepth 100000 in
theorem handleAcceptDraw_terminates_witness :
    mapFind (handleAcceptDraw (demoDrawPending 7) demoClock 11 2
        { gameId := 1 }).1.activeGames 1 = none ∧
    (∃ r, mapFind (handleAcceptDraw (demoDrawPending 7) demoClock 11 2
          { gameId := 1 }).1.db.gameRecords 1 = some r ∧ r.winnerId = 0 ∧ r.result = 2) ∧
    (handleAcceptDraw (demoDrawPending 7) demoClock 11 2 { gameId := 1 }).2
      = sendToUser (demoDrawPending 7) demoDrawGame.player1Id MSG_GAME_OVER
          demoDrawGame.player1Id
          (Payload.gameOver
            { gameId := 1, winnerId := 0, eloChange := 0, reason := 3,
              totalMoves := demoDrawGame.moveCount })
        ++ sendToUser (demoDrawPending 7) demoDrawGame.player2Id MSG_GAME_OVER
          demoDrawGame.player2Id
          (Payload.gameOver
            { gameId := 1, winnerId := 0, eloChange := 0, reason := 3,
              totalMoves := demoDrawGame.moveCount }) ∧
    ((handleAcceptDraw (demoDrawPending 7) demoClock 11 2
        { gameId := 1 }).1.db.getUser demoDrawGame.player1Id).eloRating
      = ({ demoUser 1 7 with inGame := true } : User).eloRating ∧
    ((handleAcceptDraw (demoDrawPending 7) demoClock 11 2
        { gameId := 1 }).1.db.getUser demoDrawGame.player2Id).eloRating
      = ({ demoUser 2 7 with inGame := true } : User).eloRating ∧
    ((handleAcceptDraw (demoDrawPending 7) demoClock 11 2
        { gameId := 1 }).1.db.getUser demoDrawGame.player1Id).draws
      = (({ demoUser 1 7 with inGame := true } : User).draws + 1) % 65536 ∧
    ((handleAcceptDraw (demoDrawPending 7) demoClock 11 2
        { gameId := 1 }).1.db.getUser demoDrawGame.player2Id).draws
      = (({ demoUser 2 7 with inGame := true } : User).draws + 1) % 65536 :=
  handleAcceptDraw_terminates demoPow10 (demoDrawPending 7) (demoDrawPending_Reachable 7)
    demoClock 11 2 { gameId := 1 } demoDrawGame { demoUser 1 7 with inGame := true }
    { demoUser 2 7 with inGame := true } (by decide) (by decide) (Or.inl (by decide))
    (Or.inr (by decide)) (by decide) (by decide) (by decide)

/-! ## Draw offers: refused accepts and repeated offers -/

/-- Claim C11: an accept-draw request for an active match that comes from the user who
made the pending offer, or that arrives while no offer is pending, is answered with the
error "No draw offer to accept" and leaves the whole server state as it was: the match
stays active with the same state, draw-offer fields included, and no rating or draw
counter changes. -/
theorem handleAcceptDraw_refused (s : ServerState) (clk : Clock) (clientSocket : Int)
    (userId : Nat) (req : DrawRequest) (game : GameState)
    (hgame : mapFind s.activeGames req.gameId = some game)
    (hno : game.drawOffered = false ∨ game.drawOfferedBy = userId) :
    handleAcceptDraw s clk clientSocket userId req
        = (s, [sendError clientSocket "No draw offer to accept"]) ∧
      mapFind (handleAcceptDraw s clk clientSocket userId req).1.activeGames req.gameId
        = some game ∧
      (handleAcceptDraw s clk clientSocket userId req).1.db = s.db := by
  have e : handleAcceptDraw s clk clientSocket userId req
      = (s, [sendError clientSocket "No draw offer to accept"]) := by
    unfold handleAcceptDraw
    rw [hgame]
    simp only []
    rw [if_pos]
    rcases hno with h | h
    · left
      rw [h]
      decide
    · right
      exact h
  rw [e]
  exact ⟨rfl, hgame, rfl⟩

/-- Claim C12: while a draw offer is pending in an active match, a further offer by any
user, so by either player, is answered with the error "Draw already offered" and
changes nothing; while none is pending, an offer by user `userId` stores the match with
`drawOffered = true` and `drawOfferedBy = userId` and every other field as before. -/
theorem handleOfferDraw_single (s : ServerState) (clientSocket : Int) (userId : Nat)
    (req : DrawRequest) (game : GameState)
    (hgame : mapFind s.activeGames req.gameId = some game) :
    (game.drawOffered = true →
      handleOfferDraw s clientSocket userId req
        = (s, [sendError clientSocket "Draw already offered"])) ∧
    (game.drawOffered = false →
      mapFind (handleOfferDraw s clientSocket userId req).1.activeGames req.gameId
          = some { game with drawOffered := true, drawOfferedBy := userId } ∧
        (∀ key, key ≠ req.gameId →
          mapFind (handleOfferDraw s clientSocket userId req).1.activeGames key
            = mapFind s.activeGames key) ∧
        (handleOfferDraw s clientSocket userId req).1.db = s.db) := by
  constructor
  · intro h
    unfold handleOfferDraw
    rw [hgame]
    simp only []
    rw [if_pos h]
  · intro h
    have e : (handleOfferDraw s clientSocket userId req).1
        = storeGame s req.gameId { game with drawOffered := true, drawOfferedBy := userId } := by
      unfold handleOfferDraw
      rw [hgame]
      simp only []
      rw [if_neg (by rw [h]; decide)]
    rw [e]
    refine ⟨?_, ?_, rfl⟩
    · exact storeGame_find s req.gameId game _ hgame
    · intro key hkey
      unfold storeGame
      simp only []
      rw [mapFind_mapModify, if_neg (fun e => hkey e.symm)]

set_option maxRecDepth 100000 in
theorem handleAcceptDraw_refused_witness :
    handleAcceptDraw (demoDrawPending 0) demoClock 10 1 { gameId := 1 }
        = (demoDrawPending 0, [sendError 10 "No draw offer to accept"]) ∧
      mapFind (handleAcceptDraw (demoDrawPending 0) demoClock 10 1
          { gameId := 1 }).1.activeGames 1 = some demoDrawGame ∧
      (handleAcceptDraw (demoDrawPending 0) demoClock 10 1 { gameId := 1 }).1.db
        = (demoDrawPending 0).db :=
  handleAcceptDraw_refused (demoDrawPending 0) demoClock 10 1 { gameId := 1 } demoDrawGame
    (by decide) (Or.inr (by decide))

set_option maxRecDepth 100000 in
theorem handleOfferDraw_single_witness :
    ((demoGame 15).drawOffered = true →
      handleOfferDraw demoPlaying 11 2 { gameId := 1 }
        = (demoPlaying, [sendError 11 "Draw already offered"])) ∧
    ((demoGame 15).drawOffered = false →
      mapFind (handleOfferDraw demoPlaying 11 2 { gameId := 1 }).1.activeGames 1
          = some { demoGame 15 with drawOffered := true, drawOfferedBy := 2 } ∧
        (∀ key, key ≠ 1 →
          mapFind (handleOfferDraw demoPlaying 11 2 { gameId := 1 }).1.activeGames key
            = mapFind demoPlaying.activeGames key) ∧
        (handleOfferDraw demoPlaying 11 2 { gameId := 1 }).1.db = demoPlaying.db) :=
  handleOfferDraw_single demoPlaying 11 2 { gameId := 1 } (demoGame 15) (by decide)
/-! ## Rating updates -/

theorem toUInt16_of_range (v : Int) (h0 : 0 ≤ v) (h1 : v ≤ 65535) :
    (toUInt16 v : Int) = v := by
  unfold toUInt16
  omega

/-- Claim C13, counterexample: users 1 and 2 both exist with rating 5. When user 1
beats user 2 the returned change is 16 and the loser is stored with rating 65525, which
is not 5 - 16, and the two ratings then add up to 65546 instead of 10. When the winner
and the loser are the same user 1, the returned change is 16 and the rating stays 5. -/
theorem updateEloRating_loser_wraps :
    (demoLowRated.getUser 1).eloRating = 5 ∧ (demoLowRated.getUser 2).eloRating = 5 ∧
    (demoLowRated.updateEloRating demoPow10 1 2).2 = 16 ∧
    ((demoLowRated.updateEloRating demoPow10 1 2).1.getUser 1).eloRating = 21 ∧
    ((demoLowRated.updateEloRating demoPow10 1 2).1.getUser 2).eloRating = 65525 ∧
    ¬ ((((demoLowRated.updateEloRating demoPow10 1 2).1.getUser 2).eloRating : Int)
        = ((demoLowRated.getUser 2).eloRating : Int)
          - (demoLowRated.updateEloRating demoPow10 1 2).2) ∧
    ¬ (((demoLowRated.updateEloRating demoPow10 1 2).1.getUser 1).eloRating
          + ((demoLowRated.updateEloRating demoPow10 1 2).1.getUser 2).eloRating
        = (demoLowRated.getUser 1).eloRating + (demoLowRated.getUser 2).eloRating) ∧
    (demoLowRated.updateEloRating demoPow10 1 1).2 = 16 ∧
    ((demoLowRated.updateEloRating demoPow10 1 1).1.getUser 1).eloRating = 5 := by
  have hd : eloDelta demoPow10 ((5 : Nat) : Int) ((5 : Nat) : Int) = 16 :=
    eloDelta_equal demoPow10 rfl 5
  have h := updateEloRating_spec demoPow10 demoLowRated 1 2
    { demoUser 1 0 with eloRating := 5 } { demoUser 2 0 with eloRating := 5 } rfl rfl
    (by decide)
  simp only [hd] at h
  obtain ⟨h1, h2, h3⟩ := h
  have e2 : ((demoLowRated.updateEloRating demoPow10 1 2).1.getUser 1).eloRating = 21 := by
    rw [h2]; decide
  have e3 : ((demoLowRated.updateEloRating demoPow10 1 2).1.getUser 2).eloRating
      = 65525 := by
    rw [h3]; decide
  have s1 : (demoLowRated.updateEloRating demoPow10 1 1).2 = 16 := by
    show eloDelta demoPow10 ((5 : Nat) : Int) ((5 : Nat) : Int) = 16
    exact hd
  have s2 : ((demoLowRated.updateEloRating demoPow10 1 1).1.getUser 1).eloRating = 5 := by
    show toUInt16 (((toUInt16 (((5 : Nat) : Int)
      + eloDelta demoPow10 ((5 : Nat) : Int) ((5 : Nat) : Int)) : Nat) : Int)
      - eloDelta demoPow10 ((5 : Nat) : Int) ((5 : Nat) : Int)) = 5
    rw [hd]
    decide
  refine ⟨rfl, rfl, h1, e2, e3, ?_, ?_, s1, s2⟩
  · rw [e3, h1]
    decide
  · rw [e2, e3]
    decide

/-- Claim C13, amended: for two distinct existing users, `updateEloRating` returns the
change `d` computed from their old ratings, and whenever the winner's old rating plus
`d` and the loser's old rating minus `d` both lie in the `uint16_t` range 0..65535, the
winner is stored with exactly old rating plus `d`, the loser with exactly old rating
minus `d`, and the sum of the two ratings is unchanged. -/
theorem updateEloRating_zero_sum (pow10 : ℚ → ℚ) (db : Database) (w l : Nat)
    (uw ul : User) (hw : mapFind db.users w = some uw) (hl : mapFind db.users l = some ul)
    (hne : w ≠ l)
    (hwin : 0 ≤ (uw.eloRating : Int) + eloDelta pow10 uw.eloRating ul.eloRating ∧
      (uw.eloRating : Int) + eloDelta pow10 uw.eloRating ul.eloRating ≤ 65535)
    (hlose : 0 ≤ (ul.eloRating : Int) - eloDelta pow10 uw.eloRating ul.eloRating ∧
      (ul.eloRating : Int) - eloDelta pow10 uw.eloRating ul.eloRating ≤ 65535) :
    (db.updateEloRating pow10 w l).2 = eloDelta pow10 uw.eloRating ul.eloRating ∧
    (((db.updateEloRating pow10 w l).1.getUser w).eloRating : Int)
      = (uw.eloRating : Int) + (db.updateEloRating pow10 w l).2 ∧
    (((db.updateEloRating pow10 w l).1.getUser l).eloRating : Int)
      = (ul.eloRating : Int) - (db.updateEloRating pow10 w l).2 ∧
    ((db.updateEloRating pow10 w l).1.getUser w).eloRating
        + ((db.updateEloRating pow10 w l).1.getUser l).eloRating
      = uw.eloRating + ul.eloRating := by
  obtain ⟨h1, h2, h3⟩ := updateEloRating_spec pow10 db w l uw ul hw hl hne
  have a := toUInt16_of_range _ hwin.1 hwin.2
  have b := toUInt16_of_range _ hlose.1 hlose.2
  rw [← h2] at a
  rw [← h3] at b
  rw [h1]
  refine ⟨rfl, a, b, ?_⟩
  omega

theorem updateEloRating_zero_sum_witness :
    ((demoStart 0).db.updateEloRating demoPow10 1 2).2
      = eloDelta demoPow10 (demoUser 1 0).eloRating (demoUser 2 0).eloRating ∧
    ((((demoStart 0).db.updateEloRating demoPow10 1 2).1.getUser 1).eloRating : Int)
      = ((demoUser 1 0).eloRating : Int) + ((demoStart 0).db.updateEloRating demoPow10 1 2).2 ∧
    ((((demoStart 0).db.updateEloRating demoPow10 1 2).1.getUser 2).eloRating : Int)
      = ((demoUser 2 0).eloRating : Int) - ((demoStart 0).db.updateEloRating demoPow10 1 2).2 ∧
    (((demoStart 0).db.updateEloRating demoPow10 1 2).1.getUser 1).eloRating
        + (((demoStart 0).db.updateEloRating demoPow10 1 2).1.getUser 2).eloRating
      = (demoUser 1 0).eloRating + (demoUser 2 0).eloRating :=
  updateEloRating_zero_sum demoPow10 (demoStart 0).db 1 2 (demoUser 1 0) (demoUser 2 0)
    rfl rfl (by decide)
    (by
      rw [show eloDelta demoPow10 (demoUser 1 0).eloRating (demoUser 2 0).eloRating = 16
        from eloDelta_equal demoPow10 rfl 1000]
      decide)
    (by
      rw [show eloDelta demoPow10 (demoUser 1 0).eloRating (demoUser 2 0).eloRating = 16
        from eloDelta_equal demoPow10 rfl 1000]
      decide)
/-! ## The rating change: truncation, not rounding -/

theorem truncToInt_of_nonneg (q : ℚ) (h : 0 ≤ q) : truncToInt q = ⌊q⌋ := by
  unfold truncToInt
  rw [Rat.floor_def]
  exact Int.tdiv_eq_ediv (Rat.num_nonneg.mpr h) (by positivity)

/-- The `double` computed by `updateEloRating` lies in `0..32` and within `2^-46` of the
exact value of the expression at the power that `pow` returned. -/
theorem eloDouble_near (pow10 : ℚ → ℚ) (w l : Int) (hp : 0 < eloPower pow10 w l) :
    0 ≤ eloDouble pow10 w l ∧ eloDouble pow10 w l ≤ 32 ∧
      |eloDouble pow10 w l - eloExact pow10 w l| ≤ 1 / 2 ^ 46 := by
  rw [eloDouble_eq]
  exact eloChain _ hp

theorem eloDelta_eq_floor (pow10 : ℚ → ℚ) (w l : Int) (hp : 0 < eloPower pow10 w l) :
    eloDelta pow10 w l = ⌊eloDouble pow10 w l⌋ ∧
      0 ≤ eloDelta pow10 w l ∧ eloDelta pow10 w l ≤ 32 := by
  obtain ⟨h0, h32, _⟩ := eloDouble_near pow10 w l hp
  have f0 : 0 ≤ ⌊eloDouble pow10 w l⌋ := Int.floor_nonneg.mpr h0
  have f1 : ⌊eloDouble pow10 w l⌋ ≤ 32 := by
    have := Int.floor_le_floor h32
    rwa [show ⌊(32 : ℚ)⌋ = 32 from Int.floor_ofNat 32] at this
  have e : eloDelta pow10 w l = ⌊eloDouble pow10 w l⌋ := by
    unfold eloDelta
    rw [truncToInt_of_nonneg _ h0]
    unfold toInt16
    omega
  rw [e]
  exact ⟨rfl, f0, f1⟩

theorem eloPower_quarter (pow10 : ℚ → ℚ) :
    eloPower pow10 1100 1000 = pow10 (-1 / 4) := by
  have e : (((1000 - 1100 : Int) : ℚ)) / 400 = -(2 : ℚ) ^ (-2 : Int) := by norm_num
  have e' : (-1 / 4 : ℚ) = -(2 : ℚ) ^ (-2 : Int) := by norm_num
  unfold eloPower
  rw [e, roundDouble_neg_two_zpow, e']

theorem eloExact_quarter (pow10 : ℚ → ℚ)
    (hq : 5623 / 10000 ≤ pow10 (-1 / 4) ∧ pow10 (-1 / 4) ≤ 5624 / 10000) :
    1151 / 100 ≤ eloExact pow10 1100 1000 ∧ eloExact pow10 1100 1000 ≤ 1152 / 100 := by
  unfold eloExact
  rw [eloPower_quarter]
  obtain ⟨ha, hb⟩ := hq
  have h1 : 0 < 1 + pow10 (-1 / 4) := by linarith
  have h2 : 1 / (1 + pow10 (-1 / 4)) ≤ 64025 / 100000 := by
    rw [div_le_iff₀ h1]
    linarith
  have h3 : 64 / 100 ≤ 1 / (1 + pow10 (-1 / 4)) := by
    rw [le_div_iff₀ h1]
    linarith
  constructor <;> linarith

theorem eloDelta_quarter (pow10 : ℚ → ℚ)
    (hq : 5623 / 10000 ≤ pow10 (-1 / 4) ∧ pow10 (-1 / 4) ≤ 5624 / 10000) :
    eloDelta pow10 1100 1000 = 11 ∧ claimedDelta pow10 1100 1000 = 12 := by
  obtain ⟨a, b⟩ := eloExact_quarter pow10 hq
  have hp : 0 < eloPower pow10 1100 1000 := by
    rw [eloPower_quarter]
    linarith [hq.1]
  obtain ⟨_, _, herr⟩ := eloDouble_near pow10 1100 1000 hp
  rw [abs_le] at herr
  constructor
  · rw [(eloDelta_eq_floor pow10 1100 1000 hp).1, Int.floor_eq_iff]
    constructor
    · push_cast
      linarith
    · push_cast
      linarith
  · unfold claimedDelta roundNearest
    rw [Int.floor_eq_iff]
    constructor
    · push_cast
      linarith
    · push_cast
      linarith

theorem roundDouble_below_one : roundDouble (1 - 1 / 2 ^ 54) = 1 := by
  rw [roundDouble_of_binade _ (-1) (by norm_num) (by norm_num)]
  have e : (1 - 1 / 2 ^ 54 : ℚ) / 2 ^ ((-1 : Int) - 52)
      = 18014398509481983 / 2 := by
    norm_num
  have f : ⌊(18014398509481983 / 2 : ℚ)⌋ = 9007199254740991 := by
    rw [Int.floor_eq_iff]
    norm_num
  rw [e]
  unfold roundHalfEven
  simp only [f]
  norm_num

/-- When the power returned by `pow` is at least `2^54` (a rating gap of 6503 or more),
`1.0 - expectedWinner` rounds to `1.0` and the change is 32, although the exact value
of the expression is below 32. -/
theorem eloDelta_saturates (pow10 : ℚ → ℚ) (w l : Int)
    (hp : 2 ^ 54 ≤ eloPower pow10 w l) :
    eloDelta pow10 w l = 32 ∧ eloExact pow10 w l < 32 := by
  have hpos : 0 < eloPower pow10 w l := lt_of_lt_of_le (by norm_num) hp
  constructor
  · have ev : eloDouble pow10 w l = 32 := by
      rw [eloDouble_eq]
      generalize eloPower pow10 w l = p at hp hpos
      have e54 : roundDouble (2 ^ 54) = 2 ^ 54 := by
        have := roundDouble_two_zpow 54
        norm_num at this ⊢
        exact this
      have em54 : roundDouble (1 / 2 ^ 54) = 1 / 2 ^ 54 := by
        have := roundDouble_two_zpow (-54)
        norm_num at this ⊢
        exact this
      have e32 : roundDouble 32 = 32 := by
        have := roundDouble_two_zpow 5
        norm_num at this
        exact this
      have hs : 2 ^ 54 ≤ roundDouble (1 + p) := by
        have := roundDouble_mono (2 ^ 54) (1 + p) (by norm_num) (by linarith)
        rwa [e54] at this
      generalize roundDouble (1 + p) = s at hs
      have hs0 : (0 : ℚ) < s := lt_of_lt_of_le (by norm_num) hs
      have ht0 : 0 < 1 / s := one_div_pos.mpr hs0
      have ht1 : 1 / s ≤ 1 / 2 ^ 54 := by
        apply one_div_le_one_div_of_le (by norm_num) hs
      have hE0 := roundDouble_nonneg (1 / s) (le_of_lt ht0)
      have hE1 : roundDouble (1 / s) ≤ 1 / 2 ^ 54 := by
        have := roundDouble_mono (1 / s) (1 / 2 ^ 54) (le_of_lt ht0) ht1
        rwa [em54] at this
      generalize roundDouble (1 / s) = E at hE0 hE1
      have hd1 := roundDouble_le_one (1 - E) (by linarith [show (1 : ℚ) / 2 ^ 54 ≤ 1 by norm_num])
        (by linarith)
      have hd2 : 1 ≤ roundDouble (1 - E) := by
        have := roundDouble_mono (1 - 1 / 2 ^ 54) (1 - E) (by norm_num) (by linarith)
        rwa [roundDouble_below_one] at this
      have hd : roundDouble (1 - E) = 1 := le_antisymm hd1 hd2
      rw [hd, mul_one, e32]
    unfold eloDelta
    rw [ev]
    unfold truncToInt toInt16
    norm_num
  · unfold eloExact
    have h1 : 0 < 1 + eloPower pow10 w l := by linarith
    have h2 : 0 < 1 / (1 + eloPower pow10 w l) := one_div_pos.mpr h1
    linarith

/-- Claim C14, counterexample: with `pow(10.0, -0.25)` taken as 0.5623413, the winner
rating 1100 and the loser rating 1000 give the exact value 11.51... and
`updateEloRating` computes the change 11, while rounding to the nearest integer gives
12. -/
theorem eloDelta_truncates :
    quarterPow10 (-1 / 4) = 5623413 / 10000000 ∧
    eloExact quarterPow10 1100 1000 = 179949216 / 15623413 ∧
    eloDelta quarterPow10 1100 1000 = 11 ∧
    claimedDelta quarterPow10 1100 1000 = 12 ∧
    eloDelta quarterPow10 1100 1000 ≠ claimedDelta quarterPow10 1100 1000 := by
  have hq : quarterPow10 (-1 / 4) = 5623413 / 10000000 := by
    unfold quarterPow10
    norm_num
  have hv : eloExact quarterPow10 1100 1000 = 179949216 / 15623413 := by
    unfold eloExact
    rw [eloPower_quarter, hq]
    norm_num
  obtain ⟨hd, hc⟩ := eloDelta_quarter quarterPow10 (by rw [hq]; norm_num)
  refine ⟨hq, hv, hd, hc, ?_⟩
  rw [hd, hc]
  decide

/-- Claim C14, amended: for every winner rating `w` and loser rating `l`, the change
computed by `updateEloRating` is the `double` value of `32 * (1 - E)`,
`E = 1 / (1 + 10^((l - w)/400))`, truncated toward zero by the conversion to `int16_t`,
that is its integer part and not the nearest integer. The `double` value lies within
`2^-46` of the exact value of the expression at the power that `pow` returned, so the
change lies in `0..32`, is never above the rounded value and is at most 1 below it. For
`w = l = 1000` the change is 16,
and for `w = 1100`, `l = 1000` the exact value lies between 11.51 and 11.52, so the
change is 11 where rounding gives 12. The library function `pow(10.0, ·)` enters as any
positive function that is 1 at exponent 0 and within 0.5623..0.5624 at exponent -1/4. -/
theorem eloDelta_eq_trunc (pow10 : ℚ → ℚ) (hpos : ∀ e, 0 < pow10 e) (h0 : pow10 0 = 1)
    (hq : 5623 / 10000 ≤ pow10 (-1 / 4) ∧ pow10 (-1 / 4) ≤ 5624 / 10000) :
    (∀ w l : Int,
      eloDelta pow10 w l = ⌊eloDouble pow10 w l⌋ ∧
        (eloDelta pow10 w l : ℚ) ≤ eloDouble pow10 w l ∧
        eloDouble pow10 w l < (eloDelta pow10 w l : ℚ) + 1 ∧
        |eloDouble pow10 w l - eloExact pow10 w l| ≤ 1 / 2 ^ 46 ∧
        0 ≤ eloDelta pow10 w l ∧ eloDelta pow10 w l ≤ 32 ∧
        eloDelta pow10 w l ≤ claimedDelta pow10 w l ∧
        claimedDelta pow10 w l ≤ eloDelta pow10 w l + 1) ∧
    eloDelta pow10 1000 1000 = 16 ∧ claimedDelta pow10 1000 1000 = 16 ∧
    eloDelta pow10 1100 1000 = 11 ∧ claimedDelta pow10 1100 1000 = 12 := by
  refine ⟨?_, ?_, ?_, (eloDelta_quarter pow10 hq).1, (eloDelta_quarter pow10 hq).2⟩
  · intro w l
    have hp : 0 < eloPower pow10 w l := hpos _
    obtain ⟨hfl, d0, d32⟩ := eloDelta_eq_floor pow10 w l hp
    obtain ⟨_, _, herr⟩ := eloDouble_near pow10 w l hp
    have hcl : claimedDelta pow10 w l = ⌊eloExact pow10 w l + 1 / 2⌋ := rfl
    have a := Int.floor_le (eloDouble pow10 w l)
    have b := Int.lt_floor_add_one (eloDouble pow10 w l)
    have herr' := abs_le.mp herr
    refine ⟨hfl, ?_, ?_, herr, d0, d32, ?_, ?_⟩
    · rw [hfl]; exact a
    · rw [hfl]; exact b
    · rw [hfl, hcl]
      apply Int.floor_le_floor
      have : (1 : ℚ) / 2 ^ 46 ≤ 1 / 2 := by norm_num
      linarith
    · rw [hfl, hcl, ← Int.floor_add_one]
      apply Int.floor_le_floor
      have : (1 : ℚ) / 2 ^ 46 ≤ 1 / 2 := by norm_num
      linarith
  · exact eloDelta_equal pow10 h0 1000
  · have e : eloExact pow10 1000 1000 = 16 := by
      unfold eloExact
      rw [eloPower_equal, h0]
      norm_num
    unfold claimedDelta roundNearest
    rw [e, Int.floor_eq_iff]
    norm_num

theorem eloDelta_eq_trunc_witness :
    (∀ w l : Int,
      eloDelta quarterPow10 w l = ⌊eloDouble quarterPow10 w l⌋ ∧
        (eloDelta quarterPow10 w l : ℚ) ≤ eloDouble quarterPow10 w l ∧
        eloDouble quarterPow10 w l < (eloDelta quarterPow10 w l : ℚ) + 1 ∧
        |eloDouble quarterPow10 w l - eloExact quarterPow10 w l| ≤ 1 / 2 ^ 46 ∧
        0 ≤ eloDelta quarterPow10 w l ∧ eloDelta quarterPow10 w l ≤ 32 ∧
        eloDelta quarterPow10 w l ≤ claimedDelta quarterPow10 w l ∧
        claimedDelta quarterPow10 w l ≤ eloDelta quarterPow10 w l + 1) ∧
    eloDelta quarterPow10 1000 1000 = 16 ∧ claimedDelta quarterPow10 1000 1000 = 16 ∧
    eloDelta quarterPow10 1100 1000 = 11 ∧ claimedDelta quarterPow10 1100 1000 = 12 :=
  eloDelta_eq_trunc quarterPow10
    (by
      intro e
      unfold quarterPow10
      split <;> norm_num)
    (by simp [quarterPow10])
    (by
      unfold quarterPow10
      norm_num)

/-! ## Accepting a challenge -/

theorem handleAcceptChallenge_accepted (s : ServerState) (clk : Clock) (clientSocket : Int)
    (userId challengeId : Nat) (h0 : ¬ (s.db.getChallenge challengeId).challengeId = 0) :
    (handleAcceptChallenge s clk clientSocket userId challengeId).1
      = { s with
          db := ((s.db.removeChallenge challengeId).createGame clk.startWall
            (s.db.getChallenge challengeId).challengerId userId
            (s.db.getChallenge challengeId).boardSize
            (s.db.getChallenge challengeId).timeLimit).1
          activeGames := mapInsert s.activeGames s.db.gameIdCounter
            (newGame (s.db.getChallenge challengeId) userId s.db.gameIdCounter clk.turnNow)
          userToGame := mapInsert
            (mapInsert s.userToGame (s.db.getChallenge challengeId).challengerId
              s.db.gameIdCounter)
            userId s.db.gameIdCounter } := by
  unfold handleAcceptChallenge
  simp only []
  rw [if_neg h0]
  rfl

theorem handleAcceptChallenge_missing (s : ServerState) (clk : Clock) (clientSocket : Int)
    (userId challengeId : Nat) (h0 : (s.db.getChallenge challengeId).challengeId = 0) :
    handleAcceptChallenge s clk clientSocket userId challengeId
      = (s, [sendError clientSocket "Challenge not found or expired"]) := by
  unfold handleAcceptChallenge
  simp only []
  rw [if_pos h0]

theorem createGame_inGame (db : Database) (wall p1 p2 boardSize timeLimit p : Nat)
    (usr : User) (hp : p = p1 ∨ p = p2) (hu : mapFind db.users p = some usr) :
    ((db.createGame wall p1 p2 boardSize timeLimit).1.getUser p).inGame = true := by
  unfold Database.createGame Database.getUser
  simp only [Database.setUserInGame, mapFind_mapModify, hu]
  by_cases h2 : p2 = p
  · rw [if_pos h2]
    by_cases h1 : p1 = p
    · rw [if_pos h1]; rfl
    · rw [if_neg h1]; rfl
  · rw [if_neg h2]
    have h1 : p1 = p := by
      rcases hp with h | h
      · exact h.symm
      · exact absurd h.symm h2
    rw [if_pos h1]
    rfl

/-- Claim C15: when user `userId` accepts a stored challenge `c` (one the handler
recognises, that is with a nonzero id), `handleAcceptChallenge` registers under the new
game id `s.db.gameIdCounter` a match with `player1Id = c.challengerId`,
`player2Id = userId`, `boardSize = c.boardSize`, a board of `boardSize * boardSize`
cells that are all empty, `moveCount = 0`, `currentTurn = player1Id`, `timeLimit` and
both remaining clocks equal to `c.timeLimit`, and no draw offer; both players are
entered in `userToGame` under the new id, and each of the two that has a user record is
marked in-game. -/
theorem handleAcceptChallenge_starts (s : ServerState) (clk : Clock) (clientSocket : Int)
    (userId challengeId : Nat) (c : Challenge)
    (hc : mapFind s.db.challenges challengeId = some c) (hid : c.challengeId ≠ 0) :
    ∃ game,
      mapFind (handleAcceptChallenge s clk clientSocket userId challengeId).1.activeGames
          s.db.gameIdCounter = some game ∧
        game.gameId = s.db.gameIdCounter ∧
        game.player1Id = c.challengerId ∧ game.player2Id = userId ∧
        game.boardSize = c.boardSize ∧
        game.board = List.replicate (c.boardSize * c.boardSize) 0 ∧
        game.moveCount = 0 ∧ game.currentTurn = game.player1Id ∧
        game.timeLimit = c.timeLimit ∧ game.player1TimeLeft = c.timeLimit ∧
        game.player2TimeLeft = c.timeLimit ∧
        game.drawOffered = false ∧ game.drawOfferedBy = 0 ∧
        mapFind (handleAcceptChallenge s clk clientSocket userId challengeId).1.userToGame
          c.challengerId = some s.db.gameIdCounter ∧
        mapFind (handleAcceptChallenge s clk clientSocket userId challengeId).1.userToGame
          userId = some s.db.gameIdCounter ∧
        ∀ p usr, p = c.challengerId ∨ p = userId → mapFind s.db.users p = some usr →
          ((handleAcceptChallenge s clk clientSocket userId challengeId).1.db.getUser
            p).inGame = true := by
  have hget := getChallenge_of_find s.db challengeId c hc
  have h0 : ¬ (s.db.getChallenge challengeId).challengeId = 0 := by
    rw [hget]
    exact hid
  rw [handleAcceptChallenge_accepted s clk clientSocket userId challengeId h0, hget]
  refine ⟨newGame c userId s.db.gameIdCounter clk.turnNow, ?_, rfl, rfl, rfl, rfl, rfl,
    rfl, rfl, rfl, rfl, rfl, rfl, rfl, ?_, ?_, ?_⟩
  · simp only [mapFind_mapInsert, if_true]
  · simp only [mapFind_mapInsert, if_true]
    split <;> rfl
  · simp only [mapFind_mapInsert, if_true]
  · intro p usr hp hu
    exact createGame_inGame (s.db.removeChallenge challengeId) clk.startWall c.challengerId
      userId c.boardSize c.timeLimit p usr hp hu

set_option maxRecDepth 100000 in
theorem handleAcceptChallenge_starts_witness :
    ∃ game,
      mapFind (handleAcceptChallenge demoChallenged demoClock 11 2 1).1.activeGames
          demoChallenged.db.gameIdCounter = some game ∧
        game.gameId = demoChallenged.db.gameIdCounter ∧
        game.player1Id = (demoChallenge 15).challengerId ∧ game.player2Id = 2 ∧
        game.boardSize = (demoChallenge 15).boardSize ∧
        game.board
          = List.replicate ((demoChallenge 15).boardSize * (demoChallenge 15).boardSize) 0 ∧
        game.moveCount = 0 ∧ game.currentTurn = game.player1Id ∧
        game.timeLimit = (demoChallenge 15).timeLimit ∧
        game.player1TimeLeft = (demoChallenge 15).timeLimit ∧
        game.player2TimeLeft = (demoChallenge 15).timeLimit ∧
        game.drawOffered = false ∧ game.drawOfferedBy = 0 ∧
        mapFind (handleAcceptChallenge demoChallenged demoClock 11 2 1).1.userToGame
          (demoChallenge 15).challengerId = some demoChallenged.db.gameIdCounter ∧
        mapFind (handleAcceptChallenge demoChallenged demoClock 11 2 1).1.userToGame
          2 = some demoChallenged.db.gameIdCounter ∧
        ∀ p usr, p = (demoChallenge 15).challengerId ∨ p = 2 →
          mapFind demoChallenged.db.users p = some usr →
          ((handleAcceptChallenge demoChallenged demoClock 11 2 1).1.db.getUser
            p).inGame = true :=
  handleAcceptChallenge_starts demoChallenged demoClock 11 2 1 (demoChallenge 15)
    (by decide) (by decide)
/-! ## Challenge ids -/

theorem updateGameResult_ids (db : Database) (wall gameId winnerId result : Nat) :
    (db.updateGameResult wall gameId winnerId result).ids = db.ids := by
  unfold Database.updateGameResult
  cases mapFind db.gameRecords gameId <;> rfl

theorem logMove_ids (db : Database) (wall gameId playerId moveNumber x y : Nat) :
    (db.logMove wall gameId playerId moveNumber x y).ids = db.ids := by
  unfold Database.logMove
  cases mapFind db.gameRecords gameId <;> rfl

theorem updateEloRating_ids (pow10 : ℚ → ℚ) (db : Database) (w l : Nat) :
    (db.updateEloRating pow10 w l).1.ids = db.ids := by
  unfold Database.updateEloRating
  cases mapFind db.users w <;> cases mapFind db.users l <;> rfl

theorem handleGameOver_ids (pow10 : ℚ → ℚ) (s : ServerState) (clk : Clock)
    (game : GameState) (winnerId reason : Nat) :
    (handleGameOver pow10 s clk game winnerId reason).1.db.ids = s.db.ids := by
  rw [handleGameOver_db, updateEloRating_ids, updateGameResult_ids]

theorem handleGameDraw_ids (s : ServerState) (clk : Clock) (game : GameState) :
    (handleGameDraw s clk game).1.db.ids = s.db.ids := by
  rw [handleGameDraw_db]
  exact updateGameResult_ids _ _ _ _ _

theorem handleMakeMove_ids (pow10 : ℚ → ℚ) (s : ServerState) (clk : Clock)
    (clientSocket : Int) (userId : Nat) (req : MoveRequest) :
    (handleMakeMove pow10 s clk clientSocket userId req).1.db.ids = s.db.ids := by
  unfold handleMakeMove
  cases hfind : mapFind s.activeGames req.gameId with
  | none => rfl
  | some game =>
    simp only []
    by_cases hturn : game.currentTurn ≠ userId
    · rw [if_pos hturn]
    rw [if_neg hturn]
    by_cases htime : game.timeLimit > 0 ∧ checkTimeout game clk.checkNow = true
    · rw [if_pos htime]; exact handleGameOver_ids _ _ _ _ _ _
    rw [if_neg htime]
    by_cases hvalid : ¬ (isValidMove game req.x req.y = true)
    · rw [if_pos hvalid]
    rw [if_neg hvalid]
    split
    · rw [handleGameOver_ids]
      exact logMove_ids _ _ _ _ _ _ _
    · split
      · rw [handleGameDraw_ids]
        exact logMove_ids _ _ _ _ _ _ _
      · exact logMove_ids _ _ _ _ _ _ _

theorem handleAcceptChallenge_ids (s : ServerState) (clk : Clock) (clientSocket : Int)
    (userId challengeId : Nat) :
    (handleAcceptChallenge s clk clientSocket userId challengeId).1.db.ids
      = if (s.db.getChallenge challengeId).challengeId = 0 then s.db.ids
        else (mapErase s.db.challenges challengeId, s.db.challengeIdCounter,
          (s.db.gameIdCounter + 1) % 4294967296) := by
  by_cases h0 : (s.db.getChallenge challengeId).challengeId = 0
  · rw [if_pos h0, handleAcceptChallenge_missing _ _ _ _ _ h0]
  · rw [if_neg h0, handleAcceptChallenge_accepted _ _ _ _ _ h0]
    rfl

theorem handleDeclineChallenge_ids (s : ServerState) (clientSocket : Int)
    (userId challengeId : Nat) :
    (handleDeclineChallenge s clientSocket userId challengeId).1.db.ids
      = if (s.db.getChallenge challengeId).challengeId = 0 then s.db.ids
        else (mapErase s.db.challenges challengeId, s.db.challengeIdCounter,
          s.db.gameIdCounter) := by
  unfold handleDeclineChallenge
  simp only []
  by_cases h0 : (s.db.getChallenge challengeId).challengeId = 0
  · rw [if_pos h0, if_pos h0]
  · rw [if_neg h0, if_neg h0]
    rfl

theorem getChallenge_created (s : ServerState) (a b boardSize timeLimit : Nat) :
    (s.db.createChallenge a b boardSize timeLimit).1.getChallenge
        (s.db.createChallenge a b boardSize timeLimit).2
      = { challengeId := s.db.challengeIdCounter, challengerId := a, challengedId := b,
          boardSize := boardSize, timeLimit := timeLimit, pending := true } := by
  unfold Database.getChallenge Database.createChallenge
  simp only [mapFind_mapInsert, if_true]

/-- The challenge table and the challenge id counter after one message: either the
counter stays and every stored challenge was stored before, or the counter advances by
one and every stored challenge was stored before or has just been created under the old
counter value. -/
theorem processMessage_challenges (pow10 : ℚ → ℚ) (s : ServerState) (clk : Clock)
    (clientSocket : Int) (userId : Nat) (msg : Message) :
    ((processMessage pow10 s clk clientSocket userId msg).1.db.challengeIdCounter
        = s.db.challengeIdCounter ∧
      ∀ k c, mapFind (processMessage pow10 s clk clientSocket userId msg).1.db.challenges k
          = some c →
        mapFind s.db.challenges k = some c) ∨
    ((processMessage pow10 s clk clientSocket userId msg).1.db.challengeIdCounter
        = (s.db.challengeIdCounter + 1) % 4294967296 ∧
      ∀ k c, mapFind (processMessage pow10 s clk clientSocket userId msg).1.db.challenges k
          = some c →
        mapFind s.db.challenges k = some c ∨
          (k = s.db.challengeIdCounter ∧ c.challengeId = k)) := by
  have keep : ∀ s' : ServerState, s'.db.ids = s.db.ids →
      (s'.db.challengeIdCounter = s.db.challengeIdCounter ∧
        ∀ k c, mapFind s'.db.challenges k = some c → mapFind s.db.challenges k = some c) ∨
      (s'.db.challengeIdCounter = (s.db.challengeIdCounter + 1) % 4294967296 ∧
        ∀ k c, mapFind s'.db.challenges k = some c →
          mapFind s.db.challenges k = some c ∨
            (k = s.db.challengeIdCounter ∧ c.challengeId = k)) := by
    intro s' h
    simp only [Database.ids, Prod.mk.injEq] at h
    refine Or.inl ⟨h.2.1, ?_⟩
    intro k c hk
    rw [h.1] at hk
    exact hk
  cases msg with
  | sendChallenge req =>
    refine Or.inr ⟨rfl, ?_⟩
    intro k c hk
    simp only [processMessage, handleSendChallenge, Database.createChallenge,
      mapFind_mapInsert] at hk
    split at hk
    next e =>
      cases hk
      exact Or.inr ⟨e.symm, e⟩
    next => exact Or.inl hk
  | acceptChallenge id =>
    have h := handleAcceptChallenge_ids s clk clientSocket userId id
    by_cases h0 : (s.db.getChallenge id).challengeId = 0
    · rw [if_pos h0] at h
      exact keep _ h
    · rw [if_neg h0] at h
      simp only [Database.ids, Prod.mk.injEq] at h
      refine Or.inl ⟨h.2.1, ?_⟩
      intro k c hk
      simp only [processMessage] at hk
      rw [h.1, mapFind_mapErase] at hk
      split at hk
      · cases hk
      · exact hk
  | declineChallenge id =>
    have h := handleDeclineChallenge_ids s clientSocket userId id
    by_cases h0 : (s.db.getChallenge id).challengeId = 0
    · rw [if_pos h0] at h
      exact keep _ h
    · rw [if_neg h0] at h
      simp only [Database.ids, Prod.mk.injEq] at h
      refine Or.inl ⟨h.2.1, ?_⟩
      intro k c hk
      simp only [processMessage] at hk
      rw [h.1, mapFind_mapErase] at hk
      split at hk
      · cases hk
      · exact hk
  | makeMove req => exact keep _ (handleMakeMove_ids pow10 s clk clientSocket userId req)
  | resign req =>
    apply keep
    simp only [processMessage, handleResign]
    cases mapFind s.activeGames req.gameId with
    | none => rfl
    | some game => exact handleGameOver_ids _ _ _ _ _ _
  | offerDraw req =>
    apply keep
    simp only [processMessage, handleOfferDraw]
    cases mapFind s.activeGames req.gameId with
    | none => rfl
    | some game =>
      simp only []
      split <;> rfl
  | acceptDraw req =>
    apply keep
    simp only [processMessage, handleAcceptDraw]
    cases mapFind s.activeGames req.gameId with
    | none => rfl
    | some game =>
      simp only []
      split
      · rfl
      · exact handleGameDraw_ids _ _ _
  | declineDraw req =>
    apply keep
    simp only [processMessage, handleDeclineDraw]
    cases mapFind s.activeGames req.gameId with
    | none => rfl
    | some game => rfl
  | requestRematch req => exact keep _ rfl
  | acceptRematch id =>
    simp only [processMessage, handleAcceptRematch]
    cases mapFind s.pendingRematches id with
    | none => exact keep _ rfl
    | some req =>
      simp only []
      have h := handleAcceptChallenge_ids
        { s with
          pendingRematches := mapErase s.pendingRematches id
          db := (s.db.createChallenge req.opponentId userId
            (s.db.getGameRecord id).boardSize 0).1 }
        clk clientSocket userId
        (s.db.createChallenge req.opponentId userId (s.db.getGameRecord id).boardSize 0).2
      by_cases h0 : s.db.challengeIdCounter = 0
      · rw [if_pos (by rw [getChallenge_created]; exact h0)] at h
        simp only [Database.ids, Prod.mk.injEq] at h
        refine Or.inr ⟨h.2.1, ?_⟩
        intro k c hk
        rw [h.1] at hk
        simp only [Database.createChallenge, mapFind_mapInsert] at hk
        split at hk
        next e =>
          cases hk
          exact Or.inr ⟨e.symm, e⟩
        next => exact Or.inl hk
      · rw [if_neg (by rw [getChallenge_created]; exact h0)] at h
        simp only [Database.ids, Prod.mk.injEq] at h
        refine Or.inr ⟨h.2.1, ?_⟩
        intro k c hk
        rw [h.1, mapFind_mapErase] at hk
        split at hk
        · cases hk
        next hne =>
          simp only [Database.createChallenge, mapFind_mapInsert] at hk
          have hne' : ¬ s.db.challengeIdCounter = k := hne
          rw [if_neg hne'] at hk
          exact Or.inl hk
  | declineRematch id =>
    apply keep
    simp only [processMessage, handleDeclineRematch]
    cases mapFind s.pendingRematches id <;> rfl

theorem run_append (pow10 : ℚ → ℚ) (s : ServerState) (a b : List Input) :
    run pow10 s (a ++ b) = run pow10 (run pow10 s a) b := by
  induction a generalizing s with
  | nil => rfl
  | cons i rest ih => exact ih _

/-- As long as fewer than 4294967295 messages have been handled, the challenge id
counter has not wrapped and every stored challenge sits under its own id, which is not 0
and lies below the counter. -/
theorem ReachableIn_challengeIds (pow10 : ℚ → ℚ) (n : Nat) (s : ServerState)
    (h : ReachableIn pow10 n s) (hn : n < 4294967295) :
    1 ≤ s.db.challengeIdCounter ∧ s.db.challengeIdCounter ≤ n + 1 ∧
    ∀ k c, mapFind s.db.challenges k = some c →
      c.challengeId = k ∧ k ≠ 0 ∧ k < s.db.challengeIdCounter := by
  induction h with
  | start s h0 =>
    obtain ⟨_, _, _, hch, hcnt, _⟩ := h0
    refine ⟨by omega, by omega, ?_⟩
    intro k c hf
    rw [hch] at hf
    cases hf
  | step n s clk sock userId msg _ _ ih =>
    obtain ⟨i1, i2, i3⟩ := ih (by omega)
    rcases processMessage_challenges pow10 s clk sock userId msg with ⟨hc, hk⟩ | ⟨hc, hk⟩
    · refine ⟨by omega, by omega, ?_⟩
      intro k c hf
      have := i3 k c (hk k c hf)
      exact ⟨this.1, this.2.1, by omega⟩
    · refine ⟨by omega, by omega, ?_⟩
      intro k c hf
      rcases hk k c hf with h | ⟨h, h'⟩
      · have := i3 k c h
        exact ⟨this.1, this.2.1, by omega⟩
      · exact ⟨h', by omega, by omega⟩
  | gameOver n s clk key game winnerId reason _ _ ih =>
    have e := handleGameOver_ids pow10 s clk game winnerId reason
    simp only [Database.ids, Prod.mk.injEq] at e
    rw [e.1, e.2.1]
    exact ih hn
  | session n s clientSockets userSockets users userIdCounter _ ih => exact ih hn

/-- While the challenge id counter does not wrap, an id below the counter that is not
stored stays not stored. -/
theorem run_consumed (pow10 : ℚ → ℚ) (more : List Input) (s : ServerState) (n : Nat)
    (h2 : s.db.challengeIdCounter ≤ n + 1) (hlen : n + more.length < 4294967295)
    (challengeId : Nat) (hlt : challengeId < s.db.challengeIdCounter)
    (hnone : mapFind s.db.challenges challengeId = none) :
    mapFind (run pow10 s more).db.challenges challengeId = none := by
  induction more generalizing s n with
  | nil => exact hnone
  | cons i rest ih =>
    simp only [List.length_cons] at hlen
    simp only [run]
    have hnone' : mapFind (processMessage pow10 s i.clk i.clientSocket i.userId
        i.msg).1.db.challenges challengeId = none := by
      cases hf : mapFind (processMessage pow10 s i.clk i.clientSocket i.userId
          i.msg).1.db.challenges challengeId with
      | none => rfl
      | some c =>
        exfalso
        rcases processMessage_challenges pow10 s i.clk i.clientSocket i.userId i.msg with
          ⟨_, hk⟩ | ⟨_, hk⟩
        · have := hk _ _ hf
          rw [hnone] at this
          cases this
        · rcases hk _ _ hf with h | ⟨h, _⟩
          · rw [hnone] at h
            cases h
          · omega
    rcases processMessage_challenges pow10 s i.clk i.clientSocket i.userId i.msg with
      ⟨hc, _⟩ | ⟨hc, _⟩
    · exact ih _ (n + 1) (by omega) (by omega) (by omega) hnone'
    · exact ih _ (n + 1) (by omega) (by omega) (by omega) hnone'

theorem run_sendChallenges (pow10 : ℚ → ℚ) (i : Input) (req : ChallengeRequest)
    (hi : i.msg = Message.sendChallenge req) (n : Nat) (s : ServerState)
    (hs : s.db.challengeIdCounter < 4294967296) :
    (run pow10 s (List.replicate n i)).db.challengeIdCounter
      = (s.db.challengeIdCounter + n) % 4294967296 := by
  induction n generalizing s with
  | zero =>
    simp only [List.replicate, run, Nat.add_zero]
    omega
  | succ n ih =>
    simp only [List.replicate, run, hi, processMessage]
    rw [ih (handleSendChallenge s i.clientSocket i.userId req).1
      (by
        simp only [handleSendChallenge, Database.createChallenge]
        omega)]
    simp only [handleSendChallenge, Database.createChallenge]
    omega

theorem zero_id_lost (s : ServerState) (hz : s.db.challengeIdCounter = 0)
    (clientSocket : Int) (a target boardSize timeLimit : Nat) :
    (s.db.createChallenge a target boardSize timeLimit).2 = 0 ∧
    (∃ c, mapFind (handleSendChallenge s clientSocket a
          { targetUserId := target, boardSize := boardSize,
            timeLimit := timeLimit }).1.db.challenges 0 = some c ∧
        c.challengerId = a ∧ c.challengedId = target ∧ c.pending = true) ∧
    ∀ (clk : Clock) (acceptSocket : Int) (userId : Nat),
      handleAcceptChallenge
          (handleSendChallenge s clientSocket a
            { targetUserId := target, boardSize := boardSize,
              timeLimit := timeLimit }).1 clk acceptSocket userId 0
        = ((handleSendChallenge s clientSocket a
              { targetUserId := target, boardSize := boardSize,
                timeLimit := timeLimit }).1,
            [sendError acceptSocket "Challenge not found or expired"]) := by
  have hfind : mapFind (handleSendChallenge s clientSocket a
      { targetUserId := target, boardSize := boardSize,
        timeLimit := timeLimit }).1.db.challenges 0
      = some
        { challengeId := 0, challengerId := a, challengedId := target,
          boardSize := boardSize, timeLimit := timeLimit, pending := true } := by
    simp only [handleSendChallenge, Database.createChallenge, mapFind_mapInsert, hz, if_true]
  refine ⟨?_, ⟨_, hfind, rfl, rfl, rfl⟩, ?_⟩
  · simp only [Database.createChallenge, hz]
  · intro clk acceptSocket userId
    apply handleAcceptChallenge_missing
    rw [getChallenge_of_find _ _ _ hfind]

theorem demoFlooded_counter :
    (demoFlooded 4294967295).db.challengeIdCounter = 0 := by
  unfold demoFlooded demoFlood
  rw [run_sendChallenges demoPow10 (demoSendChallenge 15)
    { targetUserId := 2, boardSize := 15, timeLimit := 0 } rfl 4294967295 (demoStart 0)
    (by norm_num [demoStart])]
  norm_num [demoStart]

/-- Claim C16, counterexample: on the freshly started server of `demoStart 0`, user 1
sends 4294967295 challenges. The challenge id counter, a `uint32_t` that started at 1,
has then wrapped to 0, so the next `createChallenge` returns the id 0. The challenge
stored under that id by one more send is present in the table, and accepting it is
answered with "Challenge not found or expired" and leaves it stored. -/
theorem createChallenge_returns_zero :
    (demoStart 0).Initial ∧
    (demoFlooded 4294967295).db.challengeIdCounter = 0 ∧
    ((demoFlooded 4294967295).db.createChallenge 1 2 15 0).2 = 0 ∧
    (∃ c, mapFind (handleSendChallenge (demoFlooded 4294967295) 10 1
          { targetUserId := 2, boardSize := 15, timeLimit := 0 }).1.db.challenges 0
          = some c ∧
        c.challengerId = 1 ∧ c.challengedId = 2 ∧ c.pending = true) ∧
    handleAcceptChallenge
        (handleSendChallenge (demoFlooded 4294967295) 10 1
          { targetUserId := 2, boardSize := 15, timeLimit := 0 }).1 demoClock 11 2 0
      = ((handleSendChallenge (demoFlooded 4294967295) 10 1
            { targetUserId := 2, boardSize := 15, timeLimit := 0 }).1,
          [sendError 11 "Challenge not found or expired"]) :=
  ⟨demoStart_Initial 0, demoFlooded_counter,
    (zero_id_lost (demoFlooded 4294967295) demoFlooded_counter 10 1 2 15 0).1,
    (zero_id_lost (demoFlooded 4294967295) demoFlooded_counter 10 1 2 15 0).2.1,
    (zero_id_lost (demoFlooded 4294967295) demoFlooded_counter 10 1 2 15 0).2.2
      demoClock 11 2⟩

/-- Claim C16, amended: in every state the server reaches from its start while it has
handled fewer than 4294967295 messages, a challenge id that is not stored (never
created, or already accepted or declined) makes `handleAcceptChallenge` answer
"Challenge not found or expired" and `handleDeclineChallenge` send nothing, both leaving
the whole state (active matches and game records included) as it was; after an accept
or a decline the id is not stored any more, and an id handed out earlier that is not
stored stays so as long as fewer than 4294967295 messages have been handled; the id that
`createChallenge` returns is not 0, and every stored challenge carries its own nonzero
id, so it is not taken for a missing one. -/
theorem challengeId_single_outcome (pow10 : ℚ → ℚ) (n : Nat) (s : ServerState)
    (h : ReachableIn pow10 n s) (hn : n < 4294967295) :
    (∀ (clk : Clock) (clientSocket : Int) (userId challengeId : Nat),
      mapFind s.db.challenges challengeId = none →
      handleAcceptChallenge s clk clientSocket userId challengeId
          = (s, [sendError clientSocket "Challenge not found or expired"]) ∧
        handleDeclineChallenge s clientSocket userId challengeId = (s, [])) ∧
    (∀ (clk : Clock) (clientSocket : Int) (userId challengeId : Nat),
      mapFind (handleAcceptChallenge s clk clientSocket userId
          challengeId).1.db.challenges challengeId = none ∧
        mapFind (handleDeclineChallenge s clientSocket userId
          challengeId).1.db.challenges challengeId = none) ∧
    (∀ (challengeId : Nat) (more : List Input), n + more.length < 4294967295 →
      challengeId < s.db.challengeIdCounter →
      mapFind s.db.challenges challengeId = none →
      mapFind (run pow10 s more).db.challenges challengeId = none) ∧
    (∀ a b boardSize timeLimit : Nat,
      (s.db.createChallenge a b boardSize timeLimit).2 ≠ 0) ∧
    (∀ challengeId c, mapFind s.db.challenges challengeId = some c →
      c.challengeId = challengeId ∧ challengeId ≠ 0 ∧
        (s.db.getChallenge challengeId).challengeId ≠ 0) := by
  obtain ⟨k1, k2, k3⟩ := ReachableIn_challengeIds pow10 n s h hn
  have hzero : ∀ challengeId, mapFind s.db.challenges challengeId = none →
      (s.db.getChallenge challengeId).challengeId = 0 := by
    intro challengeId hf
    unfold Database.getChallenge
    rw [hf]
    rfl
  have hnone : ∀ challengeId, (s.db.getChallenge challengeId).challengeId = 0 →
      mapFind s.db.challenges challengeId = none := by
    intro challengeId hz
    cases hf : mapFind s.db.challenges challengeId with
    | none => rfl
    | some c =>
      rw [getChallenge_of_find _ _ _ hf] at hz
      have := k3 _ _ hf
      omega
  refine ⟨?_, ?_, ?_, ?_, ?_⟩
  · intro clk clientSocket userId challengeId hf
    refine ⟨handleAcceptChallenge_missing _ _ _ _ _ (hzero _ hf), ?_⟩
    unfold handleDeclineChallenge
    simp only []
    rw [if_pos (hzero _ hf)]
  · intro clk clientSocket userId challengeId
    have ha := handleAcceptChallenge_ids s clk clientSocket userId challengeId
    have hd := handleDeclineChallenge_ids s clientSocket userId challengeId
    by_cases hz : (s.db.getChallenge challengeId).challengeId = 0
    · rw [if_pos hz] at ha hd
      simp only [Database.ids, Prod.mk.injEq] at ha hd
      rw [ha.1, hd.1]
      exact ⟨hnone _ hz, hnone _ hz⟩
    · rw [if_neg hz] at ha hd
      simp only [Database.ids, Prod.mk.injEq] at ha hd
      rw [ha.1, hd.1, mapFind_mapErase, if_pos rfl]
      exact ⟨rfl, rfl⟩
  · intro challengeId more hlen hlt hf
    exact run_consumed pow10 more s n k2 hlen challengeId hlt hf
  · intro a b boardSize timeLimit
    simp only [Database.createChallenge]
    omega
  · intro challengeId c hf
    obtain ⟨e1, e2, _⟩ := k3 _ _ hf
    refine ⟨e1, e2, ?_⟩
    rw [getChallenge_of_find _ _ _ hf, e1]
    exact e2

theorem demoChallenged_ReachableIn : ReachableIn demoPow10 1 demoChallenged :=
  ReachableIn.step 0 (demoStart 0) demoClock 10 1
    (Message.sendChallenge { targetUserId := 2, boardSize := 15, timeLimit := 0 })
    (ReachableIn.start _ (demoStart_Initial 0)) ⟨by decide, by decide⟩

theorem challengeId_single_outcome_witness :
    (∀ (clk : Clock) (clientSocket : Int) (userId challengeId : Nat),
      mapFind demoChallenged.db.challenges challengeId = none →
      handleAcceptChallenge demoChallenged clk clientSocket userId challengeId
          = (demoChallenged, [sendError clientSocket "Challenge not found or expired"]) ∧
        handleDeclineChallenge demoChallenged clientSocket userId challengeId
          = (demoChallenged, [])) ∧
    (∀ (clk : Clock) (clientSocket : Int) (userId challengeId : Nat),
      mapFind (handleAcceptChallenge demoChallenged clk clientSocket userId
          challengeId).1.db.challenges challengeId = none ∧
        mapFind (handleDeclineChallenge demoChallenged clientSocket userId
          challengeId).1.db.challenges challengeId = none) ∧
    (∀ (challengeId : Nat) (more : List Input), 1 + more.length < 4294967295 →
      challengeId < demoChallenged.db.challengeIdCounter →
      mapFind demoChallenged.db.challenges challengeId = none →
      mapFind (run demoPow10 demoChallenged more).db.challenges challengeId = none) ∧
    (∀ a b boardSize timeLimit : Nat,
      (demoChallenged.db.createChallenge a b boardSize timeLimit).2 ≠ 0) ∧
    (∀ challengeId c, mapFind demoChallenged.db.challenges challengeId = some c →
      c.challengeId = challengeId ∧ challengeId ≠ 0 ∧
        (demoChallenged.db.getChallenge challengeId).challengeId ≠ 0) :=
  challengeId_single_outcome demoPow10 1 demoChallenged demoChallenged_ReachableIn
    (by decide)

/-! ## Board sizes of challenges and rematches -/

theorem handleAcceptRematch_game (s : ServerState) (clk : Clock) (clientSocket : Int)
    (userId lastGameId : Nat) (req : RematchRequest)
    (hreq : mapFind s.pendingRematches lastGameId = some req)
    (hid : s.db.challengeIdCounter ≠ 0) :
    mapFind (handleAcceptRematch s clk clientSocket userId lastGameId).1.activeGames
        s.db.gameIdCounter
      = some (newGame
          { challengeId := s.db.challengeIdCounter, challengerId := req.opponentId,
            challengedId := userId, boardSize := (s.db.getGameRecord lastGameId).boardSize,
            timeLimit := 0, pending := true }
          userId s.db.gameIdCounter clk.turnNow) := by
  unfold handleAcceptRematch
  rw [hreq]
  simp only []
  rw [handleAcceptChallenge_accepted _ _ _ _ _
    (by rw [getChallenge_created]; exact hid), getChallenge_created]
  have e : (s.db.createChallenge req.opponentId userId
      (s.db.getGameRecord lastGameId).boardSize 0).1.gameIdCounter = s.db.gameIdCounter := rfl
  simp only [mapFind_mapInsert, e, if_true]

set_option maxRecDepth 100000 in
/-- Claim C18, counterexample: user 1 sends a challenge request with board size 3,
whose fields fit their wire types; the server stores challenge 1 with board size 3, and
when user 2 accepts it, match 1 has board size 3. When user 1 asks for a rematch of a
game 7 that has no record and user 2 accepts, the match started has board size 0. -/
theorem handleSendChallenge_stores_any_size :
    (demoSendChallenge 3).msg.InRange ∧
    Reachable demoPow10 (run demoPow10 (demoStart 0) (demoOpening 3)) ∧
    (∃ c, mapFind (run demoPow10 (demoStart 0) [demoSendChallenge 3]).db.challenges 1
        = some c ∧ c.boardSize = 3 ∧ ¬ (10 ≤ c.boardSize ∧ c.boardSize ≤ 19)) ∧
    (∃ g, mapFind (run demoPow10 (demoStart 0) (demoOpening 3)).activeGames 1 = some g ∧
        g.boardSize = 3 ∧ ¬ (10 ≤ g.boardSize ∧ g.boardSize ≤ 19)) ∧
    (∃ g, mapFind (run demoPow10 (demoStart 0)
          [demoRequestRematch 7, demoAcceptRematch 7]).activeGames 1 = some g ∧
        g.boardSize = 0 ∧ ¬ (10 ≤ g.boardSize ∧ g.boardSize ≤ 19)) := by
  refine ⟨demoOpening_InRange 3 (by decide) (demoSendChallenge 3) (List.mem_cons_self _ _),
    ?_, ⟨demoChallenge 3, by decide, by decide, by decide⟩,
    ⟨demoGame 3, by decide, by decide, by decide⟩,
    ⟨newGame
        { challengeId := 1, challengerId := 2, challengedId := 2, boardSize := 0,
          timeLimit := 0, pending := true }
        2 1 0,
      by decide, by decide, by decide⟩⟩
  exact Reachable_run _ _ _ (Reachable.start _ (demoStart_Initial 0))
    (demoOpening_InRange 3 (by decide))

/-- Claim C18, amended: the server stores the board size that a request carries,
without checking it. The challenge created by `handleSendChallenge` has the board size
of the request; the challenge synthesized by `handleAcceptRematch` and the match started
from it have the board size of the stored game record of the last game (0 when there is
none); a match started from a stored challenge has the board size of that challenge.
The range 10..19 is enforced by the client's `sendChallenge`, which replaces every other
size by 15: for a request built by that function the created challenge has
`10 ≤ boardSize ≤ 19`. -/
theorem challenge_boardSize (s : ServerState) (clk : Clock) (clientSocket : Int)
    (userId : Nat) :
    (∀ req : ChallengeRequest,
      mapFind (handleSendChallenge s clientSocket userId req).1.db.challenges
          s.db.challengeIdCounter
        = some
          { challengeId := s.db.challengeIdCounter, challengerId := userId,
            challengedId := req.targetUserId, boardSize := req.boardSize,
            timeLimit := req.timeLimit, pending := true }) ∧
    (∀ targetUserId boardSize timeLimit : Int,
      ∃ c, mapFind (handleSendChallenge s clientSocket userId
            (GomokuClient.sendChallenge targetUserId boardSize timeLimit)).1.db.challenges
            s.db.challengeIdCounter = some c ∧
        10 ≤ c.boardSize ∧ c.boardSize ≤ 19) ∧
    (∀ (challengeId : Nat) (c : Challenge), mapFind s.db.challenges challengeId = some c →
      c.challengeId ≠ 0 →
      ∃ g, mapFind (handleAcceptChallenge s clk clientSocket userId
            challengeId).1.activeGames s.db.gameIdCounter = some g ∧
        g.boardSize = c.boardSize) ∧
    (∀ (lastGameId : Nat) (req : RematchRequest),
      mapFind s.pendingRematches lastGameId = some req → s.db.challengeIdCounter ≠ 0 →
      ∃ g, mapFind (handleAcceptRematch s clk clientSocket userId
            lastGameId).1.activeGames s.db.gameIdCounter = some g ∧
        g.boardSize = (s.db.getGameRecord lastGameId).boardSize) := by
  have hsend : ∀ req : ChallengeRequest,
      mapFind (handleSendChallenge s clientSocket userId req).1.db.challenges
          s.db.challengeIdCounter
        = some
          { challengeId := s.db.challengeIdCounter, challengerId := userId,
            challengedId := req.targetUserId, boardSize := req.boardSize,
            timeLimit := req.timeLimit, pending := true } := by
    intro req
    simp only [handleSendChallenge, Database.createChallenge, mapFind_mapInsert, if_true]
  refine ⟨hsend, ?_, ?_, ?_⟩
  · intro targetUserId boardSize timeLimit
    refine ⟨_, hsend _, ?_⟩
    show 10 ≤ (GomokuClient.sendChallenge targetUserId boardSize timeLimit).boardSize ∧
      (GomokuClient.sendChallenge targetUserId boardSize timeLimit).boardSize ≤ 19
    unfold GomokuClient.sendChallenge
    simp only []
    split
    · omega
    · omega
  · intro challengeId c hc hid
    have hget := getChallenge_of_find s.db challengeId c hc
    have h0 : ¬ (s.db.getChallenge challengeId).challengeId = 0 := by
      rw [hget]
      exact hid
    rw [handleAcceptChallenge_accepted s clk clientSocket userId challengeId h0, hget]
    refine ⟨newGame c userId s.db.gameIdCounter clk.turnNow, ?_, rfl⟩
    simp only [mapFind_mapInsert, if_true]
  · intro lastGameId req hreq hid
    exact ⟨_, handleAcceptRematch_game s clk clientSocket userId lastGameId req hreq hid, rfl⟩

theorem challenge_boardSize_witness :
    (∀ req : ChallengeRequest,
      mapFind (handleSendChallenge (demoStart 0) 10 1 req).1.db.challenges
          (demoStart 0).db.challengeIdCounter
        = some
          { challengeId := (demoStart 0).db.challengeIdCounter, challengerId := 1,
            challengedId := req.targetUserId, boardSize := req.boardSize,
            timeLimit := req.timeLimit, pending := true }) ∧
    (∀ targetUserId boardSize timeLimit : Int,
      ∃ c, mapFind (handleSendChallenge (demoStart 0) 10 1
            (GomokuClient.sendChallenge targetUserId boardSize timeLimit)).1.db.challenges
            (demoStart 0).db.challengeIdCounter = some c ∧
        10 ≤ c.boardSize ∧ c.boardSize ≤ 19) ∧
    (∀ (challengeId : Nat) (c : Challenge),
      mapFind (demoStart 0).db.challenges challengeId = some c →
      c.challengeId ≠ 0 →
      ∃ g, mapFind (handleAcceptChallenge (demoStart 0) demoClock 10 1
            challengeId).1.activeGames (demoStart 0).db.gameIdCounter = some g ∧
        g.boardSize = c.boardSize) ∧
    (∀ (lastGameId : Nat) (req : RematchRequest),
      mapFind (demoStart 0).pendingRematches lastGameId = some req →
      (demoStart 0).db.challengeIdCounter ≠ 0 →
      ∃ g, mapFind (handleAcceptRematch (demoStart 0) demoClock 10 1
            lastGameId).1.activeGames (demoStart 0).db.gameIdCounter = some g ∧
        g.boardSize = ((demoStart 0).db.getGameRecord lastGameId).boardSize) :=
  challenge_boardSize (demoStart 0) demoClock 10 1

/-! ## Rematches -/

/-- The participants of a match started by `handleAcceptRematch`: player 1 is the user
named in the stored request, player 2 the accepting user. -/
theorem handleAcceptRematch_participants (s : ServerState) (clientSocket : Int)
    (requesterId : Nat) (req : RematchRequest) (clk : Clock) (acceptSocket : Int)
    (userId : Nat)
    (hid : s.db.challengeIdCounter ≠ 0) :
    ∃ g, mapFind (handleAcceptRematch
          (handleRequestRematch s clientSocket requesterId req).1 clk acceptSocket userId
          req.lastGameId).1.activeGames s.db.gameIdCounter = some g ∧
      g.player1Id = req.opponentId ∧ g.player2Id = userId := by
  refine ⟨_, handleAcceptRematch_game (handleRequestRematch s clientSocket requesterId req).1
    clk acceptSocket userId req.lastGameId req ?_ hid, rfl, rfl⟩
  simp only [handleRequestRematch, mapFind_mapInsert, if_true]

set_option maxRecDepth 100000 in
/-- Claim C20, the code at the failing input: users 1 and 2 finish game 1 with an agreed
draw; user 1 asks for a rematch naming user 2 as the opponent, and user 2 accepts. The
match started, game 2, has user 2 as both player 1 and player 2; user 1, who asked for
the rematch, is not a participant and has no `userToGame` entry. -/
theorem rematch_drops_requester :
    mapFind (run demoPow10 (demoStart 0) (demoOpening 15)).activeGames 1
      = some (demoGame 15) ∧
    (demoGame 15).player1Id = 1 ∧ (demoGame 15).player2Id = 2 ∧
    demoRematched.activeGames.length = 1 ∧
    (∃ g, mapFind demoRematched.activeGames 2 = some g ∧
      g.player1Id = 2 ∧ g.player2Id = 2 ∧ ¬ (g.player1Id = 1 ∨ g.player2Id = 1)) ∧
    mapFind demoRematched.userToGame 1 = none ∧
    mapFind demoRematched.userToGame 2 = some 2 := by
  refine ⟨by decide, by decide, by decide, by decide,
    ⟨newGame
        { challengeId := 2, challengerId := 2, challengedId := 2, boardSize := 15,
          timeLimit := 0, pending := true }
        2 2 0,
      by decide, by decide, by decide, by decide⟩, by decide, by decide⟩

/-! ## How active matches change -/

theorem handleAcceptChallenge_games (s : ServerState) (clk : Clock) (clientSocket : Int)
    (userId challengeId k : Nat) (g' : GameState)
    (h : mapFind (handleAcceptChallenge s clk clientSocket userId challengeId).1.activeGames k
      = some g') :
    mapFind s.activeGames k = some g' ∨
      (k = s.db.gameIdCounter ∧
        g' = newGame (s.db.getChallenge challengeId) userId k clk.turnNow) := by
  by_cases h0 : (s.db.getChallenge challengeId).challengeId = 0
  · rw [handleAcceptChallenge_missing _ _ _ _ _ h0] at h
    exact Or.inl h
  · rw [handleAcceptChallenge_accepted _ _ _ _ _ h0] at h
    simp only [mapFind_mapInsert] at h
    split at h
    next e =>
      cases h
      exact Or.inr ⟨e.symm, by rw [e]⟩
    next => exact Or.inl h

theorem handleMakeMove_games (pow10 : ℚ → ℚ) (s : ServerState) (clk : Clock)
    (clientSocket : Int) (userId : Nat) (req : MoveRequest) (hs : s.Inv) (k : Nat)
    (g' : GameState)
    (h : mapFind (handleMakeMove pow10 s clk clientSocket userId req).1.activeGames k
      = some g') :
    mapFind s.activeGames k = some g' ∨
      (req.gameId = k ∧ ∃ g, mapFind s.activeGames k = some g ∧ g.currentTurn = userId ∧
        isValidMove g req.x req.y = true ∧
        g' = passTurn (placeStone g userId req.x req.y clk.updateNow) userId
          clk.turnNow) := by
  unfold handleMakeMove at h
  cases hfind : mapFind s.activeGames req.gameId with
  | none =>
    rw [hfind] at h
    exact Or.inl h
  | some game =>
    rw [hfind] at h
    simp only [] at h
    obtain ⟨hgid, _, _⟩ := hs.1 _ _ hfind
    by_cases hturn : game.currentTurn ≠ userId
    · rw [if_pos hturn] at h
      exact Or.inl h
    rw [if_neg hturn] at h
    by_cases htime : game.timeLimit > 0 ∧ checkTimeout game clk.checkNow = true
    · rw [if_pos htime, handleGameOver_activeGames] at h
      split at h
      · cases h
      · exact Or.inl h
    rw [if_neg htime] at h
    by_cases hvalid : ¬ (isValidMove game req.x req.y = true)
    · rw [if_pos hvalid] at h
      exact Or.inl h
    rw [if_neg hvalid] at h
    have f1 : (placeStone game userId req.x req.y clk.updateNow).gameId = req.gameId := by
      rw [(placeStone_frame game userId req.x req.y clk.updateNow).1, hgid]
    split at h
    · rw [handleGameOver_activeGames, f1] at h
      split at h
      · cases h
      next hne =>
        simp only [storeGame, mapFind_mapModify] at h
        rw [if_neg hne] at h
        exact Or.inl h
    · split at h
      · rw [handleGameDraw_activeGames, f1] at h
        split at h
        · cases h
        next hne =>
          simp only [storeGame, mapFind_mapModify] at h
          rw [if_neg hne] at h
          exact Or.inl h
      · simp only [storeGame, mapFind_mapModify] at h
        by_cases hk : req.gameId = k
        · rw [if_pos hk, if_pos hk, ← hk, hfind] at h
          simp only [Option.map_some', Option.some.injEq] at h
          refine Or.inr ⟨hk, game, by rw [← hk]; exact hfind, not_not.mp hturn,
            not_not.mp hvalid, h.symm⟩
        · rw [if_neg hk, if_neg hk] at h
          exact Or.inl h

/-- Every match that is active after one message is accounted for by `GameStep`. -/
theorem processMessage_games (pow10 : ℚ → ℚ) (s : ServerState) (clk : Clock)
    (clientSocket : Int) (userId : Nat) (msg : Message) (hs : s.Inv) (k : Nat)
    (g' : GameState)
    (h : mapFind (processMessage pow10 s clk clientSocket userId msg).1.activeGames k
      = some g') :
    GameStep s clk userId msg k g' := by
  unfold GameStep
  cases msg with
  | sendChallenge req => exact Or.inl h
  | acceptChallenge id =>
    rcases handleAcceptChallenge_games s clk clientSocket userId id k g' h with h' | h'
    · exact Or.inl h'
    · exact Or.inr (Or.inl ⟨h'.1, trivial, _, h'.2⟩)
  | declineChallenge id =>
    left
    simp only [processMessage, handleDeclineChallenge] at h
    split at h <;> exact h
  | makeMove req =>
    rcases handleMakeMove_games pow10 s clk clientSocket userId req hs k g' h with h' | h'
    · exact Or.inl h'
    · obtain ⟨e, g, a, b, c, d⟩ := h'
      exact Or.inr (Or.inr (Or.inl ⟨g, req, rfl, e, a, b, c, d⟩))
  | resign req =>
    left
    simp only [processMessage, handleResign] at h
    cases hfind : mapFind s.activeGames req.gameId with
    | none =>
      rw [hfind] at h
      exact h
    | some game =>
      rw [hfind] at h
      simp only [] at h
      rw [handleGameOver_activeGames] at h
      split at h
      · cases h
      · exact h
  | offerDraw req =>
    simp only [processMessage, handleOfferDraw] at h
    cases hfind : mapFind s.activeGames req.gameId with
    | none =>
      rw [hfind] at h
      exact Or.inl h
    | some game =>
      rw [hfind] at h
      simp only [] at h
      by_cases hd : game.drawOffered = true
      · rw [if_pos hd] at h
        exact Or.inl h
      · rw [if_neg hd] at h
        simp only [storeGame, mapFind_mapModify] at h
        by_cases hk : req.gameId = k
        · rw [if_pos hk, ← hk, hfind] at h
          simp only [Option.map_some', Option.some.injEq] at h
          refine Or.inr (Or.inr (Or.inr (Or.inl ⟨game, req, rfl, hk, by rw [← hk]; exact hfind,
            by simpa using hd, h.symm⟩)))
        · rw [if_neg hk] at h
          exact Or.inl h
  | acceptDraw req =>
    left
    simp only [processMessage, handleAcceptDraw] at h
    cases hfind : mapFind s.activeGames req.gameId with
    | none =>
      rw [hfind] at h
      exact h
    | some game =>
      rw [hfind] at h
      simp only [] at h
      split at h
      · exact h
      · rw [handleGameDraw_activeGames] at h
        split at h
        · cases h
        · exact h
  | declineDraw req =>
    simp only [processMessage, handleDeclineDraw] at h
    cases hfind : mapFind s.activeGames req.gameId with
    | none =>
      rw [hfind] at h
      exact Or.inl h
    | some game =>
      rw [hfind] at h
      simp only [storeGame, mapFind_mapModify] at h
      by_cases hk : req.gameId = k
      · rw [if_pos hk, ← hk, hfind] at h
        simp only [Option.map_some', Option.some.injEq] at h
        exact Or.inr (Or.inr (Or.inr (Or.inr ⟨game, req, rfl, hk, by rw [← hk]; exact hfind,
          h.symm⟩)))
      · rw [if_neg hk] at h
        exact Or.inl h
  | requestRematch req => exact Or.inl h
  | acceptRematch id =>
    simp only [processMessage, handleAcceptRematch] at h
    cases hfind : mapFind s.pendingRematches id with
    | none =>
      rw [hfind] at h
      exact Or.inl h
    | some req =>
      rw [hfind] at h
      simp only [] at h
      rcases handleAcceptChallenge_games _ clk clientSocket userId _ k g' h with h' | h'
      · exact Or.inl h'
      · exact Or.inr (Or.inl ⟨h'.1, trivial, _, h'.2⟩)
  | declineRematch id =>
    left
    simp only [processMessage, handleDeclineRematch] at h
    split at h <;> exact h
/-! ## Who offered the draw -/

theorem ReachableOffers_Reachable (pow10 : ℚ → ℚ) (s : ServerState)
    (h : ReachableOffers pow10 s) : Reachable pow10 s := by
  induction h with
  | start s h0 => exact Reachable.start s h0
  | step s clk sock userId msg _ hmsg _ ih =>
    exact Reachable.step s clk sock userId msg ih hmsg
  | gameOver s clk key game winnerId reason _ hgame ih =>
    exact Reachable.gameOver s clk key game winnerId reason ih hgame
  | session s clientSockets userSockets users userIdCounter _ ih =>
    exact Reachable.session s clientSockets userSockets users userIdCounter ih

theorem GameStep_drawOfferedBy (s : ServerState) (clk : Clock) (userId : Nat)
    (msg : Message) (k : Nat) (g' : GameState) (hstep : GameStep s clk userId msg k g')
    (hoffer : msg.OfferByPlayer s userId)
    (hold : ∀ g, mapFind s.activeGames k = some g → g.drawOffered = true →
      g.drawOfferedBy = g.player1Id ∨ g.drawOfferedBy = g.player2Id)
    (hd : g'.drawOffered = true) :
    g'.drawOfferedBy = g'.player1Id ∨ g'.drawOfferedBy = g'.player2Id := by
  rcases hstep with h | ⟨_, _, c, h⟩ | ⟨g, req, _, _, _, _, _, h⟩ |
    ⟨g, req, hm, hk, hf, _, h⟩ |
    ⟨g, req, _, _, _, h⟩
  · exact hold g' h hd
  · rw [h] at hd
    cases hd
  · rw [h] at hd
    cases hd
  · rw [hm] at hoffer
    have hp := hoffer g (by rw [hk]; exact hf)
    rw [h]
    exact hp
  · rw [h] at hd
    cases hd

set_option maxRecDepth 100000 in
/-- Claim C19, counterexample: in game 1 between users 1 and 2, a draw offer arrives
that carries the user id 3. `handleOfferDraw` records it: in the state reached, match 1
has `drawOffered = true` and `drawOfferedBy = 3`, which is neither `player1Id = 1` nor
`player2Id = 2`. -/
theorem drawOfferedBy_stranger :
    Reachable demoPow10 demoStrangerOffer ∧
    ∃ g, mapFind demoStrangerOffer.activeGames 1 = some g ∧ g.drawOffered = true ∧
      g.drawOfferedBy = 3 ∧ g.player1Id = 1 ∧ g.player2Id = 2 ∧
      ¬ (g.drawOfferedBy = g.player1Id ∨ g.drawOfferedBy = g.player2Id) := by
  constructor
  · apply Reachable_run _ _ _ (Reachable.start _ (demoStart_Initial 0))
    intro i hi
    rcases List.mem_append.mp hi with hi | hi
    · exact demoOpening_InRange 15 (by decide) i hi
    · rw [List.mem_singleton] at hi
      rw [hi]
      trivial
  · exact ⟨{ demoGame 15 with drawOffered := true, drawOfferedBy := 3 }, by decide,
      by decide, by decide, by decide, by decide, by decide⟩

/-- Claim C19, amended: in every state the server reaches when each draw offer for an
active match carries the user id of one of its two players (`handleOfferDraw` itself
does not check this and records whatever id the request carries), every active match
with `drawOffered = true` has `drawOfferedBy` equal to its `player1Id` or its
`player2Id`, whatever other requests arrive with whatever user ids. -/
theorem drawOfferedBy_player (pow10 : ℚ → ℚ) (s : ServerState)
    (h : ReachableOffers pow10 s) (k : Nat) (g : GameState)
    (hg : mapFind s.activeGames k = some g) (hd : g.drawOffered = true) :
    g.drawOfferedBy = g.player1Id ∨ g.drawOfferedBy = g.player2Id := by
  induction h generalizing k g with
  | start s h0 =>
    rw [h0.1] at hg
    cases hg
  | step s clk sock userId msg hr hmsg hoffer ih =>
    have hinv := Reachable_Inv pow10 s (ReachableOffers_Reachable pow10 s hr)
    exact GameStep_drawOfferedBy s clk userId msg k g
      (processMessage_games pow10 s clk sock userId msg hinv k g hg) hoffer
      (fun g0 h0 hd0 => ih k g0 h0 hd0) hd
  | gameOver s clk key game winnerId reason _ _ ih =>
    rw [handleGameOver_activeGames] at hg
    split at hg
    · cases hg
    · exact ih k g hg hd
  | session s clientSockets userSockets users userIdCounter _ ih =>
    exact ih k g hg hd

set_option maxRecDepth 100000 in
theorem demoDrawPending_ReachableOffers : ReachableOffers demoPow10 (demoDrawPending 0) :=
  ReachableOffers.step _ demoClock 10 1 (Message.offerDraw { gameId := 1 })
    (ReachableOffers.step _ demoClock 11 2 (Message.acceptChallenge 1)
      (ReachableOffers.step _ demoClock 10 1
        (Message.sendChallenge { targetUserId := 2, boardSize := 15, timeLimit := 0 })
        (ReachableOffers.start _ (demoStart_Initial 0)) ⟨by decide, by decide⟩ trivial)
      trivial trivial)
    trivial
    (by
      intro g hg
      have e : mapFind demoPlaying.activeGames 1 = some (demoGame 15) := by decide
      have hg' : mapFind demoPlaying.activeGames 1 = some g := hg
      rw [e] at hg'
      cases hg'
      exact Or.inl rfl)

set_option maxRecDepth 100000 in
theorem drawOfferedBy_player_witness :
    demoDrawGame.drawOfferedBy = demoDrawGame.player1Id ∨
      demoDrawGame.drawOfferedBy = demoDrawGame.player2Id :=
  drawOfferedBy_player demoPow10 (demoDrawPending 0) demoDrawPending_ReachableOffers 1
    demoDrawGame (by decide) (by decide)

/-! ## Terminated matches -/

theorem cleanupGame_userToGame (s : ServerState) (gameId : Nat) (game : GameState)
    (h : mapFind s.activeGames gameId = some game) :
    mapFind (cleanupGame s gameId).userToGame game.player1Id = none ∧
    mapFind (cleanupGame s gameId).userToGame game.player2Id = none := by
  unfold cleanupGame
  rw [h]
  constructor <;> simp [mapFind_mapErase]

theorem handleGameOver_userToGame (pow10 : ℚ → ℚ) (s : ServerState) (clk : Clock)
    (game : GameState) (winnerId reason : Nat) :
    (handleGameOver pow10 s clk game winnerId reason).1.userToGame
      = (cleanupGame s game.gameId).userToGame := by
  unfold handleGameOver cleanupGame
  simp only []
  cases mapFind s.activeGames game.gameId <;> rfl

theorem handleGameDraw_userToGame (s : ServerState) (clk : Clock) (game : GameState) :
    (handleGameDraw s clk game).1.userToGame = (cleanupGame s game.gameId).userToGame := by
  unfold handleGameDraw cleanupGame
  simp only []
  cases mapFind s.activeGames game.gameId <;> rfl

theorem getUser_inGame_congr (db db' : Database) (p : Nat)
    (h : (mapFind db'.users p).map User.inGame = (mapFind db.users p).map User.inGame) :
    (db'.getUser p).inGame = (db.getUser p).inGame := by
  unfold Database.getUser
  cases h1 : mapFind db'.users p with
  | none =>
    rw [h1] at h
    cases h2 : mapFind db.users p with
    | none => rfl
    | some u => rw [h2] at h; cases h
  | some u' =>
    rw [h1] at h
    cases h2 : mapFind db.users p with
    | none => rw [h2] at h; cases h
    | some u =>
      rw [h2] at h
      simpa using h

theorem updateGameResult_inGame (db : Database) (wall gameId winnerId result : Nat)
    (r : GameRecord) (hr : mapFind db.gameRecords gameId = some r) (p : Nat)
    (hp : p = r.player1Id ∨ p = r.player2Id) :
    ((db.updateGameResult wall gameId winnerId result).getUser p).inGame = false := by
  unfold Database.updateGameResult Database.getUser
  rw [hr]
  simp only [Database.setUserInGame, mapFind_mapModify]
  cases hu : mapFind db.users p with
  | none =>
    simp only [Option.map_none', ite_self]
    rfl
  | some u =>
    by_cases h2 : r.player2Id = p
    · rw [if_pos h2]
      by_cases h1 : r.player1Id = p
      · rw [if_pos h1]; rfl
      · rw [if_neg h1]; rfl
    · rw [if_neg h2]
      have h1 : r.player1Id = p := by
        rcases hp with h | h
        · exact h.symm
        · exact absurd h.symm h2
      rw [if_pos h1]
      rfl

theorem updateEloRating_inGame (pow10 : ℚ → ℚ) (db : Database) (w l p : Nat) :
    (mapFind (db.updateEloRating pow10 w l).1.users p).map User.inGame
      = (mapFind db.users p).map User.inGame := by
  unfold Database.updateEloRating
  cases mapFind db.users w with
  | none => rfl
  | some uw =>
    cases mapFind db.users l with
    | none => rfl
    | some ul =>
      simp only []
      refine (mapFind_mapModify_proj _ _ _ User.inGame ?_ _).trans ?_
      · intro v; rfl
      refine (mapFind_mapModify_proj _ _ _ User.inGame ?_ _).trans ?_
      · intro v; rfl
      refine (mapFind_mapModify_proj _ _ _ User.inGame ?_ _).trans ?_
      · intro v; rfl
      refine (mapFind_mapModify_proj _ _ _ User.inGame ?_ _).trans ?_
      · intro v; rfl
      rfl

theorem updateDrawStats_inGame (db : Database) (a b p : Nat) :
    (mapFind (db.updateDrawStats a b).users p).map User.inGame
      = (mapFind db.users p).map User.inGame := by
  unfold Database.updateDrawStats
  simp only []
  refine (mapFind_mapModify_proj _ _ _ User.inGame ?_ _).trans ?_
  · intro v; rfl
  refine (mapFind_mapModify_proj _ _ _ User.inGame ?_ _).trans ?_
  · intro v; rfl
  rfl

/-- What `handleGameOver` and `handleGameDraw` leave behind for a match of a state that
satisfies the server invariant: the id is not active, neither player has a `userToGame`
entry and neither is marked in-game. -/
theorem terminated_state (pow10 : ℚ → ℚ) (s : ServerState) (hs : s.Inv) (clk : Clock)
    (gameId : Nat) (game : GameState) (hgame : mapFind s.activeGames gameId = some game)
    (winnerId reason : Nat) (t : ServerState)
    (ht : t = (handleGameOver pow10 s clk game winnerId reason).1 ∨
      t = (handleGameDraw s clk game).1) :
    mapFind t.activeGames gameId = none ∧
    mapFind t.userToGame game.player1Id = none ∧
    mapFind t.userToGame game.player2Id = none ∧
    (t.db.getUser game.player1Id).inGame = false ∧
    (t.db.getUser game.player2Id).inGame = false := by
  obtain ⟨hid, r, hr, hr1, hr2⟩ := Inv_record s hs gameId game hgame
  have hr' : mapFind s.db.gameRecords game.gameId = some r := by rw [hid]; exact hr
  have hgame' : mapFind s.activeGames game.gameId = some game := by rw [hid]; exact hgame
  rcases ht with ht | ht
  · rw [ht]
    refine ⟨?_, ?_, ?_, ?_, ?_⟩
    · rw [handleGameOver_activeGames, if_pos hid]
    · rw [handleGameOver_userToGame]
      exact (cleanupGame_userToGame s game.gameId game hgame').1
    · rw [handleGameOver_userToGame]
      exact (cleanupGame_userToGame s game.gameId game hgame').2
    · rw [handleGameOver_db, getUser_inGame_congr _ _ _ (updateEloRating_inGame _ _ _ _ _)]
      exact updateGameResult_inGame _ _ _ _ _ r hr' _ (Or.inl hr1.symm)
    · rw [handleGameOver_db, getUser_inGame_congr _ _ _ (updateEloRating_inGame _ _ _ _ _)]
      exact updateGameResult_inGame _ _ _ _ _ r hr' _ (Or.inr hr2.symm)
  · rw [ht]
    refine ⟨?_, ?_, ?_, ?_, ?_⟩
    · rw [handleGameDraw_activeGames, if_pos hid]
    · rw [handleGameDraw_userToGame]
      exact (cleanupGame_userToGame s game.gameId game hgame').1
    · rw [handleGameDraw_userToGame]
      exact (cleanupGame_userToGame s game.gameId game hgame').2
    · rw [handleGameDraw_db, getUser_inGame_congr _ _ _ (updateDrawStats_inGame _ _ _ _)]
      exact updateGameResult_inGame _ _ _ _ _ r hr' _ (Or.inl hr1.symm)
    · rw [handleGameDraw_db, getUser_inGame_congr _ _ _ (updateDrawStats_inGame _ _ _ _)]
      exact updateGameResult_inGame _ _ _ _ _ r hr' _ (Or.inr hr2.symm)

theorem Follows_Inv (pow10 : ℚ → ℚ) (gameId : Nat) (t u : ServerState)
    (ht : t.Inv) (h : Follows pow10 gameId t u) : u.Inv := by
  induction h with
  | refl => exact ht
  | step s clk sock userId msg _ hmsg _ ih =>
    exact processMessage_Inv pow10 s clk sock userId msg ih hmsg
  | gameOver s clk key game winnerId reason _ _ ih =>
    exact handleGameOver_Inv pow10 s clk game winnerId reason ih
  | session s clientSockets userSockets users userIdCounter _ ih =>
    exact Inv_of_sub s _ ih (fun _ _ hk => hk) rfl (fun _ => rfl)

/-- An id that is not active stays so while it is not handed out again. -/
theorem Follows_absent (pow10 : ℚ → ℚ) (gameId : Nat) (t u : ServerState)
    (ht : t.Inv) (habs : mapFind t.activeGames gameId = none)
    (h : Follows pow10 gameId t u) : mapFind u.activeGames gameId = none := by
  induction h with
  | refl => exact habs
  | step s clk sock userId msg hf hmsg hid ih =>
    have hinv := Follows_Inv pow10 gameId t s ht hf
    cases hfind : mapFind (processMessage pow10 s clk sock userId msg).1.activeGames gameId with
    | none => rfl
    | some g' =>
      exfalso
      rcases processMessage_games pow10 s clk sock userId msg hinv gameId g' hfind with
        h | ⟨h, hm, _⟩ | ⟨g, _, _, _, h, _⟩ | ⟨g, _, _, _, h, _⟩ | ⟨g, _, _, _, h, _⟩
      · rw [ih] at h; cases h
      · exact hid hm h.symm
      · rw [ih] at h; cases h
      · rw [ih] at h; cases h
      · rw [ih] at h; cases h
  | gameOver s clk key game winnerId reason _ _ ih =>
    rw [handleGameOver_activeGames]
    split
    · rfl
    · exact ih
  | session s clientSockets userSockets users userIdCounter _ ih => exact ih

theorem handlers_game_not_found (pow10 : ℚ → ℚ) (u : ServerState) (gameId : Nat)
    (habs : mapFind u.activeGames gameId = none) (clk : Clock) (clientSocket : Int)
    (userId : Nat) :
    (∀ x y, handleMakeMove pow10 u clk clientSocket userId { gameId := gameId, x := x, y := y }
      = (u, [sendError clientSocket "Game not found"])) ∧
    handleResign pow10 u clk clientSocket userId { gameId := gameId }
      = (u, [sendError clientSocket "Game not found"]) ∧
    handleOfferDraw u clientSocket userId { gameId := gameId }
      = (u, [sendError clientSocket "Game not found"]) ∧
    handleAcceptDraw u clk clientSocket userId { gameId := gameId }
      = (u, [sendError clientSocket "Game not found"]) := by
  refine ⟨?_, ?_, ?_, ?_⟩
  · intro x y
    unfold handleMakeMove
    simp only [habs]
  · unfold handleResign
    simp only [habs]
  · unfold handleOfferDraw
    simp only [habs]
  · unfold handleAcceptDraw
    simp only [habs]

/-- Claim C17, amended: after `handleGameOver` (win, resignation or timeout) or
`handleGameDraw` has run for an active match of a reachable state, the match id is not
in the active set, neither player has a `userToGame` entry, and neither player is marked
in-game; and in every state the server gets to afterwards before `gameIdCounter` hands
the same id out again, `handleMakeMove`, `handleResign`, `handleOfferDraw` and
`handleAcceptDraw` naming that id answer "Game not found" and leave the whole state,
so all ratings, counters and stored results, unchanged. -/
theorem terminated_not_resumed (pow10 : ℚ → ℚ) (s : ServerState) (hs : Reachable pow10 s)
    (clk : Clock) (gameId : Nat) (game : GameState)
    (hgame : mapFind s.activeGames gameId = some game) (winnerId reason : Nat)
    (t : ServerState)
    (ht : t = (handleGameOver pow10 s clk game winnerId reason).1 ∨
      t = (handleGameDraw s clk game).1) :
    mapFind t.activeGames gameId = none ∧
    mapFind t.userToGame game.player1Id = none ∧
    mapFind t.userToGame game.player2Id = none ∧
    (t.db.getUser game.player1Id).inGame = false ∧
    (t.db.getUser game.player2Id).inGame = false ∧
    ∀ u, Follows pow10 gameId t u →
      ∀ (clk' : Clock) (clientSocket : Int) (userId : Nat),
        (∀ x y,
          handleMakeMove pow10 u clk' clientSocket userId
              { gameId := gameId, x := x, y := y }
            = (u, [sendError clientSocket "Game not found"])) ∧
        handleResign pow10 u clk' clientSocket userId { gameId := gameId }
          = (u, [sendError clientSocket "Game not found"]) ∧
        handleOfferDraw u clientSocket userId { gameId := gameId }
          = (u, [sendError clientSocket "Game not found"]) ∧
        handleAcceptDraw u clk' clientSocket userId { gameId := gameId }
          = (u, [sendError clientSocket "Game not found"]) := by
  obtain ⟨a, b, c, d, e⟩ := terminated_state pow10 s (Reachable_Inv pow10 s hs) clk gameId
    game hgame winnerId reason t ht
  refine ⟨a, b, c, d, e, ?_⟩
  intro u hu clk' clientSocket userId
  have hinv := Reachable_Inv pow10 s hs
  have ht' : t.Inv := by
    rcases ht with ht | ht
    · rw [ht]
      exact handleGameOver_Inv pow10 s clk game winnerId reason hinv
    · rw [ht]
      exact handleGameDraw_Inv s clk game hinv
  exact handlers_game_not_found pow10 u gameId
    (Follows_absent pow10 gameId t u ht' a hu) clk' clientSocket userId
/-! ## A match id handed out twice -/

theorem demoRound_ids (pow10 : ℚ → ℚ) (s : ServerState) :
    (demoRound pow10 s).db.challengeIdCounter = (s.db.challengeIdCounter + 1) % 4294967296 ∧
    (demoRound pow10 s).db.gameIdCounter
      = if s.db.challengeIdCounter = 0 then s.db.gameIdCounter
        else (s.db.gameIdCounter + 1) % 4294967296 := by
  have e : demoRound pow10 s
      = (handleAcceptChallenge
          (handleSendChallenge s 10 1 { targetUserId := 2, boardSize := 15, timeLimit := 0 }).1
          demoClock 11 2 s.db.challengeIdCounter).1 := rfl
  have h := handleAcceptChallenge_ids
    (handleSendChallenge s 10 1 { targetUserId := 2, boardSize := 15, timeLimit := 0 }).1
    demoClock 11 2 s.db.challengeIdCounter
  have hc : ((handleSendChallenge s 10 1
      { targetUserId := 2, boardSize := 15, timeLimit := 0 }).1.db.getChallenge
        s.db.challengeIdCounter).challengeId = s.db.challengeIdCounter := by
    have := getChallenge_created s 1 2 15 0
    exact congrArg Challenge.challengeId this
  rw [hc] at h
  rw [e]
  by_cases h0 : s.db.challengeIdCounter = 0
  · rw [if_pos h0] at h
    rw [if_pos h0]
    simp only [Database.ids, Prod.mk.injEq] at h
    exact ⟨h.2.1, h.2.2⟩
  · rw [if_neg h0] at h
    rw [if_neg h0]
    simp only [Database.ids, Prod.mk.injEq] at h
    exact ⟨h.2.1, h.2.2⟩

theorem demoRound_game (pow10 : ℚ → ℚ) (s : ServerState)
    (h0 : s.db.challengeIdCounter ≠ 0) :
    mapFind (demoRound pow10 s).activeGames s.db.gameIdCounter
      = some (newGame
          { challengeId := s.db.challengeIdCounter, challengerId := 1, challengedId := 2,
            boardSize := 15, timeLimit := 0, pending := true }
          2 s.db.gameIdCounter 0) := by
  have e : demoRound pow10 s
      = (handleAcceptChallenge
          (handleSendChallenge s 10 1 { targetUserId := 2, boardSize := 15, timeLimit := 0 }).1
          demoClock 11 2 s.db.challengeIdCounter).1 := rfl
  have hg : (handleSendChallenge s 10 1
      { targetUserId := 2, boardSize := 15, timeLimit := 0 }).1.db.getChallenge
        s.db.challengeIdCounter
      = { challengeId := s.db.challengeIdCounter, challengerId := 1, challengedId := 2,
          boardSize := 15, timeLimit := 0, pending := true } :=
    getChallenge_created s 1 2 15 0
  rw [e, handleAcceptChallenge_accepted _ _ _ _ _ (by rw [hg]; exact h0), hg]
  have e2 : (handleSendChallenge s 10 1
      { targetUserId := 2, boardSize := 15, timeLimit := 0 }).1.db.gameIdCounter
      = s.db.gameIdCounter := rfl
  simp only [mapFind_mapInsert, e2, if_true]
  rfl

/-- The two id counters after `n` rounds: the challenge counter has advanced `n` times,
the game counter once for every round whose challenge id was not 0. -/
theorem demoRounds_ids (pow10 : ℚ → ℚ) (n : Nat) (s : ServerState)
    (hc : s.db.challengeIdCounter < 4294967296) (hg : s.db.gameIdCounter < 4294967296) :
    (run pow10 s (demoRounds n s.db.challengeIdCounter)).db.challengeIdCounter
      = (s.db.challengeIdCounter + n) % 4294967296 ∧
    (run pow10 s (demoRounds n s.db.challengeIdCounter)).db.gameIdCounter < 4294967296 ∧
    ((run pow10 s (demoRounds n s.db.challengeIdCounter)).db.gameIdCounter
        + (s.db.challengeIdCounter + n + 4294967295) / 4294967296) % 4294967296
      = (s.db.gameIdCounter + n + (s.db.challengeIdCounter + 4294967295) / 4294967296)
        % 4294967296 := by
  induction n generalizing s with
  | zero =>
    have e0 : run pow10 s (demoRounds 0 s.db.challengeIdCounter) = s := rfl
    rw [e0]
    exact ⟨by omega, hg, by omega⟩
  | succ n ih =>
    obtain ⟨r1, r2⟩ := demoRound_ids pow10 s
    have e : run pow10 s (demoRounds (n + 1) s.db.challengeIdCounter)
        = run pow10 (demoRound pow10 s)
            (demoRounds n (demoRound pow10 s).db.challengeIdCounter) := by
      rw [r1]
      rfl
    have hg' : (demoRound pow10 s).db.gameIdCounter < 4294967296 := by
      rw [r2]
      split <;> omega
    obtain ⟨a, b, c⟩ := ih (demoRound pow10 s) (by rw [r1]; omega) hg'
    rw [e]
    generalize run pow10 (demoRound pow10 s)
      (demoRounds n (demoRound pow10 s).db.challengeIdCounter) = u at a b c ⊢
    rw [r1] at a c
    rw [r2] at c
    refine ⟨by rw [a]; omega, b, ?_⟩
    by_cases h0 : s.db.challengeIdCounter = 0
    · rw [if_pos h0] at c
      omega
    · rw [if_neg h0] at c
      omega
theorem demoRounds_InRange (n : Nat) : ∀ c, ∀ i ∈ demoRounds n c, i.msg.InRange := by
  induction n with
  | zero =>
    intro c i hi
    cases hi
  | succ n ih =>
    intro c i hi
    simp only [demoRounds, List.mem_cons] at hi
    rcases hi with hi | hi | hi
    · rw [hi]
      exact ⟨by decide, by decide⟩
    · rw [hi]
      trivial
    · exact ih _ i hi

/-- From a state whose two id counters are at 2, 4294967296 rounds bring the game id
counter to 1, and the match started by one more round is stored under the id 1. -/
theorem demoRounds_reissue (pow10 : ℚ → ℚ) (t : ServerState) (n : Nat)
    (hc : t.db.challengeIdCounter = 2) (hg : t.db.gameIdCounter = 2)
    (hn : n = 4294967296) :
    mapFind (run pow10 t
        (demoRounds n 2 ++ [demoSendChallenge 15, demoAccept 2])).activeGames 1
      = some (newGame
          { challengeId := 2, challengerId := 1, challengedId := 2, boardSize := 15,
            timeLimit := 0, pending := true }
          2 1 0) := by
  obtain ⟨a, b, c⟩ := demoRounds_ids pow10 n t (by omega) (by omega)
  rw [hc] at a b c
  rw [hg] at c
  rw [run_append]
  generalize run pow10 t (demoRounds n 2) = u at a b c ⊢
  have a' : u.db.challengeIdCounter = 2 := by omega
  have c' : u.db.gameIdCounter = 1 := by omega
  have h := demoRound_game pow10 u (by omega)
  unfold demoRound at h
  rw [a', c'] at h
  exact h

theorem handleOfferDraw_found (s : ServerState) (clientSocket : Int) (userId gameId : Nat)
    (g : GameState) (h : mapFind s.activeGames gameId = some g) :
    handleOfferDraw s clientSocket userId { gameId := gameId }
      ≠ (s, [sendError clientSocket "Game not found"]) := by
  intro e
  have e2 := congrArg Prod.snd e
  unfold handleOfferDraw at e2
  rw [h] at e2
  simp only [] at e2
  by_cases hd : g.drawOffered = true
  · rw [if_pos hd] at e2
    simp [sendError] at e2
  · rw [if_neg hd] at e2
    unfold sendToUser at e2
    simp only [] at e2
    split at e2
    · simp [sendError, MSG_DRAW_RECEIVED, MSG_ERROR] at e2
    · simp at e2

set_option maxRecDepth 100000 in
theorem demoEnded_Reachable : Reachable demoPow10 demoEnded := by
  apply Reachable_run _ _ _ (Reachable.start _ (demoStart_Initial 0))
  intro i hi
  rcases List.mem_append.mp hi with hi | hi
  · exact demoOpening_InRange 15 (by decide) i hi
  · simp only [List.mem_cons, List.mem_singleton, List.not_mem_nil, or_false] at hi
    rcases hi with hi | hi
    · rw [hi]
      trivial
    · rw [hi]
      trivial

set_option maxRecDepth 100000 in
/-- Claim C17, counterexample: users 1 and 2 play game 1 and end it with an agreed draw,
so `handleGameDraw` runs for match 1 and the id 1 is no longer active. User 1 then
challenges user 2 again and again and user 2 accepts each time: after 4294967296 such
rounds the `uint32_t` game id counter has wrapped around to 1, and the match started by
the next round is stored under the id 1. A draw offer naming match id 1 is then not
answered with "Game not found". -/
theorem terminated_id_reissued :
    Reachable demoPow10 (demoDrawPending 0) ∧
    mapFind (demoDrawPending 0).activeGames 1 = some demoDrawGame ∧
    demoEnded = (handleGameDraw (demoDrawPending 0) demoClock demoDrawGame).1 ∧
    mapFind demoEnded.activeGames 1 = none ∧
    Reachable demoPow10 (demoReissued 4294967296) ∧
    mapFind (demoReissued 4294967296).activeGames 1
      = some (newGame
          { challengeId := 2, challengerId := 1, challengedId := 2, boardSize := 15,
            timeLimit := 0, pending := true }
          2 1 0) ∧
    handleOfferDraw (demoReissued 4294967296) 10 1 { gameId := 1 }
      ≠ (demoReissued 4294967296, [sendError 10 "Game not found"]) := by
  have hfind : mapFind (demoReissued 4294967296).activeGames 1
      = some (newGame
          { challengeId := 2, challengerId := 1, challengedId := 2, boardSize := 15,
            timeLimit := 0, pending := true }
          2 1 0) := by
    unfold demoReissued
    exact demoRounds_reissue demoPow10 demoEnded 4294967296 (by decide) (by decide) rfl
  have hreach : Reachable demoPow10 (demoReissued 4294967296) := by
    unfold demoReissued
    apply Reachable_run _ _ _ demoEnded_Reachable
    intro i hi
    rcases List.mem_append.mp hi with hi | hi
    · exact demoRounds_InRange _ _ i hi
    · simp only [List.mem_cons, List.mem_singleton, List.not_mem_nil, or_false] at hi
      rcases hi with hi | hi
      · rw [hi]
        exact ⟨by decide, by decide⟩
      · rw [hi]
        trivial
  exact ⟨demoDrawPending_Reachable 0, by decide, by decide, by decide, hreach, hfind,
    handleOfferDraw_found _ 10 1 1 _ hfind⟩

set_option maxRecDepth 100000 in
theorem terminated_not_resumed_witness :
    mapFind demoEnded.activeGames 1 = none ∧
    mapFind demoEnded.userToGame demoDrawGame.player1Id = none ∧
    mapFind demoEnded.userToGame demoDrawGame.player2Id = none ∧
    (demoEnded.db.getUser demoDrawGame.player1Id).inGame = false ∧
    (demoEnded.db.getUser demoDrawGame.player2Id).inGame = false ∧
    ∀ u, Follows demoPow10 1 demoEnded u →
      ∀ (clk' : Clock) (clientSocket : Int) (userId : Nat),
        (∀ x y,
          handleMakeMove demoPow10 u clk' clientSocket userId
              { gameId := 1, x := x, y := y }
            = (u, [sendError clientSocket "Game not found"])) ∧
        handleResign demoPow10 u clk' clientSocket userId { gameId := 1 }
          = (u, [sendError clientSocket "Game not found"]) ∧
        handleOfferDraw u clientSocket userId { gameId := 1 }
          = (u, [sendError clientSocket "Game not found"]) ∧
        handleAcceptDraw u clk' clientSocket userId { gameId := 1 }
          = (u, [sendError clientSocket "Game not found"]) :=
  terminated_not_resumed demoPow10 (demoDrawPending 0) (demoDrawPending_Reachable 0)
    demoClock 1 demoDrawGame (by decide) 0 3 demoEnded (Or.inr (by decide))

/-! ## Full board and legal moves -/

/-- Claim C28: for a board size that fits `uint8_t`, `checkDraw` answers true exactly
when `isValidMove` answers false for every pair of coordinates `x`, `y` in `0..255`,
that is, when no legal move remains. -/
theorem checkDraw_iff_no_valid_move (game : GameState) (hbs : game.boardSize < 256) :
    checkDraw game = true ↔
      ∀ x y, x < 256 → y < 256 → isValidMove game x y = false := by
  unfold checkDraw
  rw [checkDrawFrom_iff]
  constructor
  · intro h x y _ _
    cases hv : isValidMove game x y with
    | false => rfl
    | true =>
      obtain ⟨hx, hy, hc⟩ := isValidMove_true game x y hv
      have := h (y * game.boardSize + x) (index_lt game.boardSize x y hx hy)
      rw [Nat.zero_add] at this
      exact absurd hc this
  · intro h j hj hc
    rw [Nat.zero_add] at hc
    have hpos : 0 < game.boardSize := by
      rcases Nat.eq_zero_or_pos game.boardSize with h0 | h0
      · rw [h0] at hj; exact absurd hj (Nat.not_lt_zero _)
      · exact h0
    have hx : j % game.boardSize < game.boardSize := Nat.mod_lt _ hpos
    have hy : j / game.boardSize < game.boardSize := by
      rw [Nat.div_lt_iff_lt_mul hpos]; exact hj
    have hidx : j / game.boardSize * game.boardSize + j % game.boardSize = j := by
      rw [Nat.mul_comm]; exact Nat.div_add_mod j game.boardSize
    have hv := isValidMove_of_empty game (j % game.boardSize) (j / game.boardSize) hx hy
      (by rw [hidx]; exact hc)
    rw [h _ _ (by omega) (by omega)] at hv
    exact absurd hv (by decide)

theorem checkDraw_iff_no_valid_move_witness :
    (demoGame 3).boardSize < 256 ∧
      (checkDraw (demoGame 3) = true ↔
        ∀ x y, x < 256 → y < 256 → isValidMove (demoGame 3) x y = false) :=
  ⟨by decide, checkDraw_iff_no_valid_move (demoGame 3) (by decide)⟩

/-! ## Charging the clock -/

/-- Claim C24: with `e ≥ 0` the elapsed whole seconds since `lastMoveTime`,
`updateTimeAfterMove` leaves both clocks unchanged when `timeLimit = 0`; otherwise
the time left of the player on turn becomes `max(0, old − e)`, which is not larger
than before and not negative, and the time left of the other player is unchanged. -/
theorem updateTimeAfterMove_clocks (game : GameState) (now : Int) (e : Int)
    (helapsed : toInt32 (elapsedSeconds game.lastMoveTime now) = e) (he : 0 ≤ e)
    (h1 : game.player1TimeLeft < 65536) (h2 : game.player2TimeLeft < 65536) :
    (game.timeLimit = 0 →
      (updateTimeAfterMove game now).player1TimeLeft = game.player1TimeLeft ∧
      (updateTimeAfterMove game now).player2TimeLeft = game.player2TimeLeft) ∧
    (game.timeLimit ≠ 0 → game.currentTurn = game.player1Id →
      ((updateTimeAfterMove game now).player1TimeLeft : Int)
        = max 0 ((game.player1TimeLeft : Int) - e) ∧
      (updateTimeAfterMove game now).player1TimeLeft ≤ game.player1TimeLeft ∧
      (0 : Int) ≤ (updateTimeAfterMove game now).player1TimeLeft ∧
      (updateTimeAfterMove game now).player2TimeLeft = game.player2TimeLeft) ∧
    (game.timeLimit ≠ 0 → game.currentTurn ≠ game.player1Id →
      ((updateTimeAfterMove game now).player2TimeLeft : Int)
        = max 0 ((game.player2TimeLeft : Int) - e) ∧
      (updateTimeAfterMove game now).player2TimeLeft ≤ game.player2TimeLeft ∧
      (0 : Int) ≤ (updateTimeAfterMove game now).player2TimeLeft ∧
      (updateTimeAfterMove game now).player1TimeLeft = game.player1TimeLeft) := by
  have key : ∀ old : Nat, old < 65536 →
      ((toUInt16 (max 0 ((old : Int) - e)) : Nat) : Int) = max 0 ((old : Int) - e) ∧
        toUInt16 (max 0 ((old : Int) - e)) ≤ old := by
    intro old hold
    have hr := toUInt16_of_range (max 0 ((old : Int) - e)) (le_max_left _ _)
      (by rcases max_cases (0 : Int) ((old : Int) - e) with ⟨hm, _⟩ | ⟨hm, _⟩ <;> omega)
    constructor
    · exact hr
    · have : ((toUInt16 (max 0 ((old : Int) - e)) : Nat) : Int) ≤ (old : Int) := by
        rw [hr]
        rcases max_cases (0 : Int) ((old : Int) - e) with ⟨hm, _⟩ | ⟨hm, _⟩ <;> omega
      exact_mod_cast this
  refine ⟨?_, ?_, ?_⟩
  · intro h0
    unfold updateTimeAfterMove
    rw [if_pos h0]
    exact ⟨rfl, rfl⟩
  · intro h0 ht
    unfold updateTimeAfterMove
    rw [if_neg h0]
    simp only []
    rw [if_pos ht, helapsed]
    exact ⟨(key _ h1).1, (key _ h1).2, Int.natCast_nonneg _, rfl⟩
  · intro h0 ht
    unfold updateTimeAfterMove
    rw [if_neg h0]
    simp only []
    rw [if_neg ht, helapsed]
    exact ⟨(key _ h2).1, (key _ h2).2, Int.natCast_nonneg _, rfl⟩

theorem updateTimeAfterMove_clocks_witness :
    (updateTimeAfterMove demoTimedGame 25000000000).player1TimeLeft = 35 ∧
      (updateTimeAfterMove demoTimedGame 25000000000).player2TimeLeft = 60 ∧
      (updateTimeAfterMove demoTimedGame 61000000000).player1TimeLeft = 0 := by
  have h := updateTimeAfterMove_clocks demoTimedGame 25000000000 25 (by decide)
    (by decide) (by decide) (by decide)
  have h' := updateTimeAfterMove_clocks demoTimedGame 61000000000 61 (by decide)
    (by decide) (by decide) (by decide)
  obtain ⟨a, _, _, b⟩ := h.2.1 (by decide) (by decide)
  obtain ⟨a', _, _, _⟩ := h'.2.1 (by decide) (by decide)
  refine ⟨?_, b.trans (by decide), ?_⟩
  · have e : max (0 : Int) ((demoTimedGame.player1TimeLeft : Int) - 25) = 35 := by decide
    rw [e] at a
    exact_mod_cast a
  · have e : max (0 : Int) ((demoTimedGame.player1TimeLeft : Int) - 61) = 0 := by decide
    rw [e] at a'
    exact_mod_cast a'

/-! ## Resignation by any requester, expired clocks and continuing moves -/

theorem mem_sendToUser (s : ServerState) (target type userId : Nat) (payload : Payload)
    (m : Sent) (hm : m ∈ sendToUser s target type userId payload) :
    m.payload = payload := by
  unfold sendToUser at hm
  cases hf : mapFind s.userSockets target with
  | none => rw [hf] at hm; cases hm
  | some sock =>
    rw [hf] at hm
    rw [List.mem_singleton] at hm
    rw [hm]

theorem demoPlaying_Reachable : Reachable demoPow10 demoPlaying :=
  Reachable_run _ _ _ (Reachable.start _ (demoStart_Initial 0))
    (demoOpening_InRange 15 (by decide))

theorem demoTimed_Reachable : Reachable demoPow10 demoTimed := by
  apply Reachable_run _ _ _ (Reachable.start _ (demoStart_Initial 0))
  intro i hi
  simp only [demoTimedOpening, List.mem_cons, List.mem_singleton, List.not_mem_nil,
    or_false] at hi
  rcases hi with rfl | rfl
  · exact ⟨by decide, by decide⟩
  · trivial

/-- Claim C29: in a reachable server state, for every requester id `u` other than
`player1Id` of an active match (the second player or a stranger alike), `handleResign`
terminates the match with `player1Id` as winner and reason 1: the match leaves the
active set, its record names `player1Id` as winner with result code 0, the database is
the one left by the Elo update with `player1Id` as winner and `player2Id` as loser, and
the notices carry that winner, that rating change and reason 1. -/
theorem handleResign_any_requester (pow10 : ℚ → ℚ) (s : ServerState)
    (h : Reachable pow10 s) (clk : Clock) (clientSocket : Int) (u : Nat)
    (req : ResignRequest) (game : GameState)
    (hgame : mapFind s.activeGames req.gameId = some game)
    (hu : u ≠ game.player1Id) :
    mapFind (handleResign pow10 s clk clientSocket u req).1.activeGames req.gameId
        = none ∧
    (∃ r, mapFind (handleResign pow10 s clk clientSocket u req).1.db.gameRecords
          req.gameId = some r ∧
        r.winnerId = game.player1Id ∧ r.result = 0) ∧
    (handleResign pow10 s clk clientSocket u req).1.db
      = (Database.updateEloRating pow10
          (s.db.updateGameResult clk.endWall req.gameId game.player1Id 0)
          game.player1Id game.player2Id).1 ∧
    (handleResign pow10 s clk clientSocket u req).2
      = sendToUser s game.player1Id MSG_GAME_OVER game.player1Id
          (Payload.gameOver
            { gameId := req.gameId, winnerId := game.player1Id,
              eloChange := (Database.updateEloRating pow10
                (s.db.updateGameResult clk.endWall req.gameId game.player1Id 0)
                game.player1Id game.player2Id).2,
              reason := 1, totalMoves := game.moveCount })
        ++ sendToUser s game.player2Id MSG_GAME_OVER game.player2Id
          (Payload.gameOver
            { gameId := req.gameId, winnerId := game.player1Id,
              eloChange := (Database.updateEloRating pow10
                (s.db.updateGameResult clk.endWall req.gameId game.player1Id 0)
                game.player1Id game.player2Id).2,
              reason := 1, totalMoves := game.moveCount }) := by
  obtain ⟨hid, r, hr, _, _⟩ := Inv_record s (Reachable_Inv pow10 s h) req.gameId game hgame
  have hopp : opponentOf game u = game.player1Id := by
    unfold opponentOf
    rw [if_neg (fun e => hu e.symm)]
  have hopp' : opponentOf game game.player1Id = game.player2Id := by
    unfold opponentOf
    rw [if_pos rfl]
  have hres : handleResign pow10 s clk clientSocket u req
      = handleGameOver pow10 s clk game game.player1Id 1 := by
    unfold handleResign
    rw [hgame]
    simp only []
    rw [hopp]
  rw [hres]
  refine ⟨?_, ?_, ?_, ?_⟩
  · rw [handleGameOver_activeGames, if_pos hid]
  · rw [← hid] at hr ⊢
    obtain ⟨r', h1, h2, h3, _⟩ := handleGameOver_record pow10 s clk game
      game.player1Id 1 r hr
    rw [if_pos rfl] at h3
    exact ⟨r', h1, h2, h3⟩
  · rw [handleGameOver_db, if_pos rfl, hopp', hid]
  · rw [handleGameOver_sent, if_pos rfl, hopp', hid]

set_option maxRecDepth 100000 in
theorem handleResign_any_requester_witness :
    mapFind demoPlaying.activeGames 1 = some (demoGame 15) ∧
    3 ≠ (demoGame 15).player1Id ∧ 3 ≠ (demoGame 15).player2Id ∧
    mapFind (handleResign demoPow10 demoPlaying demoClock 12 3
        { gameId := 1 }).1.activeGames 1 = none ∧
    (∃ r, mapFind (handleResign demoPow10 demoPlaying demoClock 12 3
          { gameId := 1 }).1.db.gameRecords 1 = some r ∧
        r.winnerId = 1 ∧ r.result = 0) := by
  have h := handleResign_any_requester demoPow10 demoPlaying demoPlaying_Reachable
    demoClock 12 3 { gameId := 1 } (demoGame 15) (by decide) (by decide)
  exact ⟨by decide, by decide, by decide, h.1, h.2.1⟩

theorem checkTimeout_expired (game : GameState) (now : Int) (htl : game.timeLimit > 0)
    (hexp : (if game.currentTurn = game.player1Id then (game.player1TimeLeft : Int)
        else (game.player2TimeLeft : Int))
      - toInt32 (elapsedSeconds game.lastMoveTime now) ≤ 0) :
    checkTimeout game now = true := by
  unfold checkTimeout
  rw [if_neg (by omega)]
  simp only []
  by_cases ht : game.currentTurn = game.player1Id
  · rw [if_pos ht] at hexp ⊢
    exact decide_eq_true hexp
  · rw [if_neg ht] at hexp ⊢
    exact decide_eq_true hexp

theorem checkTimeout_running (game : GameState) (now : Int)
    (hrun : game.timeLimit = 0 ∨
      0 < (if game.currentTurn = game.player1Id then (game.player1TimeLeft : Int)
          else (game.player2TimeLeft : Int))
        - toInt32 (elapsedSeconds game.lastMoveTime now)) :
    ¬ (game.timeLimit > 0 ∧ checkTimeout game now = true) := by
  rintro ⟨htl, hc⟩
  rcases hrun with h0 | hpos
  · omega
  · unfold checkTimeout at hc
    rw [if_neg (by omega)] at hc
    simp only [] at hc
    by_cases ht : game.currentTurn = game.player1Id
    · rw [if_pos ht] at hc hpos
      have := of_decide_eq_true hc
      omega
    · rw [if_neg ht] at hc hpos
      have := of_decide_eq_true hc
      omega

/-- Claim C25: in a reachable server state, when the player on turn of a timed match
sends a move and that player's time left minus the elapsed whole seconds is at most
zero, `handleMakeMove` does what `handleGameOver` does for the stored match with the
opponent as winner and reason 2, whatever the requested cell: the match leaves the
active set, the move list of its record is unchanged, and the notices report the old
`moveCount`. For an untimed match the expiry test is false at every clock reading and
no notice with reason 2 is sent. -/
theorem handleMakeMove_timeout (pow10 : ℚ → ℚ) (s : ServerState)
    (h : Reachable pow10 s) (clk : Clock) (clientSocket : Int) (userId : Nat)
    (req : MoveRequest) (game : GameState)
    (hgame : mapFind s.activeGames req.gameId = some game) :
    (game.currentTurn = userId → game.timeLimit > 0 →
      (if game.currentTurn = game.player1Id then (game.player1TimeLeft : Int)
          else (game.player2TimeLeft : Int))
        - toInt32 (elapsedSeconds game.lastMoveTime clk.checkNow) ≤ 0 →
      handleMakeMove pow10 s clk clientSocket userId req
        = handleGameOver pow10 s clk game (opponentOf game userId) 2 ∧
      mapFind (handleMakeMove pow10 s clk clientSocket userId req).1.activeGames
        req.gameId = none ∧
      (∃ r r', mapFind s.db.gameRecords req.gameId = some r ∧
        mapFind (handleMakeMove pow10 s clk clientSocket userId req).1.db.gameRecords
          req.gameId = some r' ∧
        r'.moves = r.moves ∧ r'.winnerId = opponentOf game userId) ∧
      ∃ eloChange : Int,
        (handleMakeMove pow10 s clk clientSocket userId req).2
          = sendToUser s game.player1Id MSG_GAME_OVER game.player1Id
              (Payload.gameOver
                { gameId := req.gameId, winnerId := opponentOf game userId,
                  eloChange := eloChange, reason := 2, totalMoves := game.moveCount })
            ++ sendToUser s game.player2Id MSG_GAME_OVER game.player2Id
              (Payload.gameOver
                { gameId := req.gameId, winnerId := opponentOf game userId,
                  eloChange := eloChange, reason := 2,
                  totalMoves := game.moveCount })) ∧
    (game.timeLimit = 0 →
      (∀ now, ¬ (game.timeLimit > 0 ∧ checkTimeout game now = true)) ∧
      ∀ m ∈ (handleMakeMove pow10 s clk clientSocket userId req).2,
        ∀ over : GameOver, m.payload = Payload.gameOver over → over.reason ≠ 2) := by
  obtain ⟨hid, r, hr, _, _⟩ := Inv_record s (Reachable_Inv pow10 s h) req.gameId game hgame
  constructor
  · intro hturn htl hexp
    have hres : handleMakeMove pow10 s clk clientSocket userId req
        = handleGameOver pow10 s clk game (opponentOf game userId) 2 := by
      unfold handleMakeMove
      rw [hgame]
      simp only []
      rw [if_neg (fun hne => hne hturn),
        if_pos ⟨htl, checkTimeout_expired game clk.checkNow htl hexp⟩]
    rw [hres]
    refine ⟨rfl, ?_, ?_, ?_⟩
    · rw [handleGameOver_activeGames, if_pos hid]
    · rw [← hid] at hr ⊢
      obtain ⟨r', h1, h2, _, _, h5⟩ := handleGameOver_record pow10 s clk game
        (opponentOf game userId) 2 r hr
      exact ⟨r, r', hr, h1, h5, h2⟩
    · rw [← hid]
      exact ⟨_, handleGameOver_sent pow10 s clk game (opponentOf game userId) 2⟩
  · intro h0
    have hno : ∀ now, ¬ (game.timeLimit > 0 ∧ checkTimeout game now = true) := by
      intro now hc
      omega
    refine ⟨hno, ?_⟩
    intro m hm over hover
    unfold handleMakeMove at hm
    rw [hgame] at hm
    simp only [] at hm
    by_cases hturn : game.currentTurn ≠ userId
    · rw [if_pos hturn, List.mem_singleton] at hm
      rw [hm] at hover
      cases hover
    · rw [if_neg hturn, if_neg (hno clk.checkNow)] at hm
      by_cases hvalid : ¬ (isValidMove game req.x req.y = true)
      · rw [if_pos hvalid, List.mem_singleton] at hm
        rw [hm] at hover
        cases hover
      · rw [if_neg hvalid] at hm
        by_cases hwin : checkWin (placeStone game userId req.x req.y clk.updateNow)
            req.x req.y
            (stoneOf (placeStone game userId req.x req.y clk.updateNow) userId) = true
        · rw [if_pos hwin, handleGameOver_sent] at hm
          rcases List.mem_append.mp hm with hm | hm
          · have := mem_sendToUser _ _ _ _ _ _ hm
            rw [this] at hover
            cases hover
            exact fun e => absurd (show (0 : Nat) = 2 from e) (by decide)
          · have := mem_sendToUser _ _ _ _ _ _ hm
            rw [this] at hover
            cases hover
            exact fun e => absurd (show (0 : Nat) = 2 from e) (by decide)
        · rw [if_neg hwin] at hm
          by_cases hdraw : checkDraw (placeStone game userId req.x req.y clk.updateNow)
              = true
          · rw [if_pos hdraw, handleGameDraw_sent] at hm
            rcases List.mem_append.mp hm with hm | hm
            · have := mem_sendToUser _ _ _ _ _ _ hm
              rw [this] at hover
              cases hover
              exact fun e => absurd (show (3 : Nat) = 2 from e) (by decide)
            · have := mem_sendToUser _ _ _ _ _ _ hm
              rw [this] at hover
              cases hover
              exact fun e => absurd (show (3 : Nat) = 2 from e) (by decide)
          · rw [if_neg hdraw] at hm
            rcases List.mem_append.mp hm with hm | hm
            · have := mem_sendToUser _ _ _ _ _ _ hm
              rw [this] at hover
              cases hover
            · have := mem_sendToUser _ _ _ _ _ _ hm
              rw [this] at hover
              cases hover

set_option maxRecDepth 100000 in
theorem handleMakeMove_timeout_witness :
    mapFind demoTimed.activeGames 1 = some demoTimedGame ∧
    isValidMove demoTimedGame 7 7 = true ∧
    handleMakeMove demoPow10 demoTimed (demoClockAt 61) 10 1 { gameId := 1, x := 7, y := 7 }
      = handleGameOver demoPow10 demoTimed (demoClockAt 61) demoTimedGame 2 2 ∧
    mapFind (handleMakeMove demoPow10 demoTimed (demoClockAt 61) 10 1
      { gameId := 1, x := 7, y := 7 }).1.activeGames 1 = none := by
  have h := (handleMakeMove_timeout demoPow10 demoTimed demoTimed_Reachable
    (demoClockAt 61) 10 1 { gameId := 1, x := 7, y := 7 } demoTimedGame (by decide)).1
    (by decide) (by decide) (by decide)
  exact ⟨by decide, by decide, h.1, h.2.1⟩

theorem handleMakeMove_continues (pow10 : ℚ → ℚ) (s : ServerState) (clk : Clock)
    (clientSocket : Int) (userId : Nat) (req : MoveRequest) (game : GameState)
    (hgame : mapFind s.activeGames req.gameId = some game)
    (hturn : game.currentTurn = userId)
    (hclock : ¬ (game.timeLimit > 0 ∧ checkTimeout game clk.checkNow = true))
    (hvalid : isValidMove game req.x req.y = true)
    (hwin : checkWin (placeStone game userId req.x req.y clk.updateNow) req.x req.y
      (stoneOf (placeStone game userId req.x req.y clk.updateNow) userId) = false)
    (hdraw : checkDraw (placeStone game userId req.x req.y clk.updateNow) = false) :
    handleMakeMove pow10 s clk clientSocket userId req
      = (storeGame
          (storeGame
            { s with
              db := s.db.logMove clk.logWall req.gameId userId
                (placeStone game userId req.x req.y clk.updateNow).moveCount req.x req.y }
            req.gameId (placeStone game userId req.x req.y clk.updateNow))
          req.gameId
          (passTurn (placeStone game userId req.x req.y clk.updateNow) userId
            clk.turnNow),
        sendToUser s game.player1Id MSG_MOVE_RESPONSE game.player1Id
            (Payload.move
              (moveResponse
                (passTurn (placeStone game userId req.x req.y clk.updateNow) userId
                  clk.turnNow)
                clk req.x req.y
                (stoneOf (placeStone game userId req.x req.y clk.updateNow) userId)))
          ++ sendToUser s game.player2Id MSG_OPPONENT_MOVE game.player2Id
            (Payload.move
              (moveResponse
                (passTurn (placeStone game userId req.x req.y clk.updateNow) userId
                  clk.turnNow)
                clk req.x req.y
                (stoneOf (placeStone game userId req.x req.y clk.updateNow) userId)))) := by
  obtain ⟨_, f2, f3, _⟩ := placeStone_frame game userId req.x req.y clk.updateNow
  unfold handleMakeMove
  rw [hgame]
  simp only []
  rw [if_neg (fun h => h hturn), if_neg hclock, if_neg (fun h => h hvalid),
    if_neg (by rw [hwin]; simp), if_neg (by rw [hdraw]; simp)]
  have e1 : (passTurn (placeStone game userId req.x req.y clk.updateNow) userId
      clk.turnNow).player1Id = game.player1Id := f2
  have e2 : (passTurn (placeStone game userId req.x req.y clk.updateNow) userId
      clk.turnNow).player2Id = game.player2Id := f3
  rw [e1, e2]
  rfl

/-- Claim C23: in a reachable server state, let the player on turn of an active match
with two distinct participants send a legal move `(x, y)` while that player's clock
has not run out, and let the move neither complete five in a row nor fill the board.
Then the stored match has the mover's stone (1 for `player1Id`, 2 for `player2Id`) at
`board[y * boardSize + x]` and every other cell as before, `moveCount` one higher,
the other participant on turn, no draw offer pending and `drawOfferedBy` zero; and
the two messages sent carry one response whose `nextTurn` and `moveNumber` are the new
`currentTurn` and `moveCount`. -/
theorem handleMakeMove_applies (pow10 : ℚ → ℚ) (s : ServerState)
    (h : Reachable pow10 s) (clk : Clock) (clientSocket : Int) (userId : Nat)
    (req : MoveRequest) (game : GameState)
    (hgame : mapFind s.activeGames req.gameId = some game)
    (hdistinct : game.player1Id ≠ game.player2Id)
    (hturn : game.currentTurn = userId)
    (hclock : game.timeLimit = 0 ∨
      0 < (if game.currentTurn = game.player1Id then (game.player1TimeLeft : Int)
          else (game.player2TimeLeft : Int))
        - toInt32 (elapsedSeconds game.lastMoveTime clk.checkNow))
    (hvalid : isValidMove game req.x req.y = true)
    (hwin : checkWin (placeStone game userId req.x req.y clk.updateNow) req.x req.y
      (stoneOf (placeStone game userId req.x req.y clk.updateNow) userId) = false)
    (hdraw : checkDraw (placeStone game userId req.x req.y clk.updateNow) = false) :
    ∃ game' : GameState,
      mapFind (handleMakeMove pow10 s clk clientSocket userId req).1.activeGames
        req.gameId = some game' ∧
      game'.boardSize = game.boardSize ∧
      game'.player1Id = game.player1Id ∧ game'.player2Id = game.player2Id ∧
      (userId = game.player1Id → game'.cell (req.y * game.boardSize + req.x) = 1) ∧
      (userId = game.player2Id → game'.cell (req.y * game.boardSize + req.x) = 2) ∧
      (∀ j, j ≠ req.y * game.boardSize + req.x → game'.cell j = game.cell j) ∧
      game'.moveCount = game.moveCount + 1 ∧
      (userId = game.player1Id → game'.currentTurn = game.player2Id) ∧
      (userId = game.player2Id → game'.currentTurn = game.player1Id) ∧
      game'.drawOffered = false ∧ game'.drawOfferedBy = 0 ∧
      ∃ response : MoveResponse,
        response.nextTurn = game'.currentTurn ∧
        response.moveNumber = game'.moveCount ∧
        (handleMakeMove pow10 s clk clientSocket userId req).2
          = sendToUser s game.player1Id MSG_MOVE_RESPONSE game.player1Id
              (Payload.move response)
            ++ sendToUser s game.player2Id MSG_OPPONENT_MOVE game.player2Id
              (Payload.move response) := by
  obtain ⟨_, hginv, _⟩ := (Reachable_Inv pow10 s h).1 _ _ hgame
  obtain ⟨hbs, hlen, hcount, _⟩ := hginv
  obtain ⟨hx, hy, _⟩ := isValidMove_true game req.x req.y hvalid
  have hidx : req.y * game.boardSize + req.x < game.board.length := by
    rw [hlen]
    exact index_lt game.boardSize req.x req.y hx hy
  obtain ⟨_, f2, f3, f4, _, _, f7, _⟩ :=
    placeStone_frame game userId req.x req.y clk.updateNow
  have hle := occupiedCells_le_length game.board
  have hsq : game.boardSize * game.boardSize ≤ 255 * 255 :=
    Nat.mul_le_mul (by omega) (by omega)
  rw [handleMakeMove_continues pow10 s clk clientSocket userId req game hgame hturn
    (checkTimeout_running game clk.checkNow hclock) hvalid hwin hdraw]
  refine ⟨passTurn (placeStone game userId req.x req.y clk.updateNow) userId clk.turnNow,
    ?_, f4, f2, f3, ?_, ?_, ?_, ?_, ?_, ?_, rfl, rfl, _, rfl, rfl, rfl⟩
  · apply storeGame_find _ _ (placeStone game userId req.x req.y clk.updateNow)
    exact storeGame_find _ _ game _ hgame
  · intro hu
    show (placeStone game userId req.x req.y clk.updateNow).cell _ = 1
    rw [placeStone_cell game userId req.x req.y clk.updateNow _ hidx, if_pos rfl]
    unfold stoneOf
    rw [if_pos hu.symm]
  · intro hu
    show (placeStone game userId req.x req.y clk.updateNow).cell _ = 2
    rw [placeStone_cell game userId req.x req.y clk.updateNow _ hidx, if_pos rfl]
    unfold stoneOf
    rw [if_neg (fun e => hdistinct (e.trans hu))]
  · intro j hj
    show (placeStone game userId req.x req.y clk.updateNow).cell j = _
    rw [placeStone_cell game userId req.x req.y clk.updateNow j hidx, if_neg hj]
  · show (placeStone game userId req.x req.y clk.updateNow).moveCount = _
    rw [f7]
    apply Nat.mod_eq_of_lt
    omega
  · intro hu
    show opponentOf (placeStone game userId req.x req.y clk.updateNow) userId = _
    unfold opponentOf
    rw [f2, f3, if_pos hu.symm]
  · intro hu
    show opponentOf (placeStone game userId req.x req.y clk.updateNow) userId = _
    unfold opponentOf
    rw [f2, f3, if_neg (fun e => hdistinct (e.trans hu))]

set_option maxRecDepth 100000 in
theorem handleMakeMove_applies_witness :
    ∃ game' : GameState,
      mapFind (handleMakeMove demoPow10 demoTimed (demoClockAt 25) 10 1
        { gameId := 1, x := 7, y := 7 }).1.activeGames 1 = some game' ∧
      game'.cell (7 * 15 + 7) = 1 ∧ game'.moveCount = 1 ∧ game'.currentTurn = 2 ∧
      game'.drawOffered = false ∧ game'.drawOfferedBy = 0 := by
  obtain ⟨game', h1, _, _, _, h2, _, _, h3, h4, _, h5, h6, _⟩ :=
    handleMakeMove_applies demoPow10 demoTimed demoTimed_Reachable (demoClockAt 25) 10 1
      { gameId := 1, x := 7, y := 7 } demoTimedGame (by decide) (by decide) (by decide)
      (Or.inr (by decide)) (by decide) (by decide) (by decide)
  exact ⟨game', h1, h2 (by decide), h3, h4 (by decide), h5, h6⟩

/-! ## Stone balance -/

theorem count_set (board : List Nat) (i v b : Nat) (hi : i < board.length)
    (h0 : board.getD i 0 = 0) (hb : b ≠ 0) :
    (board.set i v).count b = board.count b + (if v = b then 1 else 0) := by
  induction board generalizing i with
  | nil => simp at hi
  | cons c rest ih =>
    cases i with
    | zero =>
      simp only [List.getD_cons_zero] at h0
      subst h0
      simp only [List.set_cons_zero, List.count_cons, beq_iff_eq]
      rw [if_neg (show ¬ (0 = b) from fun e => hb e.symm)]
      omega
    | succ j =>
      simp only [List.getD_cons_succ] at h0
      simp only [List.length_cons, Nat.add_lt_add_iff_right] at hi
      simp only [List.set_cons_succ, List.count_cons]
      rw [ih j hi h0]
      omega

theorem GameStep_Balanced (s : ServerState) (clk : Clock) (userId : Nat)
    (msg : Message) (k : Nat) (g' : GameState) (hstep : GameStep s clk userId msg k g')
    (hinv : s.Inv)
    (hold : ∀ g, mapFind s.activeGames k = some g → g.Balanced) :
    g'.Balanced := by
  rcases hstep with h | ⟨_, _, c, h⟩ | ⟨g, req, _, hk, hf, hturn, hvalid, h⟩ |
    ⟨g, req, _, hk, hf, _, h⟩ |
    ⟨g, req, _, hk, hf, h⟩
  · exact hold g' h
  · rw [h]
    constructor
    · intro c hc
      exact Or.inl (List.eq_of_mem_replicate hc)
    · intro hne
      constructor
      · intro _
        show (List.replicate _ 0).count 1 = (List.replicate _ 0).count 2
        simp [List.count_replicate]
      · intro ht
        exact absurd ht hne
  · obtain ⟨hcells, hbal⟩ := hold g hf
    obtain ⟨_, ⟨_, hlen, _, hpart⟩, _⟩ := hinv.1 k g hf
    obtain ⟨hx, hy, hcell⟩ := isValidMove_true g req.x req.y hvalid
    have hidx : req.y * g.boardSize + req.x < g.board.length := by
      rw [hlen]
      exact index_lt g.boardSize req.x req.y hx hy
    obtain ⟨_, f2, f3, _, f5, _⟩ := placeStone_frame g userId req.x req.y clk.updateNow
    have e1 : g'.player1Id = g.player1Id := by rw [h]; exact f2
    have e2 : g'.player2Id = g.player2Id := by rw [h]; exact f3
    have e3 : g'.board = g.board.set (req.y * g.boardSize + req.x) (stoneOf g userId) := by
      rw [h]; exact f5
    have e4 : g'.currentTurn = opponentOf g userId := by
      rw [h]
      show opponentOf (placeStone g userId req.x req.y clk.updateNow) userId = _
      unfold opponentOf
      rw [f2, f3]
    have c1 := count_set g.board _ (stoneOf g userId) 1 hidx hcell (by decide)
    have c2 := count_set g.board _ (stoneOf g userId) 2 hidx hcell (by decide)
    constructor
    · intro c hc
      rw [e3] at hc
      rcases List.mem_or_eq_of_mem_set hc with hc | hc
      · exact hcells c hc
      · rw [hc]
        unfold stoneOf
        split
        · exact Or.inr (Or.inl rfl)
        · exact Or.inr (Or.inr rfl)
    · rw [e1, e2, e3, e4, c1, c2]
      intro hne
      obtain ⟨b1, b2⟩ := hbal hne
      unfold stoneOf opponentOf
      by_cases hu : g.player1Id = userId
      · rw [if_pos hu, if_pos hu, if_pos rfl, if_neg (by decide)]
        have := b1 (hturn.trans hu.symm)
        constructor
        · intro ht
          exact absurd ht.symm hne
        · intro _
          omega
      · rw [if_neg hu, if_neg hu, if_neg (by decide), if_pos rfl]
        have hp2 : g.currentTurn = g.player2Id := by
          rcases hpart with hp | hp
          · exact absurd (hp.symm.trans hturn) hu
          · exact hp
        have := b2 hp2
        constructor
        · intro _
          omega
        · intro ht
          exact absurd ht hne
  · rw [h]
    exact hold g hf
  · rw [h]
    exact hold g hf

theorem Reachable_Balanced (pow10 : ℚ → ℚ) (s : ServerState) (h : Reachable pow10 s)
    (k : Nat) (g : GameState) (hg : mapFind s.activeGames k = some g) :
    g.Balanced := by
  induction h generalizing k g with
  | start s h0 =>
    rw [h0.1] at hg
    cases hg
  | step s clk sock userId msg hr hmsg ih =>
    exact GameStep_Balanced s clk userId msg k g
      (processMessage_games pow10 s clk sock userId msg (Reachable_Inv pow10 s hr) k g hg)
      (Reachable_Inv pow10 s hr) (fun g0 h0 => ih k g0 h0)
  | gameOver s clk key game winnerId reason _ _ ih =>
    rw [handleGameOver_activeGames] at hg
    split at hg
    · cases hg
    · exact ih k g hg
  | session s clientSockets userSockets users userIdCounter _ ih =>
    exact ih k g hg

/-- Claim C27: in every reachable server state, every active match whose two
participants differ has only the values 0, 1 and 2 in its cells, and the number of
cells holding 1 minus the number of cells holding 2 is 0 when `currentTurn` is
`player1Id` and 1 when `currentTurn` is `player2Id`. -/
theorem stone_balance (pow10 : ℚ → ℚ) (s : ServerState) (h : Reachable pow10 s)
    (k : Nat) (g : GameState) (hg : mapFind s.activeGames k = some g)
    (hdistinct : g.player1Id ≠ g.player2Id) :
    (∀ i, g.cell i = 0 ∨ g.cell i = 1 ∨ g.cell i = 2) ∧
    (g.currentTurn = g.player1Id →
      (g.board.count 1 : Int) - (g.board.count 2 : Int) = 0) ∧
    (g.currentTurn = g.player2Id →
      (g.board.count 1 : Int) - (g.board.count 2 : Int) = 1) := by
  obtain ⟨hcells, hbal⟩ := Reachable_Balanced pow10 s h k g hg
  obtain ⟨b1, b2⟩ := hbal hdistinct
  refine ⟨?_, ?_, ?_⟩
  · intro i
    unfold GameState.cell
    rw [List.getD_eq_getElem?_getD]
    cases hi : g.board[i]? with
    | none => exact Or.inl rfl
    | some c => exact hcells c (List.mem_iff_getElem?.mpr ⟨i, hi⟩)
  · intro ht
    have := b1 ht
    omega
  · intro ht
    have := b2 ht
    omega

set_option maxRecDepth 100000 in
theorem stone_balance_witness :
    mapFind (run demoPow10 (demoStart 0) (demoOpening 15 ++ [demoMove 1 7 7])).activeGames 1
        = some (passTurn (placeStone (demoGame 15) 1 7 7 0) 1 0) ∧
    (passTurn (placeStone (demoGame 15) 1 7 7 0) 1 0).currentTurn
        = (passTurn (placeStone (demoGame 15) 1 7 7 0) 1 0).player2Id ∧
    ((passTurn (placeStone (demoGame 15) 1 7 7 0) 1 0).board.count 1 : Int)
        - ((passTurn (placeStone (demoGame 15) 1 7 7 0) 1 0).board.count 2 : Int) = 1 :=
  ⟨by decide, by decide,
    (stone_balance demoPow10 _ demoMoved_Reachable 1
      (passTurn (placeStone (demoGame 15) 1 7 7 0) 1 0) (by decide) (by decide)).2.2
      (by decide)⟩

/-! ## Accepting a rematch -/

theorem run_sendChallenges_frame (pow10 : ℚ → ℚ) (i : Input) (req : ChallengeRequest)
    (hi : i.msg = Message.sendChallenge req) (n : Nat) (s : ServerState) :
    (run pow10 s (List.replicate n i)).activeGames = s.activeGames ∧
    (run pow10 s (List.replicate n i)).pendingRematches = s.pendingRematches ∧
    (run pow10 s (List.replicate n i)).db.gameRecords = s.db.gameRecords := by
  induction n generalizing s with
  | zero => exact ⟨rfl, rfl, rfl⟩
  | succ n ih =>
    simp only [List.replicate, run, hi, processMessage]
    obtain ⟨a, b, c⟩ := ih (handleSendChallenge s i.clientSocket i.userId req).1
    exact ⟨a, b, c⟩

theorem handleAcceptRematch_zero (s : ServerState) (clk : Clock) (clientSocket : Int)
    (userId lastGameId : Nat) (req : RematchRequest)
    (hreq : mapFind s.pendingRematches lastGameId = some req)
    (hz : s.db.challengeIdCounter = 0) :
    handleAcceptRematch s clk clientSocket userId lastGameId
      = ({ s with
            pendingRematches := mapErase s.pendingRematches lastGameId
            db := (s.db.createChallenge req.opponentId userId
              (s.db.getGameRecord lastGameId).boardSize 0).1 },
          [sendError clientSocket "Challenge not found or expired"]) := by
  unfold handleAcceptRematch
  rw [hreq]
  simp only []
  rw [handleAcceptChallenge_missing _ _ _ _ _
    (by rw [getChallenge_created]; exact hz)]

theorem demoRematchPending_Reachable (n : Nat) :
    Reachable demoPow10 (demoRematchPending n) := by
  apply Reachable_run _ _ _ demoEnded_Reachable
  intro i hi
  rcases List.mem_append.mp hi with hi | hi
  · rw [List.eq_of_mem_replicate hi]
    exact ⟨by decide, by decide⟩
  · rw [List.mem_singleton] at hi
    rw [hi]
    trivial

set_option maxRecDepth 100000 in
theorem demoEnded_tables :
    demoEnded.db.challengeIdCounter = 2 ∧ demoEnded.activeGames = [] ∧
    demoEnded.pendingRematches = [] ∧
    ∃ r, mapFind demoEnded.db.gameRecords 1 = some r ∧ r.result = 2 ∧ r.boardSize = 15 :=
  ⟨by decide, by decide, by decide, demoEnded.db.getGameRecord 1, by decide, by decide,
    by decide⟩

theorem rematch_after_wrap (n : Nat) (hn : (2 + n) % 4294967296 = 0) :
    mapFind (demoRematchPending n).pendingRematches 1
        = some { lastGameId := 1, opponentId := 2 } ∧
    (∃ r, mapFind (demoRematchPending n).db.gameRecords 1 = some r ∧ r.result = 2 ∧
      r.boardSize = 15) ∧
    (handleAcceptRematch (demoRematchPending n) demoClock 11 2 1).2
        = [sendError 11 "Challenge not found or expired"] ∧
    mapFind (handleAcceptRematch (demoRematchPending n) demoClock 11 2 1).1.pendingRematches
        1 = none ∧
    (handleAcceptRematch (demoRematchPending n) demoClock 11 2 1).1.activeGames = [] := by
  obtain ⟨t1, t2, t3, t4⟩ := demoEnded_tables
  have hcnt := run_sendChallenges demoPow10 (demoSendChallenge 15)
    { targetUserId := 2, boardSize := 15, timeLimit := 0 } rfl n demoEnded
    (by rw [t1]; decide)
  obtain ⟨f1, f2, f3⟩ := run_sendChallenges_frame demoPow10 (demoSendChallenge 15)
    { targetUserId := 2, boardSize := 15, timeLimit := 0 } rfl n demoEnded
  rw [t1, hn] at hcnt
  rw [t2] at f1
  rw [t3] at f2
  have e : demoRematchPending n
      = (handleRequestRematch (run demoPow10 demoEnded (List.replicate n (demoSendChallenge 15)))
          10 1 { lastGameId := 1, opponentId := 2 }).1 := by
    unfold demoRematchPending demoFlood
    rw [run_append]
    rfl
  generalize run demoPow10 demoEnded (List.replicate n (demoSendChallenge 15)) = u
    at hcnt f1 f2 f3 e
  have hreq : mapFind (demoRematchPending n).pendingRematches 1
      = some { lastGameId := 1, opponentId := 2 } := by
    rw [e]
    simp only [handleRequestRematch, mapFind_mapInsert, if_true]
  have hz : (demoRematchPending n).db.challengeIdCounter = 0 := by
    rw [e]
    exact hcnt
  have hact : (demoRematchPending n).activeGames = [] := by
    rw [e]
    exact f1
  have hrec : (demoRematchPending n).db.gameRecords = demoEnded.db.gameRecords := by
    rw [e]
    exact f3
  refine ⟨hreq, ?_, ?_, ?_, ?_⟩
  · rw [hrec]
    exact t4
  · rw [handleAcceptRematch_zero _ _ _ _ _ _ hreq hz]
  · rw [handleAcceptRematch_zero _ _ _ _ _ _ hreq hz]
    simp only [mapFind_mapErase, if_true]
  · rw [handleAcceptRematch_zero _ _ _ _ _ _ hreq hz]
    exact hact

/-- Claim C21, counterexample: users 1 and 2 finish game 1 with an agreed draw, user 1
sends 4294967294 challenges, which brings the `uint32_t` challenge id counter from 2 to
0, and then asks for a rematch of game 1. The request is pending and game 1 has a
finished record, yet when user 2 accepts, `handleAcceptRematch` answers "Challenge not
found or expired": the pending entry is consumed and no match starts. -/
theorem handleAcceptRematch_starts_nothing :
    Reachable demoPow10 (demoRematchPending 4294967294) ∧
    mapFind (demoRematchPending 4294967294).pendingRematches 1
        = some { lastGameId := 1, opponentId := 2 } ∧
    (∃ r, mapFind (demoRematchPending 4294967294).db.gameRecords 1 = some r ∧
      r.result = 2 ∧ r.boardSize = 15) ∧
    (handleAcceptRematch (demoRematchPending 4294967294) demoClock 11 2 1).2
        = [sendError 11 "Challenge not found or expired"] ∧
    mapFind (handleAcceptRematch (demoRematchPending 4294967294) demoClock 11 2
        1).1.pendingRematches 1 = none ∧
    (handleAcceptRematch (demoRematchPending 4294967294) demoClock 11 2 1).1.activeGames
        = [] :=
  ⟨demoRematchPending_Reachable 4294967294, rematch_after_wrap 4294967294 (by norm_num)⟩

/-- Claim C21, amended: when a rematch request is pending for a finished game, the
challenge id counter is not zero and `handleAcceptRematch` is called for that game, the
pending entry is consumed and a match starts under the next game id whose board size
is the one stored in the finished game's record, with `timeLimit` 0 and both clocks at
0. In the state reached, a second acceptance for the same finished game id is answered
with "Rematch request not found" and a decline does nothing. -/
theorem handleAcceptRematch_starts (s : ServerState) (clk : Clock) (clientSocket : Int)
    (userId lastGameId : Nat) (req : RematchRequest) (r : GameRecord)
    (hreq : mapFind s.pendingRematches lastGameId = some req)
    (hrec : mapFind s.db.gameRecords lastGameId = some r)
    (hid : s.db.challengeIdCounter ≠ 0) :
    mapFind (handleAcceptRematch s clk clientSocket userId lastGameId).1.pendingRematches
        lastGameId = none ∧
    (∃ g, mapFind (handleAcceptRematch s clk clientSocket userId lastGameId).1.activeGames
          s.db.gameIdCounter = some g ∧
        g.boardSize = r.boardSize ∧ g.timeLimit = 0 ∧
        g.player1TimeLeft = 0 ∧ g.player2TimeLeft = 0) ∧
    ∀ (clk' : Clock) (socket' : Int) (userId' : Nat),
      handleAcceptRematch (handleAcceptRematch s clk clientSocket userId lastGameId).1
          clk' socket' userId' lastGameId
        = ((handleAcceptRematch s clk clientSocket userId lastGameId).1,
            [sendError socket' "Rematch request not found"]) ∧
      handleDeclineRematch (handleAcceptRematch s clk clientSocket userId lastGameId).1
          socket' userId' lastGameId
        = ((handleAcceptRematch s clk clientSocket userId lastGameId).1, []) := by
  have hgame := handleAcceptRematch_game s clk clientSocket userId lastGameId req hreq hid
  have hpend : mapFind
      (handleAcceptRematch s clk clientSocket userId lastGameId).1.pendingRematches
      lastGameId = none := by
    unfold handleAcceptRematch
    rw [hreq]
    simp only []
    rw [handleAcceptChallenge_accepted _ _ _ _ _
      (by rw [getChallenge_created]; exact hid)]
    simp only [mapFind_mapErase, if_true]
  refine ⟨hpend, ⟨_, hgame, ?_, rfl, rfl, rfl⟩, ?_⟩
  · show (s.db.getGameRecord lastGameId).boardSize = r.boardSize
    unfold Database.getGameRecord
    rw [hrec]
  · intro clk' socket' userId'
    constructor
    · unfold handleAcceptRematch at hpend ⊢
      rw [hpend]
    · unfold handleDeclineRematch
      simp only []
      rw [hpend]

set_option maxRecDepth 100000 in
theorem handleAcceptRematch_starts_witness :
    mapFind (demoRematchPending 0).pendingRematches 1
        = some { lastGameId := 1, opponentId := 2 } ∧
    (demoRematchPending 0).db.challengeIdCounter ≠ 0 ∧
    ((demoRematchPending 0).db.getGameRecord 1).boardSize = 15 ∧
    mapFind (handleAcceptRematch (demoRematchPending 0) demoClock 11 2 1).1.pendingRematches
        1 = none ∧
    ∃ g, mapFind (handleAcceptRematch (demoRematchPending 0) demoClock 11 2 1).1.activeGames
          (demoRematchPending 0).db.gameIdCounter = some g ∧
        g.boardSize = ((demoRematchPending 0).db.getGameRecord 1).boardSize ∧
        g.timeLimit = 0 ∧ g.player1TimeLeft = 0 ∧ g.player2TimeLeft = 0 := by
  have h := handleAcceptRematch_starts (demoRematchPending 0) demoClock 11 2 1
    { lastGameId := 1, opponentId := 2 } ((demoRematchPending 0).db.getGameRecord 1)
    (by decide) (by decide) (by decide)
  exact ⟨by decide, by decide, by decide, h.1, h.2.1⟩

/-! ## The rating change in the game record -/

set_option maxRecDepth 100000 in
/-- Claim C22, the code at the failing input: users 1 and 2, both rated 1000, play
game 1 and user 2 resigns, so `handleGameOver` runs with user 1 as winner.
`updateEloRating` applies the change 16 (user 1 is stored with 1016, user 2 with 984)
and the notices report `eloChange = 16`, while the stored record of game 1 has the
winner 1 and the result code 0 but still the `eloChange = 0` that `createGame` wrote. -/
theorem gameRecord_eloChange_not_set :
    mapFind demoPlaying.activeGames 1 = some (demoGame 15) ∧
    (handleResign demoPow10 demoPlaying demoClock 11 2 { gameId := 1 }).2
      = [ { socket := 10, type := MSG_GAME_OVER, userId := 1,
            payload := Payload.gameOver
              { gameId := 1, winnerId := 1, eloChange := 16, reason := 1,
                totalMoves := 0 } },
          { socket := 11, type := MSG_GAME_OVER, userId := 2,
            payload := Payload.gameOver
              { gameId := 1, winnerId := 1, eloChange := 16, reason := 1,
                totalMoves := 0 } } ] ∧
    ((handleResign demoPow10 demoPlaying demoClock 11 2 { gameId := 1 }).1.db.getUser
      1).eloRating = 1016 ∧
    ((handleResign demoPow10 demoPlaying demoClock 11 2 { gameId := 1 }).1.db.getUser
      2).eloRating = 984 ∧
    ∃ r, mapFind (handleResign demoPow10 demoPlaying demoClock 11 2
          { gameId := 1 }).1.db.gameRecords 1 = some r ∧
      r.winnerId = 1 ∧ r.result = 0 ∧ r.eloChange = 0 := by
  have hres : handleResign demoPow10 demoPlaying demoClock 11 2 { gameId := 1 }
      = handleGameOver demoPow10 demoPlaying demoClock (demoGame 15) 1 1 := by
    unfold handleResign
    rw [show mapFind demoPlaying.activeGames ({ gameId := 1 } : ResignRequest).gameId
      = some (demoGame 15) from by decide]
    rfl
  have hw : mapFind (demoPlaying.db.updateGameResult demoClock.endWall (demoGame 15).gameId 1
      (if 1 = (demoGame 15).player1Id then 0 else 1)).users 1 = some (demoUser 1 0) := by
    decide
  have hl : mapFind (demoPlaying.db.updateGameResult demoClock.endWall (demoGame 15).gameId 1
      (if 1 = (demoGame 15).player1Id then 0 else 1)).users (opponentOf (demoGame 15) 1)
      = some (demoUser 2 0) := by
    decide
  obtain ⟨d1, d2, d3⟩ := updateEloRating_spec demoPow10 _ 1 (opponentOf (demoGame 15) 1)
    (demoUser 1 0) (demoUser 2 0) hw hl (by decide)
  have hd : eloDelta demoPow10 (demoUser 1 0).eloRating (demoUser 2 0).eloRating = 16 :=
    eloDelta_equal demoPow10 rfl 1000
  rw [hd] at d1 d2 d3
  obtain ⟨r', r1, r2, r3, r4, _⟩ := handleGameOver_record demoPow10 demoPlaying demoClock
    (demoGame 15) 1 1 (demoPlaying.db.getGameRecord 1) (by decide)
  rw [hres]
  refine ⟨by decide, ?_, ?_, ?_, r', r1, r2, r3, r4.trans (by decide)⟩
  · rw [handleGameOver_sent, d1]
    decide
  · rw [handleGameOver_db, d2]
    decide
  · rw [handleGameOver_db]
    exact d3.trans (by decide)

/-! ## Game history -/

theorem demoSort_sorts : SortsByStartTime demoSort := by
  intro l
  constructor
  · exact List.perm_insertionSort _ l
  · have hs := @List.sorted_insertionSort GameRecord
      (fun a b => b.startTime ≤ a.startTime) _
      ⟨fun a b => Nat.le_total b.startTime a.startTime⟩
      ⟨fun a b c hab hbc => Nat.le_trans hbc hab⟩ l
    have hs' : List.Pairwise (fun a b : GameRecord => b.startTime ≤ a.startTime)
        (demoSort l) := hs
    exact hs'.imp (fun h => Nat.not_lt.mpr h)

/-- Claim C30: whatever order `std::sort` leaves among records with equal start times,
`getUserGameHistory(u, k)` returns at most `k` records; each is a stored record of a
completed game (`result ≠ 255`) with `u` as one of the players; they are ordered by
`startTime` from newest to oldest; and no stored completed game of `u` that is left out
has a `startTime` greater than that of a returned record. -/
theorem getUserGameHistory_newest (sort : List GameRecord → List GameRecord)
    (hsort : SortsByStartTime sort) (db : Database) (u k : Nat) :
    (db.getUserGameHistory sort u k).length ≤ k ∧
    (∀ r ∈ db.getUserGameHistory sort u k,
      (∃ p ∈ db.gameRecords, p.2 = r) ∧ r.result ≠ 255 ∧
        (r.player1Id = u ∨ r.player2Id = u)) ∧
    List.Pairwise (fun a b => a.startTime ≥ b.startTime)
      (db.getUserGameHistory sort u k) ∧
    ∀ p ∈ db.gameRecords, p.2.result ≠ 255 → (p.2.player1Id = u ∨ p.2.player2Id = u) →
      p.2 ∉ db.getUserGameHistory sort u k →
      ∀ r ∈ db.getUserGameHistory sort u k, p.2.startTime ≤ r.startTime := by
  have hmem : ∀ r : GameRecord,
      r ∈ (db.gameRecords.map Prod.snd).filter
        (fun r => r.result != 255 && (r.player1Id == u || r.player2Id == u)) ↔
      (∃ p ∈ db.gameRecords, p.2 = r) ∧ r.result ≠ 255 ∧
        (r.player1Id = u ∨ r.player2Id = u) := by
    intro r
    simp only [List.mem_filter, List.mem_map, Bool.and_eq_true, bne_iff_ne, ne_eq,
      Bool.or_eq_true, beq_iff_eq]
  have htake : db.getUserGameHistory sort u k
      = (sort ((db.gameRecords.map Prod.snd).filter
          (fun r => r.result != 255 && (r.player1Id == u || r.player2Id == u)))).take k := by
    unfold Database.getUserGameHistory
    simp only []
    split
    · rfl
    · rw [List.take_of_length_le (by omega)]
  rw [htake]
  generalize (db.gameRecords.map Prod.snd).filter
    (fun r => r.result != 255 && (r.player1Id == u || r.player2Id == u)) = q at hmem
  obtain ⟨hperm, hpair⟩ := hsort q
  refine ⟨List.length_take_le k _, ?_, ?_, ?_⟩
  · intro r hr
    exact (hmem r).mp (hperm.mem_iff.mp (List.mem_of_mem_take hr))
  · exact (List.Pairwise.sublist (List.take_sublist k _) hpair).imp
      (fun h => Nat.not_lt.mp h)
  · intro p hp hres hplayer hout r hr
    have hq : p.2 ∈ sort q := hperm.mem_iff.mpr ((hmem p.2).mpr ⟨⟨p, hp, rfl⟩, hres, hplayer⟩)
    rw [← List.take_append_drop k (sort q)] at hq hpair
    rcases List.mem_append.mp hq with hq | hq
    · exact absurd hq hout
    · have := (List.pairwise_append.mp hpair).2.2 r hr p.2 hq
      omega

theorem getUserGameHistory_newest_witness :
    SortsByStartTime demoSort ∧
    (demoArchive.getUserGameHistory demoSort 1 2).map GameRecord.gameId = [2, 3] ∧
    (demoArchive.getUserGameHistory demoSort 1 2).length ≤ 2 ∧
    List.Pairwise (fun a b => a.startTime ≥ b.startTime)
      (demoArchive.getUserGameHistory demoSort 1 2) :=
  ⟨demoSort_sorts, by decide,
    (getUserGameHistory_newest demoSort demoSort_sorts demoArchive 1 2).1,
    (getUserGameHistory_newest demoSort demoSort_sorts demoArchive 1 2).2.2.1⟩

/-! ## The timeout monitor -/

/-- A sweep over matches none of which is timed and expired changes nothing and sends
nothing. -/
theorem timeoutSweep_idle (pow10 : ℚ → ℚ) (clk : Nat → Clock) (s : ServerState)
    (keys : List Nat)
    (hnone : ∀ key ∈ keys, ∀ game, mapFind s.activeGames key = some game →
      ¬ (game.timeLimit > 0 ∧ checkTimeout game (clk key).checkNow = true)) :
    timeoutSweep pow10 clk s keys = some (s, []) := by
  induction keys with
  | nil => rfl
  | cons key rest ih =>
    have hrest := ih (fun k hk => hnone k (List.mem_cons_of_mem _ hk))
    unfold timeoutSweep
    cases hf : mapFind s.activeGames key with
    | none => exact hrest
    | some game =>
      simp only []
      rw [if_neg (hnone key (List.mem_cons_self _ _) game hf)]
      exact hrest

/-- A sweep that reaches a timed and expired match has no defined result: the match
is erased from `activeGames` while the loop iterator points at it. -/
theorem timeoutSweep_expired (pow10 : ℚ → ℚ) (clk : Nat → Clock) (s : ServerState)
    (hinv : s.Inv) (keys : List Nat)
    (hsome : ∃ key ∈ keys, ∃ game, mapFind s.activeGames key = some game ∧
      game.timeLimit > 0 ∧ checkTimeout game (clk key).checkNow = true) :
    timeoutSweep pow10 clk s keys = none := by
  induction keys with
  | nil =>
    obtain ⟨_, hk, _⟩ := hsome
    cases hk
  | cons key rest ih =>
    unfold timeoutSweep
    cases hf : mapFind s.activeGames key with
    | none =>
      simp only []
      apply ih
      obtain ⟨k, hk, g, hg, hexp⟩ := hsome
      rcases List.mem_cons.mp hk with hk | hk
      · rw [hk, hf] at hg
        cases hg
      · exact ⟨k, hk, g, hg, hexp⟩
    | some game =>
      simp only []
      by_cases hexp : game.timeLimit > 0 ∧ checkTimeout game (clk key).checkNow = true
      · rw [if_pos hexp]
        rw [handleGameOver_activeGames, if_pos (hinv.1 key game hf).1]
      · rw [if_neg hexp]
        apply ih
        obtain ⟨k, hk, g, hg, hexp'⟩ := hsome
        rcases List.mem_cons.mp hk with hk | hk
        · subst hk
          rw [hf] at hg
          cases hg
          exact absurd hexp' hexp
        · exact ⟨k, hk, g, hg, hexp'⟩

theorem mapFind_key_mem {α : Type} (m : List (Nat × α)) (key : Nat) (v : α)
    (h : mapFind m key = some v) : key ∈ m.map Prod.fst :=
  List.mem_map.mpr ⟨(key, v), mapFind_mem m key v h, rfl⟩

set_option maxRecDepth 100000 in
/-- Claim C26, the code at the failing input: users 1 and 2 play the timed game 1 with
60 seconds each, and the monitor sweeps 61 seconds after the start with user 1 on turn.
Game 1 is timed and its clock has run out, so the sweep calls `handleGameOver`, which
erases game 1 from `activeGames` while the loop iterator points at it: the sweep has no
defined result. A sweep one second after the start, when nothing has run out, leaves
the server as it is. -/
theorem timeoutChecker_erases_under_iterator :
    Reachable demoPow10 demoTimed ∧
    mapFind demoTimed.activeGames 1 = some demoTimedGame ∧
    demoTimedGame.timeLimit = 60 ∧ demoTimedGame.currentTurn = 1 ∧
    checkTimeout demoTimedGame (demoClockAt 61).checkNow = true ∧
    mapFind (handleGameOver demoPow10 demoTimed (demoClockAt 61) demoTimedGame
      (opponentOf demoTimedGame demoTimedGame.currentTurn) 2).1.activeGames 1 = none ∧
    timeoutChecker demoPow10 (fun _ => demoClockAt 61) demoTimed = none ∧
    timeoutChecker demoPow10 (fun _ => demoClockAt 1) demoTimed = some (demoTimed, []) := by
  have hfind : mapFind demoTimed.activeGames 1 = some demoTimedGame := by decide
  refine ⟨demoTimed_Reachable, hfind, by decide, by decide, by decide, ?_, ?_, ?_⟩
  · rw [handleGameOver_activeGames, if_pos (by decide)]
  · exact timeoutSweep_expired demoPow10 _ demoTimed
      (Reachable_Inv demoPow10 _ demoTimed_Reachable) _
      ⟨1, mapFind_key_mem _ 1 _ hfind, demoTimedGame, hfind, by decide, by decide⟩
  · apply timeoutSweep_idle
    intro key _ game hg
    have hk : key = 1 := by
      have hmem := mapFind_key_mem _ key game hg
      have e : demoTimed.activeGames.map Prod.fst = [1] := by decide
      rw [e, List.mem_singleton] at hmem
      exact hmem
    rw [hk, hfind] at hg
    cases hg
    decide

end Gomoku
